import Mathlib

/-!
# CHIP-8 interpreter core (`chip8_core.c`, `chip8_core.h`)

A shallow embedding of the virtual machine of rgburke/CHIP-8.

* `uint8_t` / `uint16_t` values are natural numbers; every store of a computed
  value into a field of width `w` is written with an explicit `% 2^w`.
* The fixed-size C arrays (`memory`, `register_V`, `stack`, `display`,
  `input_keys`) are functions `Nat → Nat`; the array length is checked at every
  access whose index is computed from program data, and an access outside the
  array (undefined behaviour in C) makes the operation return `none`.
* `rand()` is an explicit argument of the instruction engine.
* `C8_LOG_ERROR` only prints; it has no effect on the machine state and is omitted.
-/

namespace C8

/-! ## Constants of `chip8_core.h` -/

def C8_MEMORY_SIZE : Nat := 0x1000
def C8_V_REGISTERS : Nat := 16
def C8_STACK_SIZE : Nat := 16
def C8_DISPLAY_MAX_HEIGHT : Nat := 64
def C8_DISPLAY_MAX_WIDTH : Nat := 128
def C8_DISPLAY_HEIGHT : Nat := 32
def C8_DISPLAY_WIDTH : Nat := 64
def C8_KEY_NUM : Nat := 16
def C8_TIMER_FREQ_HZ : Nat := 60
def C8_PROGRAM_MEMORY_START : Nat := 0x200
def C8_PROGRAM_MEMORY_SIZE : Nat := C8_MEMORY_SIZE - C8_PROGRAM_MEMORY_START
def UINT8_MAX : Nat := 255

/-- The `Chip8` record of `chip8_core.h`. -/
structure Chip8 where
  /-- Field `uint8_t memory[C8_MEMORY_SIZE]`. -/
  memory : Nat → Nat
  /-- Field `uint8_t register_V[C8_V_REGISTERS]`. -/
  register_V : Nat → Nat
  /-- Field `uint16_t register_I`. -/
  register_I : Nat
  /-- Field `uint8_t register_delay_timer`. -/
  register_delay_timer : Nat
  /-- Field `uint8_t register_sound_timer`. -/
  register_sound_timer : Nat
  /-- Field `uint16_t program_counter`. -/
  program_counter : Nat
  /-- Field `uint16_t stack[C8_STACK_SIZE]`. -/
  stack : Nat → Nat
  /-- Field `uint8_t stack_pointer`. -/
  stack_pointer : Nat
  /-- Field `uint8_t display[C8_DISPLAY_MAX_WIDTH * C8_DISPLAY_MAX_HEIGHT]`. -/
  display : Nat → Nat
  /-- Field `uint8_t display_height`. -/
  display_height : Nat
  /-- Field `uint8_t display_width`. -/
  display_width : Nat
  /-- Field `bool update_display`. -/
  update_display : Bool
  /-- Field `uint8_t input_keys[C8_KEY_NUM]`. -/
  input_keys : Nat → Nat
  /-- Field `int8_t wait_key_V_reg`. -/
  wait_key_V_reg : Int

/-- The ranges of the C types of the fields of `Chip8`. -/
structure WellTyped (c : Chip8) : Prop where
  memory_u8 : ∀ a, a < C8_MEMORY_SIZE → c.memory a < 256
  register_V_u8 : ∀ k, k < C8_V_REGISTERS → c.register_V k < 256
  register_I_u16 : c.register_I < 65536
  delay_u8 : c.register_delay_timer < 256
  sound_u8 : c.register_sound_timer < 256
  pc_u16 : c.program_counter < 65536
  stack_u16 : ∀ k, k < C8_STACK_SIZE → c.stack k < 65536
  sp_u8 : c.stack_pointer < 256
  display_u8 : ∀ i, i < C8_DISPLAY_MAX_WIDTH * C8_DISPLAY_MAX_HEIGHT → c.display i < 256
  height_u8 : c.display_height < 256
  width_u8 : c.display_width < 256
  keys_u8 : ∀ k, k < C8_KEY_NUM → c.input_keys k < 256
  wait_i8 : -128 ≤ c.wait_key_V_reg ∧ c.wait_key_V_reg ≤ 127

/-- Array store `a[i] = v`. -/
def wr (a : Nat → Nat) (i v : Nat) : Nat → Nat :=
  fun j => if j = i then v else a j

/-- Statement `chip8->register_V[i] = v`. -/
def set_V (chip8 : Chip8) (i v : Nat) : Chip8 :=
  { chip8 with register_V := wr chip8.register_V i v }

/-- Conversion of a C `int` value to `uint8_t`. -/
def to_u8 (v : Int) : Nat := (v % 256).toNat

/-! ## Macros of `chip8_core.c` -/

def C8_REG_V_IDX (instruction : Nat) : Nat := (instruction &&& 0x0F00) >>> 8
def C8_REG_V2_IDX (instruction : Nat) : Nat := (instruction &&& 0x00F0) >>> 4
def C8_INSTR_VALUE (instruction : Nat) : Nat := instruction &&& 0x00FF

/-- The built-in font: 16 glyphs of 5 bytes. -/
def c8_builtin_sprites : List Nat := [
  0xF0, 0x90, 0x90, 0x90, 0xF0,
  0x20, 0x60, 0x20, 0x20, 0x70,
  0xF0, 0x10, 0xF0, 0x80, 0xF0,
  0xF0, 0x10, 0xF0, 0x10, 0xF0,
  0x90, 0x90, 0xF0, 0x10, 0x10,
  0xF0, 0x80, 0xF0, 0x10, 0xF0,
  0xF0, 0x80, 0xF0, 0x90, 0xF0,
  0xF0, 0x10, 0x20, 0x40, 0x40,
  0xF0, 0x90, 0xF0, 0x90, 0xF0,
  0xF0, 0x90, 0xF0, 0x10, 0xF0,
  0xF0, 0x90, 0xF0, 0x90, 0x90,
  0xE0, 0x90, 0xE0, 0x90, 0xE0,
  0xF0, 0x80, 0x80, 0x80, 0xF0,
  0xE0, 0x90, 0x90, 0x90, 0xE0,
  0xF0, 0x80, 0xF0, 0x80, 0xF0,
  0xF0, 0x80, 0xF0, 0x80, 0x80]

/-- Function `c8_init`: `memset` to zero, the four field assignments, and the `memcpy` of
the font to the start of memory (`srand` touches no field of the record). -/
def c8_init : Chip8 where
  memory := fun a => c8_builtin_sprites.getD a 0
  register_V := fun _ => 0
  register_I := 0
  register_delay_timer := 0
  register_sound_timer := 0
  program_counter := C8_PROGRAM_MEMORY_START
  stack := fun _ => 0
  stack_pointer := 0
  display := fun _ => 0
  display_height := C8_DISPLAY_HEIGHT
  display_width := C8_DISPLAY_WIDTH
  update_display := false
  input_keys := fun _ => 0
  wait_key_V_reg := -1

/-- Function `c8_fetch_next_instruction`: two bytes at `program_counter`, most significant
first, returned as `uint16_t`. -/
def c8_fetch_next_instruction (chip8 : Chip8) : Option Nat :=
  if chip8.program_counter + 1 < C8_MEMORY_SIZE then
    some ((chip8.memory chip8.program_counter <<< 8 |||
           chip8.memory (chip8.program_counter + 1)) % 65536)
  else none

/-- Statement `chip8->program_counter += k` on the `uint16_t` field. -/
def pc_add (chip8 : Chip8) (k : Nat) : Chip8 :=
  { chip8 with program_counter := (chip8.program_counter + k) % 65536 }

/-- Body of the innermost `if` of the draw loop of `case 0xD000`, for one set bit:
the collision test followed by `chip8->display[display_index] ^= 1`. -/
def draw_toggle (chip8 : Chip8) (display_index : Nat) : Chip8 :=
  let c1 := if chip8.display display_index = 1
    then (set_V chip8 0xF 1) else chip8
  { c1 with display := wr c1.display display_index ((c1.display display_index ^^^ 1) % 256) }

/-- One iteration of `for (int bit = 0; bit < 8; bit++)` in `case 0xD000`. -/
def draw_bit (x y byte sprite_byte : Nat) (chip8 : Chip8) (bit : Nat) : Option Chip8 :=
  if ((0x80 >>> bit) &&& sprite_byte) ≠ 0 then
    let display_index := ((y + byte) * chip8.display_width + x + bit) % 65536
    if display_index < C8_DISPLAY_MAX_WIDTH * C8_DISPLAY_MAX_HEIGHT then
      some (draw_toggle chip8 display_index)
    else none
  else some chip8

/-- One iteration of `for (int byte = 0; byte < byte_num; byte++)` in `case 0xD000`. -/
def draw_byte (x y : Nat) (chip8 : Chip8) (byte : Nat) : Option Chip8 :=
  if chip8.register_I + byte < C8_MEMORY_SIZE then
    let sprite_byte := chip8.memory (chip8.register_I + byte)
    (List.range 8).foldlM (draw_bit x y byte sprite_byte) chip8
  else none

/-- One iteration of the loop of `case 0x55`: `memory[register_I + k] = register_V[k]`. -/
def dump_reg (chip8 : Chip8) (k : Nat) : Option Chip8 :=
  if chip8.register_I + k < C8_MEMORY_SIZE then
    let value := chip8.register_V k % 256
    some { chip8 with memory := wr chip8.memory (chip8.register_I + k) value }
  else none

/-- One iteration of the loop of `case 0x65`: `register_V[k] = memory[register_I + k]`. -/
def load_reg (chip8 : Chip8) (k : Nat) : Option Chip8 :=
  if chip8.register_I + k < C8_MEMORY_SIZE then
    some (set_V chip8 k (chip8.memory (chip8.register_I + k) % 256))
  else none

/-- The code after the outer `switch`: the "Unknown instruction" report and
`program_counter += 2`. -/
def exec_unknown (chip8 : Chip8) : Option Chip8 :=
  some (pc_add chip8 2)

/-- Body of `case 0x1000`. -/
def exec_1000 (chip8 : Chip8) (instr : Nat) : Option Chip8 :=
  some { chip8 with program_counter := instr &&& 0x0FFF }

/-- Body of `case 0x9000`. -/
def exec_9000 (chip8 : Chip8) (instr : Nat) : Option Chip8 :=
  if chip8.register_V (C8_REG_V_IDX instr) ≠ chip8.register_V (C8_REG_V2_IDX instr) then
    some (pc_add chip8 4)
  else
    some (pc_add chip8 2)

/-- Body of `case 0xF000`; its inner `default` leaves both switches and reaches
the code after the outer `switch`. -/
def exec_F000 (chip8 : Chip8) (instr : Nat) : Option Chip8 :=
  let sub := instr &&& 0x00FF
  if sub = 0x07 then
    some (pc_add (set_V chip8 (C8_REG_V_IDX instr) (chip8.register_delay_timer % 256)) 2)
  else if sub = 0x0A then
    some (pc_add { chip8 with wait_key_V_reg := (C8_REG_V_IDX instr : Int) } 2)
  else if sub = 0x15 then
    let value := chip8.register_V (C8_REG_V_IDX instr) % 256
    some (pc_add { chip8 with register_delay_timer := value } 2)
  else if sub = 0x18 then
    let value := chip8.register_V (C8_REG_V_IDX instr) % 256
    some (pc_add { chip8 with register_sound_timer := value } 2)
  else if sub = 0x1E then
    let value := (chip8.register_I + chip8.register_V (C8_REG_V_IDX instr)) % 65536
    some (pc_add { chip8 with register_I := value } 2)
  else if sub = 0x29 then
    some (pc_add { chip8 with register_I := (chip8.register_V (C8_REG_V_IDX instr) * 5) % 65536 } 2)
  else if sub = 0x33 then
    let value := chip8.register_V (C8_REG_V_IDX instr)
    if chip8.register_I < C8_MEMORY_SIZE then
      let c1 := { chip8 with memory := wr chip8.memory chip8.register_I ((value / 100) % 256) }
      if c1.register_I + 1 < C8_MEMORY_SIZE then
        let c2 := { c1 with memory := wr c1.memory (c1.register_I + 1) (((value / 10) % 10) % 256) }
        if c2.register_I + 2 < C8_MEMORY_SIZE then
          let c3 := { c2 with memory := wr c2.memory (c2.register_I + 2) ((value % 10) % 256) }
          some (pc_add c3 2)
        else none
      else none
    else none
  else if sub = 0x55 then
    let v_reg_num := (C8_REG_V_IDX instr + 1) % 256
    ((List.range v_reg_num).foldlM dump_reg chip8).map (fun c => pc_add c 2)
  else if sub = 0x65 then
    let v_reg_num := (C8_REG_V_IDX instr + 1) % 256
    ((List.range v_reg_num).foldlM load_reg chip8).map (fun c => pc_add c 2)
  else
    exec_unknown chip8

/-- Function `execute_instruction`, with `rnd` the value returned by `rand()`.  The inner
`default: break;` of the families `0x0`, `0x8` and `0xE` is followed by the end of
the enclosing `case` block without `break` or `return`, so control continues
with the body of the next `case` label. -/
def execute_instruction (rnd : Nat) (chip8 : Chip8) (instr : Nat) : Option Chip8 :=
  let fam := instr &&& 0xF000
  if fam = 0x0 then
    if instr = 0x00E0 then
      some (pc_add { chip8 with display := fun _ => 0, update_display := true } 2)
    else if instr = 0x00EE then
      let sp := (chip8.stack_pointer + 255) % 256
      if sp < C8_STACK_SIZE then
        some (pc_add { chip8 with stack_pointer := sp, program_counter := chip8.stack sp } 2)
      else none
    else
      exec_1000 chip8 instr
  else if fam = 0x1000 then
    exec_1000 chip8 instr
  else if fam = 0x2000 then
    if chip8.stack_pointer < C8_STACK_SIZE then
      some { chip8 with
        stack := wr chip8.stack chip8.stack_pointer (chip8.program_counter % 65536),
        stack_pointer := (chip8.stack_pointer + 1) % 256,
        program_counter := instr &&& 0x0FFF }
    else none
  else if fam = 0x3000 then
    if chip8.register_V (C8_REG_V_IDX instr) = C8_INSTR_VALUE instr then
      some (pc_add chip8 4)
    else
      some (pc_add chip8 2)
  else if fam = 0x4000 then
    if chip8.register_V (C8_REG_V_IDX instr) ≠ C8_INSTR_VALUE instr then
      some (pc_add chip8 4)
    else
      some (pc_add chip8 2)
  else if fam = 0x5000 then
    if chip8.register_V (C8_REG_V_IDX instr) = chip8.register_V (C8_REG_V2_IDX instr) then
      some (pc_add chip8 4)
    else
      some (pc_add chip8 2)
  else if fam = 0x6000 then
    some (pc_add (set_V chip8 (C8_REG_V_IDX instr) (C8_INSTR_VALUE instr % 256)) 2)
  else if fam = 0x7000 then
    some (pc_add (set_V chip8 (C8_REG_V_IDX instr)
        ((chip8.register_V (C8_REG_V_IDX instr) + C8_INSTR_VALUE instr) % 256)) 2)
  else if fam = 0x8000 then
    let sub := instr &&& 0x000F
    if sub = 0x0 then
      some (pc_add (set_V chip8 (C8_REG_V_IDX instr)
          (chip8.register_V (C8_REG_V2_IDX instr) % 256)) 2)
    else if sub = 0x1 then
      some (pc_add (set_V chip8 (C8_REG_V_IDX instr)
          ((chip8.register_V (C8_REG_V_IDX instr) ||| chip8.register_V (C8_REG_V2_IDX instr)) % 256)) 2)
    else if sub = 0x2 then
      some (pc_add (set_V chip8 (C8_REG_V_IDX instr)
          ((chip8.register_V (C8_REG_V_IDX instr) &&& chip8.register_V (C8_REG_V2_IDX instr)) % 256)) 2)
    else if sub = 0x3 then
      some (pc_add (set_V chip8 (C8_REG_V_IDX instr)
          ((chip8.register_V (C8_REG_V_IDX instr) ^^^ chip8.register_V (C8_REG_V2_IDX instr)) % 256)) 2)
    else if sub = 0x4 then
      let value1 := chip8.register_V (C8_REG_V_IDX instr)
      let value2 := chip8.register_V (C8_REG_V2_IDX instr)
      let c1 := if (value1 : Int) > (UINT8_MAX : Int) - (value2 : Int)
        then (set_V chip8 0xF 1)
        else (set_V chip8 0xF 0)
      some (pc_add (set_V c1 (C8_REG_V_IDX instr) ((value1 + value2) % 256)) 2)
    else if sub = 0x5 then
      let value1 := chip8.register_V (C8_REG_V_IDX instr)
      let value2 := chip8.register_V (C8_REG_V2_IDX instr)
      let c1 := if value1 > value2
        then (set_V chip8 0xF 1)
        else (set_V chip8 0xF 0)
      some (pc_add (set_V c1 (C8_REG_V_IDX instr) (to_u8 ((value1 : Int) - (value2 : Int)))) 2)
    else if sub = 0x6 then
      let value := chip8.register_V (C8_REG_V_IDX instr)
      let c1 := if (value &&& 0x1) ≠ 0
        then (set_V chip8 0xF 1)
        else (set_V chip8 0xF 0)
      some (pc_add (set_V c1 (C8_REG_V_IDX instr)
          ((c1.register_V (C8_REG_V_IDX instr) / 2) % 256)) 2)
    else if sub = 0x7 then
      let value1 := chip8.register_V (C8_REG_V_IDX instr)
      let value2 := chip8.register_V (C8_REG_V2_IDX instr)
      let c1 := if value2 > value1
        then (set_V chip8 0xF 1)
        else (set_V chip8 0xF 0)
      some (pc_add (set_V c1 (C8_REG_V_IDX instr) (to_u8 ((value2 : Int) - (value1 : Int)))) 2)
    else if sub = 0xE then
      let value := chip8.register_V (C8_REG_V_IDX instr)
      let c1 := if (value &&& 0x80) ≠ 0
        then (set_V chip8 0xF 1)
        else (set_V chip8 0xF 0)
      some (pc_add (set_V c1 (C8_REG_V_IDX instr)
          ((c1.register_V (C8_REG_V_IDX instr) * 2) % 256)) 2)
    else
      exec_9000 chip8 instr
  else if fam = 0x9000 then
    exec_9000 chip8 instr
  else if fam = 0xA000 then
    some (pc_add { chip8 with register_I := instr &&& 0x0FFF } 2)
  else if fam = 0xB000 then
    some { chip8 with program_counter := ((instr &&& 0x0FFF) + chip8.register_V 0) % 65536 }
  else if fam = 0xC000 then
    some (pc_add (set_V chip8 (C8_REG_V_IDX instr)
        (((rnd % UINT8_MAX) &&& C8_INSTR_VALUE instr) % 256)) 2)
  else if fam = 0xD000 then
    let x := chip8.register_V (C8_REG_V_IDX instr)
    let y := chip8.register_V (C8_REG_V2_IDX instr)
    let byte_num := (instr &&& 0x000F) % 256
    let c0 := (set_V chip8 0xF 0)
    ((List.range byte_num).foldlM (draw_byte x y) c0).map
      (fun c => pc_add { c with update_display := true } 2)
  else if fam = 0xE000 then
    let sub := instr &&& 0x00FF
    if sub = 0x9E then
      let key := chip8.register_V (C8_REG_V_IDX instr)
      if key < C8_KEY_NUM then
        if chip8.input_keys key ≠ 0 then some (pc_add chip8 4) else some (pc_add chip8 2)
      else none
    else if sub = 0xA1 then
      let key := chip8.register_V (C8_REG_V_IDX instr)
      if key < C8_KEY_NUM then
        if chip8.input_keys key ≠ 0 then some (pc_add chip8 2) else some (pc_add chip8 4)
      else none
    else
      exec_F000 chip8 instr
  else if fam = 0xF000 then
    exec_F000 chip8 instr
  else
    exec_unknown chip8

/-- Function `c8_run_cycle`: fetch, then execute. -/
def c8_run_cycle (rnd : Nat) (chip8 : Chip8) : Option Chip8 :=
  match c8_fetch_next_instruction chip8 with
  | some instr => execute_instruction rnd chip8 instr
  | none => none

/-- Function `c8_update_timers`. -/
def c8_update_timers (chip8 : Chip8) : Chip8 :=
  let c1 := if chip8.register_delay_timer ≠ 0
    then { chip8 with register_delay_timer := (chip8.register_delay_timer - 1) % 256 }
    else chip8
  if c1.register_sound_timer ≠ 0
    then { c1 with register_sound_timer := (c1.register_sound_timer - 1) % 256 }
    else c1


/-! ## Concrete machine states used in examples -/

/-- Store the two bytes of `instr` at `program_counter`, most significant first
(what loading a ROM containing that instruction at this address does). -/
def poke_instr (chip8 : Chip8) (instr : Nat) : Chip8 :=
  let m1 := wr chip8.memory chip8.program_counter (instr / 256)
  { chip8 with memory := wr m1 (chip8.program_counter + 1) (instr % 256) }

/-- Freshly initialised machine whose first instruction is `0x0123`. -/
def ex_0123 : Chip8 := poke_instr c8_init 0x0123

/-- Freshly initialised machine with `V1 = 7`, `V2 = 9`, first instruction `0x8128`. -/
def ex_8128 : Chip8 := poke_instr (set_V (set_V c8_init 1 7) 2 9) 0x8128

/-- Freshly initialised machine with `V0 = 0xAB`, `I = 0x300`, first instruction `0xE055`. -/
def ex_E055 : Chip8 := poke_instr { set_V c8_init 0 0xAB with register_I := 0x300 } 0xE055

/-- Freshly initialised machine with `V1 = 0xFF`, `V2 = 0x02`, first instruction `0x8124`. -/
def ex_add : Chip8 := poke_instr (set_V (set_V c8_init 1 0xFF) 2 0x02) 0x8124

/-- Freshly initialised machine with `V1 = 3`, `V2 = 5`, first instruction `0x8125`. -/
def ex_sub : Chip8 := poke_instr (set_V (set_V c8_init 1 3) 2 5) 0x8125

/-- Freshly initialised machine with `V1 = 0x05`, `V2 = 0x77`, first instruction `0x8126`. -/
def ex_shr : Chip8 := poke_instr (set_V (set_V c8_init 1 0x05) 2 0x77) 0x8126

/-- Freshly initialised machine with `V0 = 3`, `V1 = 2`, `I = 0` (the glyph "0" of
the font), first instruction `0xD015`. -/
def ex_draw : Chip8 := poke_instr (set_V (set_V c8_init 0 3) 1 2) 0xD015

/-- Freshly initialised machine with `V0 = 3`, `V1 = 2`, `I = 0`, whose first two
instructions are both `0xD015`. -/
def ex_draw_twice : Chip8 :=
  let c := poke_instr (set_V (set_V c8_init 0 3) 1 2) 0xD015
  { poke_instr (pc_add c 2) 0xD015 with program_counter := c.program_counter }

/-- Freshly initialised machine with `V0 = 62`, `V1 = 0`, `I = 0` (first font byte
`0xF0`), first instruction `0xD011`: a one-row sprite crossing the right edge. -/
def ex_edge : Chip8 := poke_instr (set_V c8_init 0 62) 0xD011

/-- Freshly initialised machine with `V3 = 234`, `I = 0x300`, first instruction `0xF333`. -/
def ex_bcd : Chip8 := poke_instr { set_V c8_init 3 234 with register_I := 0x300 } 0xF333

/-- Freshly initialised machine with `V0..V3 = 0x11, 0x22, 0x33, 0x44`, `I = 0x300`,
first instruction `0xF355`. -/
def ex_dump : Chip8 :=
  let c := set_V (set_V (set_V (set_V c8_init 0 0x11) 1 0x22) 2 0x33) 3 0x44
  poke_instr { c with register_I := 0x300 } 0xF355

/-- Machine with all registers zero, `I = 0x300`, `memory[0x300..0x303] = 0x11, 0x22,
0x33, 0x44`, first instruction `0xF365`. -/
def ex_load : Chip8 :=
  let m := wr (wr (wr (wr c8_init.memory 0x300 0x11) 0x301 0x22) 0x302 0x33) 0x303 0x44
  poke_instr { c8_init with memory := m, register_I := 0x300 } 0xF365

/-- Freshly initialised machine with `delay_timer = 1` and `sound_timer = 3`. -/
def ex_timers : Chip8 :=
  { c8_init with register_delay_timer := 1, register_sound_timer := 3 }

/-! ## Description of the cells visited by the draw loop -/

/-- The value `display_index` computed by the draw loop (a `uint16_t`). -/
def cell_index (w x y byte bit : Nat) : Nat := ((y + byte) * w + x + bit) % 65536

/-- The test `((0x80 >> bit) & sprite_byte) != 0` of the draw loop. -/
def bit_on (sprite_byte bit : Nat) : Bool := decide (((0x80 >>> bit) &&& sprite_byte) ≠ 0)

/-- The display indices toggled by one sprite row, in loop order. -/
def row_cells (w x y byte sprite_byte : Nat) : List Nat :=
  ((List.range 8).filter (bit_on sprite_byte)).map (cell_index w x y byte)

/-- The display indices toggled by the sprite rows `rows`, in loop order;
`x` and `y` are the coordinates held in the two operand registers. -/
def sprite_cells (chip8 : Chip8) (x y : Nat) (rows : List Nat) : List Nat :=
  rows.flatMap (fun byte =>
    row_cells chip8.display_width x y byte (chip8.memory (chip8.register_I + byte)))

/-- Every access of the draw loop over the sprite rows `rows` is inside its array. -/
def draw_in_bounds (chip8 : Chip8) (x y : Nat) (rows : List Nat) : Prop :=
  ∀ byte ∈ rows, chip8.register_I + byte < C8_MEMORY_SIZE ∧
    ∀ i ∈ row_cells chip8.display_width x y byte (chip8.memory (chip8.register_I + byte)),
      i < C8_DISPLAY_MAX_WIDTH * C8_DISPLAY_MAX_HEIGHT

instance (chip8 : Chip8) (x y : Nat) (rows : List Nat) :
    Decidable (draw_in_bounds chip8 x y rows) := by
  unfold draw_in_bounds
  infer_instance

/-- Cell `i` of the display array (row-major, 64 cells per row) is at column
`V[x] + b`, row `V[y] + r` for a sprite row `r < n` and a bit `b < 8`, counted from
the most significant bit, that is set in `memory[register_I + r]`. -/
def sprite_covers (chip8 : Chip8) (x y n i : Nat) : Prop :=
  ∃ r, r < n ∧ ∃ b, b < 8 ∧ chip8.memory (chip8.register_I + r) / 2 ^ (7 - b) % 2 = 1 ∧
    i = (chip8.register_V y + r) * 64 + (chip8.register_V x + b)

/-- The update `display[display_index] ^= 1` of a `uint8_t` cell. -/
def flip_cell (v : Nat) : Nat := (v ^^^ 1) % 256

/-! ## Start-up (`chip8.c`) -/

/-- Function `c8_load`, with the ROM file given as `none` when it cannot be opened
or read and as its bytes otherwise: a file larger than `C8_PROGRAM_MEMORY_SIZE`
is refused, otherwise `fread` copies the bytes to `memory + C8_PROGRAM_MEMORY_START`.
The result is the returned `bool` and the record. -/
def c8_load (chip8 : Chip8) (rom_file : Option (List Nat)) : Bool × Chip8 :=
  match rom_file with
  | none => (false, chip8)
  | some rom =>
    let rom_size := rom.length
    if rom_size > C8_PROGRAM_MEMORY_SIZE then (false, chip8)
    else
      let m := fun a =>
        if C8_PROGRAM_MEMORY_START ≤ a ∧ a < C8_PROGRAM_MEMORY_START + rom_size
        then rom.getD (a - C8_PROGRAM_MEMORY_START) 0 else chip8.memory a
      (true, { chip8 with memory := m })

/-- Function `main` as a function of the outcomes of its start-up steps: the value
returned by `c8_parse_args`, the ROM file, the value returned by `io_init`, and
whether the run loop is ever left through `quit`.  The result is the exit status,
`none` when the run loop never ends.  The statement `return false;` returns the
`int` 0. -/
def main (parse_args_ret : Bool) (rom_file : Option (List Nat)) (io_init_ret : Int)
    (quits : Bool) : Option Int :=
  if !parse_args_ret then some 1
  else
    let chip8 := c8_init
    if !(c8_load chip8 rom_file).1 then some 0
    else if io_init_ret = 0 then some 1
    else if quits then some 0
    else none

/-- Function `c8_init` applied to a record with arbitrary contents, statement by
statement: `memset` of the whole record, the four assignments, and `memcpy` of
the font table to the start of `memory`. -/
def c8_init_from (_prior : Chip8) : Chip8 :=
  let c0 : Chip8 :=
    { memory := fun _ => 0, register_V := fun _ => 0, register_I := 0,
      register_delay_timer := 0, register_sound_timer := 0, program_counter := 0,
      stack := fun _ => 0, stack_pointer := 0, display := fun _ => 0,
      display_height := 0, display_width := 0, update_display := false,
      input_keys := fun _ => 0, wait_key_V_reg := 0 }
  let c1 := { c0 with program_counter := C8_PROGRAM_MEMORY_START }
  let c2 := { c1 with display_height := C8_DISPLAY_HEIGHT }
  let c3 := { c2 with display_width := C8_DISPLAY_WIDTH }
  let c4 := { c3 with wait_key_V_reg := -1 }
  let m := fun a =>
    if a < c8_builtin_sprites.length then c8_builtin_sprites.getD a 0 else c4.memory a
  { c4 with memory := m }

/-! ## Further concrete machine states -/

/-- Freshly initialised machine whose first instruction is the call `0x2300` and
whose instruction at `0x300` is the return `0x00EE`. -/
def ex_call : Chip8 :=
  let c := poke_instr c8_init 0x2300
  { poke_instr { c with program_counter := 0x300 } 0x00EE with program_counter := 0x200 }

/-- Freshly initialised machine with `V1 = 0x10`, first instruction `0x3110`. -/
def ex_skip : Chip8 := poke_instr (set_V c8_init 1 0x10) 0x3110

/-- Freshly initialised machine whose first instruction is `0xC0FF`. -/
def ex_rand : Chip8 := poke_instr c8_init 0xC0FF

/-- Machine with `stack_pointer = 16` whose first instruction is the call `0x2300`. -/
def ex_call16 : Chip8 := poke_instr { c8_init with stack_pointer := 16 } 0x2300

/-- Freshly initialised machine (`stack_pointer = 0`) whose first instruction is the
return `0x00EE`. -/
def ex_ret0 : Chip8 := poke_instr c8_init 0x00EE

/-- Freshly initialised machine with `V1 = 5`, `V2 = 3`, first instruction `0x8127`. -/
def ex_subn : Chip8 := poke_instr (set_V (set_V c8_init 1 5) 2 3) 0x8127

/-- Freshly initialised machine with `V1 = 0x81`, `V2 = 0x77`, first instruction `0x812E`. -/
def ex_shl : Chip8 := poke_instr (set_V (set_V c8_init 1 0x81) 2 0x77) 0x812E

/-- Freshly initialised machine with `V2 = 0xA`, first instruction `0xF229`. -/
def ex_font : Chip8 := poke_instr (set_V c8_init 2 0xA) 0xF229

/-! ## Relations between the states before and after one instruction -/

/-- Effect of one instruction on `stack_pointer`: unchanged, or incremented by a
call below depth 16, or decremented by a return above depth 0. -/
def sp_step (s s' : Chip8) : Prop :=
  s'.stack_pointer = s.stack_pointer ∨
  (s.stack_pointer < 16 ∧ s'.stack_pointer = s.stack_pointer + 1) ∨
  (1 ≤ s.stack_pointer ∧ s'.stack_pointer + 1 = s.stack_pointer)

/-- The relation `R` holds between `s` and the result `o`, when there is one. -/
def post (R : Chip8 → Chip8 → Prop) (s : Chip8) (o : Option Chip8) : Prop :=
  ∀ s', o = some s' → R s s'


/-! ## Keyboard input (`chip8_io.c`) -/

/-- An event returned by `SDL_WaitEvent`, as far as `io_wait_for_keypress` tells
events apart: `SDL_QUIT`, `SDL_KEYDOWN` with its scancode, or anything else. -/
inductive Event where
  | quit : Event
  | keydown (scancode : Nat) : Event
  | other : Event

/-- The loop `for (int k = ...; k < C8_KEY_NUM; k++)` of `io_chip8_key_index`, with
`n` iterations left. -/
def key_index_loop (io_keyboard_keys : Nat → Nat) (keyboard_key : Nat) (k : Nat) : Nat → Int
  | 0 => -1
  | n + 1 =>
    if keyboard_key = io_keyboard_keys k then (k : Int)
    else key_index_loop io_keyboard_keys keyboard_key (k + 1) n

/-- Function `io_chip8_key_index`; the table `io_keyboard_keys` of 16 SDL scancodes
is an argument, its entries being constants of the SDL headers. -/
def io_chip8_key_index (io_keyboard_keys : Nat → Nat) (keyboard_key : Nat) : Int :=
  key_index_loop io_keyboard_keys keyboard_key 0 C8_KEY_NUM

/-- Function `io_wait_for_keypress` on the events that `SDL_WaitEvent` delivers, in
order; the end of the list stands for `SDL_WaitEvent` returning 0.  The scancode
is converted to the `uint8_t` parameter of `io_chip8_key_index`.  The result is
the record and `*quit`. -/
def io_wait_for_keypress (io_keyboard_keys : Nat → Nat) (chip8 : Chip8) (quit : Int) :
    List Event → Option (Chip8 × Int)
  | [] => some (chip8, quit)
  | Event.quit :: _ => some (chip8, 1)
  | Event.keydown scancode :: rest =>
    let key_index := io_chip8_key_index io_keyboard_keys (scancode % 256)
    if key_index ≠ -1 then
      if 0 ≤ chip8.wait_key_V_reg ∧ chip8.wait_key_V_reg < (C8_V_REGISTERS : Int) then
        let c1 := set_V chip8 chip8.wait_key_V_reg.toNat (to_u8 key_index)
        some ({ c1 with wait_key_V_reg := -1 }, quit)
      else none
    else io_wait_for_keypress io_keyboard_keys chip8 quit rest
  | Event.other :: rest => io_wait_for_keypress io_keyboard_keys chip8 quit rest

/-! ## Instruction rate (`chip8.c`, `chip8_io.c`) -/

def INT_MAX : Int := 2147483647
def INT_MIN : Int := -2147483648
def C8_INSTR_PER_SEC_MIN : Int := 1

/-- The `case 'r'` of `c8_parse_args` for an option text that `strtol` reads as the
number `val`: the range test of `c8_parse_int`, then the test against
`C8_INSTR_PER_SEC_MIN`.  The result is the accepted `opt->instr_per_sec`. -/
def parse_instr_rate (val : Int) : Option Int :=
  if val > INT_MAX ∨ val < INT_MIN then none
  else if val < C8_INSTR_PER_SEC_MIN then none
  else some val

/-- The assignment `io->instr_per_sec = opt->instr_per_sec` of `io_init`, from `int`
to the `uint16_t` field of `Chip8IO`. -/
def io_init_instr_per_sec (opt_instr_per_sec : Int) : Nat :=
  (opt_instr_per_sec % 65536).toNat

/-- The value `cycle_time = 1000 / io->instr_per_sec` of `io_cycle_time_limit`; a
division by zero has no result. -/
def io_cycle_time (instr_per_sec : Nat) : Option Nat :=
  if instr_per_sec = 0 then none else some (1000 / instr_per_sec)

/-! ## Concrete states and tables for sections on keys, loads and bounds -/

/-- The values of the SDL2 scancode constants named in `io_keyboard_keys`
(`SDL_SCANCODE_1` = 30, ..., `SDL_SCANCODE_V` = 25), used in examples only. -/
def sdl_keyboard_keys : Nat → Nat :=
  fun k => [30, 31, 32, 33, 20, 26, 8, 21, 4, 22, 7, 9, 29, 27, 6, 25].getD k 0

/-- Freshly initialised machine whose first instruction is `0xF30A`. -/
def ex_await : Chip8 := poke_instr c8_init 0xF30A

/-- Freshly initialised machine with `V1 = 0xF0`, `V0xF = 0x55`, first instruction `0x7120`. -/
def ex_addi : Chip8 := poke_instr (set_V (set_V c8_init 1 0xF0) 0xF 0x55) 0x7120

/-- Freshly initialised machine with `V0xF = 0xFF`, `V1 = 0x05`, first instruction `0x8F14`. -/
def ex_addF : Chip8 := poke_instr (set_V (set_V c8_init 0xF 0xFF) 1 0x05) 0x8F14

/-- Freshly initialised machine with `V0xF = 0x05`, first instruction `0x8F16`. -/
def ex_shrF : Chip8 := poke_instr (set_V c8_init 0xF 0x05) 0x8F16

/-- Freshly initialised machine with `V0 = 0x20`, first instruction `0xE09E`. -/
def ex_key32 : Chip8 := poke_instr (set_V c8_init 0 0x20) 0xE09E

/-- Freshly initialised machine with `V1 = 200`, `I = 0`, first instruction `0xD011`. -/
def ex_draw200 : Chip8 := poke_instr (set_V c8_init 1 200) 0xD011

/-- Freshly initialised machine with `I = 0xFFF`, first instruction `0xF133`. -/
def ex_bcdFFF : Chip8 := poke_instr { c8_init with register_I := 0xFFF } 0xF133

/-- Machine with `program_counter = 0xFFE` and the instruction `0x6000` there. -/
def ex_pcFFE : Chip8 := poke_instr { c8_init with program_counter := 0xFFE } 0x6000

/-- Freshly initialised machine whose first instruction is the jump `0x1FFF`. -/
def ex_jumpFFF : Chip8 := poke_instr c8_init 0x1FFF

/-- Freshly initialised machine with `V0 = 0xFF`, first instruction `0xBFFF`. -/
def ex_jumpV0 : Chip8 := poke_instr (set_V c8_init 0 0xFF) 0xBFFF

/-- Freshly initialised machine with `V1 = 0x0C`, `V2 = 0x0A`, `V0xF = 0x55`, first
instruction `0x8123`. -/
def ex_xor : Chip8 := poke_instr (set_V (set_V (set_V c8_init 1 0x0C) 2 0x0A) 0xF 0x55) 0x8123

/-! ## Conditions on array accesses and the next program counter -/

/-- The conditions under which every array access of `execute_instruction` on
`instr` is inside its array: the stack entry of a return and of a call, the display
cells and sprite bytes of a draw, the key of a key test, and the memory bytes of
the BCD store, the register dump and the register load (also when these are
reached from family `0xE`). -/
def access_ok (s : Chip8) (instr : Nat) : Prop :=
  (instr = 0x00EE → 1 ≤ s.stack_pointer ∧ s.stack_pointer ≤ 16) ∧
  (instr &&& 0xF000 = 0x2000 → s.stack_pointer < 16) ∧
  (instr &&& 0xF000 = 0xD000 →
    draw_in_bounds s (s.register_V (C8_REG_V_IDX instr)) (s.register_V (C8_REG_V2_IDX instr))
      (List.range (instr &&& 0x000F))) ∧
  (instr &&& 0xF000 = 0xE000 → (instr &&& 0x00FF = 0x9E ∨ instr &&& 0x00FF = 0xA1) →
    s.register_V (C8_REG_V_IDX instr) < 16) ∧
  ((instr &&& 0xF000 = 0xE000 ∨ instr &&& 0xF000 = 0xF000) → instr &&& 0x00FF = 0x33 →
    s.register_I + 2 < 4096) ∧
  ((instr &&& 0xF000 = 0xE000 ∨ instr &&& 0xF000 = 0xF000) →
    (instr &&& 0x00FF = 0x55 ∨ instr &&& 0x00FF = 0x65) →
    s.register_I + C8_REG_V_IDX instr < 4096)

/-- The values `program_counter` can take after `instr`: advanced by 2 or by 4, the
literal `nnn`, the literal plus `V[0]`, or the popped stack entry plus 2 (each as
a `uint16_t`). -/
def pc_next (instr : Nat) (s s' : Chip8) : Prop :=
  s'.program_counter = (s.program_counter + 2) % 65536 ∨
  s'.program_counter = (s.program_counter + 4) % 65536 ∨
  s'.program_counter = instr &&& 0x0FFF ∨
  s'.program_counter = ((instr &&& 0x0FFF) + s.register_V 0) % 65536 ∨
  s'.program_counter = (s.stack ((s.stack_pointer + 255) % 256) + 2) % 65536


/-! ## Concrete states and relations for shifts, edge-crossing sprites and the opcode table -/

/-- Freshly initialised machine with `V1 = 5`, first instruction `0x8116` (both
register fields name register 1). -/
def ex_shr_same : Chip8 := poke_instr (set_V c8_init 1 5) 0x8116

/-- Freshly initialised machine with `V1 = 0x81`, first instruction `0x811E` (both
register fields name register 1). -/
def ex_shl_same : Chip8 := poke_instr (set_V c8_init 1 0x81) 0x811E

/-- Freshly initialised machine with `V0 = 62`, `V1 = 31`, `I = 0` (font bytes `0xF0`,
`0x90`), first instruction `0xD012`: a two-row sprite that starts in the last
visible row and crosses the right edge. -/
def ex_corner : Chip8 := poke_instr (set_V (set_V c8_init 0 62) 1 31) 0xD012

/-- Effect of `instr` on `stack_pointer`, opcode by opcode: a call `2nnn` runs below
depth 16 and adds one, a return `00EE` runs above depth 0 and subtracts one, and
every other instruction leaves `stack_pointer` as it was. -/
def sp_exact (instr : Nat) (s s' : Chip8) : Prop :=
  (instr &&& 0xF000 = 0x2000 →
    s.stack_pointer < 16 ∧ s'.stack_pointer = s.stack_pointer + 1) ∧
  (instr = 0x00EE →
    1 ≤ s.stack_pointer ∧ s'.stack_pointer + 1 = s.stack_pointer) ∧
  (instr &&& 0xF000 ≠ 0x2000 → instr ≠ 0x00EE →
    s'.stack_pointer = s.stack_pointer)

/-- Effect of `instr` on `program_counter`, opcode by opcode, with `fam` the
primary and `sub4`, `sub8` the secondary opcode fields, `next` the counter advanced
by 2 and `skip` the counter advanced by 4 (as `uint16_t`):
the literal `nnn` for `1nnn`, `2nnn` and every `0nnn` other than `00E0`, `00EE`;
the literal plus `V[0]` for `Bnnn`; the popped stack entry plus 2 for `00EE`;
`skip` or `next` according to the condition of `3xkk`, `4xkk`, `5xy_`, `9xy_`
(also reached by `8xy_` with a secondary opcode other than `0..7`, `E`), `Ex9E`,
`ExA1`; and `next` for every other instruction. -/
def pc_exact (instr : Nat) (s s' : Chip8) : Prop :=
  let fam := instr &&& 0xF000
  let sub4 := instr &&& 0x000F
  let sub8 := instr &&& 0x00FF
  let Vx := s.register_V (C8_REG_V_IDX instr)
  let Vy := s.register_V (C8_REG_V2_IDX instr)
  let next := (s.program_counter + 2) % 65536
  let skip := (s.program_counter + 4) % 65536
  ((fam = 0x1000 ∨ fam = 0x2000 ∨ (fam = 0x0000 ∧ instr ≠ 0x00E0 ∧ instr ≠ 0x00EE)) →
    s'.program_counter = instr &&& 0x0FFF) ∧
  (fam = 0xB000 →
    s'.program_counter = ((instr &&& 0x0FFF) + s.register_V 0) % 65536) ∧
  (instr = 0x00EE →
    s'.program_counter = (s.stack ((s.stack_pointer + 255) % 256) + 2) % 65536) ∧
  (fam = 0x3000 →
    s'.program_counter = if Vx = C8_INSTR_VALUE instr then skip else next) ∧
  (fam = 0x4000 →
    s'.program_counter = if Vx ≠ C8_INSTR_VALUE instr then skip else next) ∧
  (fam = 0x5000 →
    s'.program_counter = if Vx = Vy then skip else next) ∧
  ((fam = 0x9000 ∨ (fam = 0x8000 ∧ 8 ≤ sub4 ∧ sub4 ≠ 0xE)) →
    s'.program_counter = if Vx ≠ Vy then skip else next) ∧
  (fam = 0xE000 → sub8 = 0x9E →
    s'.program_counter = if s.input_keys Vx ≠ 0 then skip else next) ∧
  (fam = 0xE000 → sub8 = 0xA1 →
    s'.program_counter = if s.input_keys Vx ≠ 0 then next else skip) ∧
  ((instr = 0x00E0 ∨ fam = 0x6000 ∨ fam = 0x7000 ∨ (fam = 0x8000 ∧ (sub4 ≤ 7 ∨ sub4 = 0xE)) ∨
      fam = 0xA000 ∨ fam = 0xC000 ∨ fam = 0xD000 ∨
      (fam = 0xE000 ∧ sub8 ≠ 0x9E ∧ sub8 ≠ 0xA1) ∨ fam = 0xF000) →
    s'.program_counter = next)


/-! # Theorems -/

/-! ## Decoding lemmas -/

theorem and_FFF (n : Nat) : n &&& 0x0FFF = n % 4096 := Nat.and_pow_two_sub_one_eq_mod n 12

theorem and_FF (n : Nat) : n &&& 0x00FF = n % 256 := Nat.and_pow_two_sub_one_eq_mod n 8

theorem and_F (n : Nat) : n &&& 0x000F = n % 16 := Nat.and_pow_two_sub_one_eq_mod n 4

theorem and_1 (n : Nat) : n &&& 0x1 = n % 2 := Nat.and_pow_two_sub_one_eq_mod n 1

theorem and_shifted_mask (n k w : Nat) :
    n &&& ((2 ^ w - 1) <<< k) = (n >>> k % 2 ^ w) <<< k := by
  apply Nat.eq_of_testBit_eq
  intro i
  simp only [Nat.testBit_and, Nat.testBit_shiftLeft, Nat.testBit_two_pow_sub_one,
    Nat.testBit_mod_two_pow, Nat.testBit_shiftRight]
  by_cases h : k ≤ i
  · have : k + (i - k) = i := by omega
    simp [h, this, Bool.and_comm]
  · simp [h]

theorem and_F000 (n : Nat) : n &&& 0xF000 = n / 4096 % 16 * 4096 := by
  have h := and_shifted_mask n 12 4
  simpa [Nat.shiftLeft_eq, Nat.shiftRight_eq_div_pow] using h

theorem reg_idx (n : Nat) : C8_REG_V_IDX n = n / 256 % 16 := by
  have h := and_shifted_mask n 8 4
  unfold C8_REG_V_IDX
  have h2 : (0x0F00 : Nat) = (2 ^ 4 - 1) <<< 8 := by decide
  rw [h2, h]
  simp [Nat.shiftLeft_eq, Nat.shiftRight_eq_div_pow]

theorem reg2_idx (n : Nat) : C8_REG_V2_IDX n = n / 16 % 16 := by
  have h := and_shifted_mask n 4 4
  unfold C8_REG_V2_IDX
  have h2 : (0x00F0 : Nat) = (2 ^ 4 - 1) <<< 4 := by decide
  rw [h2, h]
  simp [Nat.shiftLeft_eq, Nat.shiftRight_eq_div_pow]

theorem instr_value (n : Nat) : C8_INSTR_VALUE n = n % 256 := and_FF n

theorem sprite_bit (v bit : Nat) (h : bit < 8) :
    ((0x80 >>> bit) &&& v) ≠ 0 ↔ v / 2 ^ (7 - bit) % 2 = 1 := by
  have h1 : (0x80 : Nat) >>> bit = 2 ^ (7 - bit) := by
    interval_cases bit <;> decide
  rw [h1, Nat.and_comm, Nat.and_two_pow, Nat.testBit_to_div_mod]
  by_cases hb : v / 2 ^ (7 - bit) % 2 = 1 <;> simp [hb]

/-- A successful fetch reads two bytes inside memory. -/
theorem fetch_pc_lt {s : Chip8} {instr : Nat}
    (h : c8_fetch_next_instruction s = some instr) :
    s.program_counter + 1 < 4096 := by
  unfold c8_fetch_next_instruction C8_MEMORY_SIZE at h
  by_contra hc
  simp [hc] at h

/-- The carry test `value1 > UINT8_MAX - value2`, evaluated in `int`. -/
theorem carry_iff (a b : Nat) :
    ((a : Int) > ((UINT8_MAX : Nat) : Int) - (b : Int)) ↔ a + b > 255 := by
  unfold UINT8_MAX
  omega

/-! ## Unmatched secondary opcodes -/

/-- C1 (evaluation at the failing inputs): on a freshly initialised machine the
unmatched opcode `0x0123` sets `program_counter` to `0x123` instead of `0x202`;
with `V1 = 7`, `V2 = 9` the unmatched opcode `0x8128` advances `program_counter`
by 4 instead of 2; and with `V0 = 0xAB`, `I = 0x300` the unmatched opcode `0xE055`
writes `0xAB` to `memory[0x300]`. -/
theorem c1_unmatched_falls_through :
    c8_fetch_next_instruction ex_0123 = some 0x0123 ∧
    (c8_run_cycle 0 ex_0123).map (fun c => c.program_counter) = some 0x123 ∧
    c8_fetch_next_instruction ex_8128 = some 0x8128 ∧
    (c8_run_cycle 0 ex_8128).map (fun c => c.program_counter) = some 0x204 ∧
    c8_fetch_next_instruction ex_E055 = some 0xE055 ∧
    ex_E055.memory 0x300 = 0 ∧
    (c8_run_cycle 0 ex_E055).map (fun c => c.memory 0x300) = some 0xAB := by
  refine ⟨?_, ?_, ?_, ?_, ?_, ?_, ?_⟩ <;> decide

/-! ## Register arithmetic of family `0x8` -/

/-- C2: for `x ≠ 0xF`, opcode `8xy4` sets `V[x]` to `(V[x] + V[y]) mod 256`, sets
`V[0xF]` to 1 if the unsigned sum exceeds 255 and to 0 otherwise (operands taken
before the instruction), and advances `program_counter` by 2. -/
theorem c2_add_carry (rnd : Nat) (s : Chip8) (x y : Nat)
    (hx : x < 16) (hxF : x ≠ 0xF) (hy : y < 16)
    (hfetch : c8_fetch_next_instruction s = some (0x8004 + 0x100 * x + 0x10 * y)) :
    ∃ s', c8_run_cycle rnd s = some s' ∧
      s'.register_V x = (s.register_V x + s.register_V y) % 256 ∧
      s'.register_V 0xF = (if s.register_V x + s.register_V y > 255 then 1 else 0) ∧
      s'.program_counter = s.program_counter + 2 := by
  have hpc := fetch_pc_lt hfetch
  have hfam : (0x8004 + 0x100 * x + 0x10 * y) &&& 0xF000 = 0x8000 := by
    rw [and_F000]; omega
  have hsub : (0x8004 + 0x100 * x + 0x10 * y) &&& 0x000F = 4 := by
    rw [and_F]; omega
  have hX : C8_REG_V_IDX (0x8004 + 0x100 * x + 0x10 * y) = x := by
    rw [reg_idx]; omega
  have hY : C8_REG_V2_IDX (0x8004 + 0x100 * x + 0x10 * y) = y := by
    rw [reg2_idx]; omega
  have hmod : (s.program_counter + 2) % 65536 = s.program_counter + 2 := by omega
  simp only [c8_run_cycle, hfetch, execute_instruction, hfam, hsub, hX, hY]
  have hFx : ¬ (15 = x) := fun h => hxF h.symm
  simp only [carry_iff]
  by_cases hc : s.register_V x + s.register_V y > 255
  · simp [hc, pc_add, set_V, wr, hxF, hFx, hmod]
  · simp [hc, pc_add, set_V, wr, hxF, hFx, hmod]

/-- C2 at `V1 = 0xFF`, `V2 = 0x02`, opcode `0x8124`: the result is `0x01` with flag 1. -/
theorem c2_add_carry_witness :
    c8_fetch_next_instruction ex_add = some (0x8004 + 0x100 * 1 + 0x10 * 2) ∧
    ∃ s', c8_run_cycle 0 ex_add = some s' ∧
      s'.register_V 1 = 0x01 ∧ s'.register_V 0xF = 1 ∧ s'.program_counter = 0x202 := by
  have hf : c8_fetch_next_instruction ex_add = some (0x8004 + 0x100 * 1 + 0x10 * 2) := by decide
  refine ⟨hf, ?_⟩
  obtain ⟨s', h1, h2, h3, h4⟩ :=
    c2_add_carry 0 ex_add 1 2 (by decide) (by decide) (by decide) hf
  exact ⟨s', h1, h2, h3, h4⟩

/-- Conversion to `uint8_t` is reduction modulo 256. -/
theorem to_u8_cast (v : Int) : ((to_u8 v : Nat) : Int) = v % 256 := by
  unfold to_u8
  omega

/-- C3: for `x ≠ 0xF`, opcode `8xy5` sets `V[x]` to `(V[x] - V[y]) mod 256` and
`V[0xF]` to 1 if `V[x] > V[y]` strictly and to 0 otherwise (equal operands give
result 0 with flag 0). -/
theorem c3_sub_no_borrow (rnd : Nat) (s : Chip8) (x y : Nat)
    (hx : x < 16) (hxF : x ≠ 0xF) (hy : y < 16)
    (hfetch : c8_fetch_next_instruction s = some (0x8005 + 0x100 * x + 0x10 * y)) :
    ∃ s', c8_run_cycle rnd s = some s' ∧
      (s'.register_V x : Int) = ((s.register_V x : Int) - (s.register_V y : Int)) % 256 ∧
      s'.register_V 0xF = (if s.register_V x > s.register_V y then 1 else 0) ∧
      (s.register_V x = s.register_V y → s'.register_V x = 0 ∧ s'.register_V 0xF = 0) ∧
      s'.program_counter = s.program_counter + 2 := by
  have hpc := fetch_pc_lt hfetch
  have hfam : (0x8005 + 0x100 * x + 0x10 * y) &&& 0xF000 = 0x8000 := by
    rw [and_F000]; omega
  have hsub : (0x8005 + 0x100 * x + 0x10 * y) &&& 0x000F = 5 := by
    rw [and_F]; omega
  have hX : C8_REG_V_IDX (0x8005 + 0x100 * x + 0x10 * y) = x := by
    rw [reg_idx]; omega
  have hY : C8_REG_V2_IDX (0x8005 + 0x100 * x + 0x10 * y) = y := by
    rw [reg2_idx]; omega
  have hmod : (s.program_counter + 2) % 65536 = s.program_counter + 2 := by omega
  have hFx : ¬ (15 = x) := fun h => hxF h.symm
  simp only [c8_run_cycle, hfetch, execute_instruction, hfam, hsub, hX, hY]
  by_cases hc : s.register_V x > s.register_V y
  · refine ⟨_, by simp; rfl, ?_, ?_, ?_, ?_⟩
    · simp [hc, pc_add, set_V, wr, to_u8_cast]
    · simp [hc, pc_add, set_V, wr, hFx]
    · intro he; omega
    · simp [hc, pc_add, set_V, wr, hmod]
  · refine ⟨_, by simp; rfl, ?_, ?_, ?_, ?_⟩
    · simp [hc, pc_add, set_V, wr, to_u8_cast]
    · simp [hc, pc_add, set_V, wr, hFx]
    · intro he
      simp [hc, pc_add, set_V, wr, hFx, he, to_u8]
    · simp [hc, pc_add, set_V, wr, hmod]

/-- C3 at `V1 = 3`, `V2 = 5`, opcode `0x8125`: the result is 254 with flag 0. -/
theorem c3_sub_no_borrow_witness :
    c8_fetch_next_instruction ex_sub = some (0x8005 + 0x100 * 1 + 0x10 * 2) ∧
    ∃ s', c8_run_cycle 0 ex_sub = some s' ∧
      (s'.register_V 1 : Int) = 254 ∧ s'.register_V 0xF = 0 := by
  have hf : c8_fetch_next_instruction ex_sub = some (0x8005 + 0x100 * 1 + 0x10 * 2) := by decide
  refine ⟨hf, ?_⟩
  obtain ⟨s', h1, h2, h3, _, _⟩ :=
    c3_sub_no_borrow 0 ex_sub 1 2 (by decide) (by decide) (by decide) hf
  exact ⟨s', h1, h2, h3⟩

/-- Closed form of the state after `8xy6` with `x ≠ 0xF`. -/
theorem run_shift_right (rnd : Nat) (s : Chip8) (x y : Nat)
    (hx : x < 16) (hxF : x ≠ 0xF) (hy : y < 16) (hV : s.register_V x < 256)
    (hfetch : c8_fetch_next_instruction s = some (0x8006 + 0x100 * x + 0x10 * y)) :
    c8_run_cycle rnd s = some { s with
      register_V := wr (wr s.register_V 0xF (s.register_V x % 2)) x (s.register_V x / 2),
      program_counter := s.program_counter + 2 } := by
  have hpc := fetch_pc_lt hfetch
  have hfam : (0x8006 + 0x100 * x + 0x10 * y) &&& 0xF000 = 0x8000 := by
    rw [and_F000]; omega
  have hsub : (0x8006 + 0x100 * x + 0x10 * y) &&& 0x000F = 6 := by
    rw [and_F]; omega
  have hX : C8_REG_V_IDX (0x8006 + 0x100 * x + 0x10 * y) = x := by
    rw [reg_idx]; omega
  have hmod : (s.program_counter + 2) % 65536 = s.program_counter + 2 := by omega
  have hdiv : s.register_V x / 2 % 256 = s.register_V x / 2 := by omega
  simp only [c8_run_cycle, hfetch, execute_instruction, hfam, hsub, hX, and_1]
  rcases Nat.mod_two_eq_zero_or_one (s.register_V x) with h0 | h1
  · simp [h0, pc_add, set_V, wr, hxF, hdiv, hmod]
  · simp [h1, pc_add, set_V, wr, hxF, hdiv, hmod]

/-- C4 (counterexample): with both register fields naming register 1 (opcode
`0x8116`), `V[y]` is the operand itself and the result depends on it: from
`V1 = 5` the flag is 1 and `V1` becomes 2, while from the state that differs only
in the value 4 held in `V[y]` the flag is 0. -/
theorem c4_same_register_counterexample :
    c8_fetch_next_instruction ex_shr_same = some (0x8006 + 0x100 * 1 + 0x10 * 1) ∧
    c8_fetch_next_instruction (set_V ex_shr_same 1 4) = some (0x8006 + 0x100 * 1 + 0x10 * 1) ∧
    ex_shr_same.register_V 1 = 5 ∧
    (∀ k, k ≠ 1 → (set_V ex_shr_same 1 4).register_V k = ex_shr_same.register_V k) ∧
    { set_V ex_shr_same 1 4 with register_V := ex_shr_same.register_V } = ex_shr_same ∧
    (c8_run_cycle 0 ex_shr_same).map (fun c => (c.register_V 0xF, c.register_V 1)) =
      some (1, 2) ∧
    (c8_run_cycle 0 (set_V ex_shr_same 1 4)).map (fun c => (c.register_V 0xF, c.register_V 1)) =
      some (0, 2) ∧
    ¬ ∀ v, (c8_run_cycle 0 (set_V ex_shr_same 1 v)).map (fun c => c.register_V 0xF) =
      (c8_run_cycle 0 ex_shr_same).map (fun c => c.register_V 0xF) := by
  refine ⟨by decide, by decide, rfl, ?_, rfl, by decide, by decide, ?_⟩
  · intro k hk
    simp [set_V, wr, hk]
  · intro h
    have h4 := h 4
    revert h4
    decide

/-- C4 (amended): for `x ≠ 0xF` (and `V[x]` a byte) and every `y`, opcode `8xy6`
sets `V[0xF]` to the original low bit of `V[x]` and `V[x]` to `floor(V[x] / 2)`; the
resulting state is the input state with these two registers and `program_counter`
replaced; and when `y ≠ x`, replacing the value held in `V[y]` by any other value
`v` before the instruction changes nothing in the result except `V[y]` itself. -/
theorem c4_shift_right (rnd : Nat) (s : Chip8) (x y : Nat)
    (hx : x < 16) (hxF : x ≠ 0xF) (hy : y < 16) (hV : s.register_V x < 256)
    (hfetch : c8_fetch_next_instruction s = some (0x8006 + 0x100 * x + 0x10 * y)) :
    ∃ s', c8_run_cycle rnd s = some s' ∧
      s'.register_V 0xF = s.register_V x % 2 ∧
      s'.register_V x = s.register_V x / 2 ∧
      s' = { s with
        register_V := wr (wr s.register_V 0xF (s.register_V x % 2)) x (s.register_V x / 2),
        program_counter := s.program_counter + 2 } ∧
      ∀ v, y ≠ x → ∃ t', c8_run_cycle rnd (set_V s y v) = some t' ∧
        t'.register_V 0xF = s'.register_V 0xF ∧
        t'.register_V x = s'.register_V x ∧
        (∀ k, k ≠ y → t'.register_V k = s'.register_V k) ∧
        { t' with register_V := s'.register_V } = s' := by
  have hFx : ¬ (15 = x) := fun h => hxF h.symm
  refine ⟨_, run_shift_right rnd s x y hx hxF hy hV hfetch, ?_, ?_, rfl, ?_⟩
  · simp [wr, hFx]
  · simp [wr]
  · intro v hyx
    have hxy : ¬ (x = y) := fun h => hyx h.symm
    have hVt : (set_V s y v).register_V x = s.register_V x := by
      simp [set_V, wr, hxy]
    have hrun := run_shift_right rnd (set_V s y v) x y hx hxF hy (by rw [hVt]; exact hV) hfetch
    rw [hVt] at hrun
    refine ⟨_, hrun, ?_, ?_, ?_, rfl⟩
    · simp [wr, hFx]
    · simp [wr]
    · intro k hk
      simp [wr, set_V, hk]

/-- C4 (amended) at `V1 = 0x05`, `V2 = 0x77`, opcode `0x8126`: flag 1, result `0x02`. -/
theorem c4_shift_right_witness :
    ex_shr.register_V 1 < 256 ∧
    c8_fetch_next_instruction ex_shr = some (0x8006 + 0x100 * 1 + 0x10 * 2) ∧
    ∃ s', c8_run_cycle 0 ex_shr = some s' ∧
      s'.register_V 0xF = 1 ∧ s'.register_V 1 = 0x02 := by
  have hv : ex_shr.register_V 1 < 256 := by decide
  have hf : c8_fetch_next_instruction ex_shr = some (0x8006 + 0x100 * 1 + 0x10 * 2) := by decide
  refine ⟨hv, hf, ?_⟩
  obtain ⟨s', h1, h2, h3, _, _⟩ :=
    c4_shift_right 0 ex_shr 1 2 (by decide) (by decide) (by decide) hv hf
  exact ⟨s', h1, h2, h3⟩

/-! ## The draw loop of `Dxyn` -/

theorem draw_toggle_eq (s : Chip8) (a : Nat) :
    draw_toggle s a = { s with
      display := wr s.display a ((s.display a ^^^ 1) % 256),
      register_V := if s.display a = 1 then wr s.register_V 0xF 1 else s.register_V } := by
  unfold draw_toggle set_V
  split <;> rfl

theorem foldl_toggle_frame (L : List Nat) : ∀ s : Chip8,
    ∃ d v, L.foldl draw_toggle s = { s with display := d, register_V := v } := by
  induction L with
  | nil => intro s; exact ⟨s.display, s.register_V, rfl⟩
  | cons a L ih =>
    intro s
    obtain ⟨d, v, h⟩ := ih (draw_toggle s a)
    refine ⟨d, v, ?_⟩
    rw [List.foldl_cons, h, draw_toggle_eq]

theorem draw_bit_eq (x y byte sprite_byte : Nat) (s : Chip8) (b : Nat) :
    draw_bit x y byte sprite_byte s b =
      if ((0x80 >>> b) &&& sprite_byte) ≠ 0 then
        if cell_index s.display_width x y byte b < C8_DISPLAY_MAX_WIDTH * C8_DISPLAY_MAX_HEIGHT then
          some (draw_toggle s (cell_index s.display_width x y byte b))
        else none
      else some s := rfl

theorem draw_bits_eq (x y byte sprite_byte : Nat) : ∀ (bs : List Nat) (s : Chip8),
    bs.foldlM (draw_bit x y byte sprite_byte) s =
      if ∀ i ∈ (bs.filter (bit_on sprite_byte)).map
            (cell_index s.display_width x y byte),
          i < C8_DISPLAY_MAX_WIDTH * C8_DISPLAY_MAX_HEIGHT
      then some (((bs.filter (bit_on sprite_byte)).map
            (cell_index s.display_width x y byte)).foldl draw_toggle s)
      else none := by
  intro bs
  induction bs with
  | nil => intro s; simp
  | cons b bs ih =>
    intro s
    rw [List.foldlM_cons, draw_bit_eq]
    by_cases hc : ((0x80 >>> b) &&& sprite_byte) ≠ 0
    · have hp : bit_on sprite_byte b = true := by
        simpa [bit_on] using hc
      rw [List.filter_cons_of_pos hp, if_pos hc]
      by_cases hi : cell_index s.display_width x y byte b <
          C8_DISPLAY_MAX_WIDTH * C8_DISPLAY_MAX_HEIGHT
      · have hw : (draw_toggle s (cell_index s.display_width x y byte b)).display_width
            = s.display_width := by rw [draw_toggle_eq]
        rw [if_pos hi]
        simp only [Option.bind_eq_bind, Option.some_bind, List.map_cons, List.foldl_cons,
          List.forall_mem_cons]
        rw [ih, hw]
        simp only [hi, true_and]
      · rw [if_neg hi]
        simp only [Option.bind_eq_bind, Option.none_bind, List.map_cons, List.forall_mem_cons]
        simp only [hi, false_and, if_false]
    · have hp : ¬ (bit_on sprite_byte b = true) := by
        simpa [bit_on] using hc
      rw [List.filter_cons_of_neg hp, if_neg hc]
      simp only [Option.bind_eq_bind, Option.some_bind]
      rw [ih]

theorem draw_byte_eq (x y : Nat) (s : Chip8) (byte : Nat) :
    draw_byte x y s byte =
      if s.register_I + byte < C8_MEMORY_SIZE ∧
          ∀ i ∈ row_cells s.display_width x y byte (s.memory (s.register_I + byte)),
            i < C8_DISPLAY_MAX_WIDTH * C8_DISPLAY_MAX_HEIGHT
      then some ((row_cells s.display_width x y byte (s.memory (s.register_I + byte))).foldl
        draw_toggle s)
      else none := by
  unfold draw_byte row_cells
  by_cases h : s.register_I + byte < C8_MEMORY_SIZE
  · simp only [h, if_true, true_and]
    rw [draw_bits_eq]
  · simp [h]

theorem draw_bytes_eq (x y : Nat) : ∀ (rows : List Nat) (s : Chip8),
    rows.foldlM (draw_byte x y) s =
      if draw_in_bounds s x y rows then some ((sprite_cells s x y rows).foldl draw_toggle s)
      else none := by
  intro rows
  induction rows with
  | nil => intro s; simp [draw_in_bounds, sprite_cells]
  | cons r rows ih =>
    intro s
    rw [List.foldlM_cons, draw_byte_eq]
    by_cases h : s.register_I + r < C8_MEMORY_SIZE ∧
          ∀ i ∈ row_cells s.display_width x y r (s.memory (s.register_I + r)),
            i < C8_DISPLAY_MAX_WIDTH * C8_DISPLAY_MAX_HEIGHT
    · rw [if_pos h]
      simp only [Option.bind_eq_bind, Option.some_bind]
      obtain ⟨d, v, hf⟩ := foldl_toggle_frame
        (row_cells s.display_width x y r (s.memory (s.register_I + r))) s
      rw [ih, hf]
      have hb : draw_in_bounds { s with display := d, register_V := v } x y rows ↔
          draw_in_bounds s x y (r :: rows) := by
        simp only [draw_in_bounds, List.forall_mem_cons]
        constructor
        · intro h2; exact ⟨h, h2⟩
        · intro h2; exact h2.2
      have hs : sprite_cells { s with display := d, register_V := v } x y rows =
          sprite_cells s x y rows := rfl
      by_cases h3 : draw_in_bounds s x y (r :: rows)
      · rw [if_pos (hb.2 h3), if_pos h3, hs, ← hf]
        simp only [sprite_cells, List.flatMap_cons, List.foldl_append]
      · rw [if_neg (fun hh => h3 (hb.1 hh)), if_neg h3]
    · rw [if_neg h]
      simp only [Option.bind_eq_bind, Option.none_bind]
      rw [if_neg]
      intro h3
      exact h (h3 r (List.mem_cons_self _ _))

theorem foldl_toggle_display : ∀ (L : List Nat) (s : Chip8) (i : Nat),
    (L.foldl draw_toggle s).display i = flip_cell^[L.count i] (s.display i) := by
  intro L
  induction L with
  | nil => intro s i; simp
  | cons a L ih =>
    intro s i
    rw [List.foldl_cons, ih, draw_toggle_eq]
    by_cases h : i = a
    · subst h
      simp [wr, List.count_cons_self, Function.iterate_succ_apply, flip_cell]
    · have h2 : a ≠ i := fun e => h e.symm
      simp [wr, h, List.count_cons_of_ne h2]

theorem foldl_toggle_V_other : ∀ (L : List Nat) (s : Chip8) (k : Nat), k ≠ 0xF →
    (L.foldl draw_toggle s).register_V k = s.register_V k := by
  intro L
  induction L with
  | nil => intro s k _; rfl
  | cons a L ih =>
    intro s k hk
    rw [List.foldl_cons, ih _ k hk, draw_toggle_eq]
    by_cases h : s.display a = 1 <;> simp [h, wr, hk]

theorem foldl_toggle_VF_keep : ∀ (L : List Nat) (s : Chip8), s.register_V 0xF = 1 →
    (L.foldl draw_toggle s).register_V 0xF = 1 := by
  intro L
  induction L with
  | nil => intro s h; exact h
  | cons a L ih =>
    intro s h
    rw [List.foldl_cons]
    apply ih
    rw [draw_toggle_eq]
    by_cases h2 : s.display a = 1 <;> simp [h2, wr, h]

theorem foldl_toggle_VF_hit : ∀ (L : List Nat) (s : Chip8),
    (∃ i ∈ L, s.display i = 1) → (L.foldl draw_toggle s).register_V 0xF = 1 := by
  intro L
  induction L with
  | nil => intro s h; simp at h
  | cons a L ih =>
    intro s h
    rw [List.foldl_cons]
    by_cases ha : s.display a = 1
    · apply foldl_toggle_VF_keep
      rw [draw_toggle_eq]
      simp [ha, wr]
    · apply ih
      obtain ⟨i, hi, hd⟩ := h
      rcases List.mem_cons.1 hi with rfl | hi2
      · exact absurd hd ha
      · refine ⟨i, hi2, ?_⟩
        have hne : i ≠ a := fun e => ha (e ▸ hd)
        rw [draw_toggle_eq]
        simp [wr, hne, hd]

theorem foldl_toggle_VF_miss : ∀ (L : List Nat) (s : Chip8), L.Nodup →
    (∀ i ∈ L, s.display i ≠ 1) → (L.foldl draw_toggle s).register_V 0xF = s.register_V 0xF := by
  intro L
  induction L with
  | nil => intro s _ _; rfl
  | cons a L ih =>
    intro s hnd h
    rw [List.foldl_cons]
    have hnd2 := List.nodup_cons.1 hnd
    have ha : s.display a ≠ 1 := h a (List.mem_cons_self _ _)
    rw [ih _ hnd2.2]
    · rw [draw_toggle_eq]
      simp [ha]
    · intro i hi
      have hne : i ≠ a := fun e => hnd2.1 (e ▸ hi)
      rw [draw_toggle_eq]
      simp only [wr, hne, if_false]
      exact h i (List.mem_cons_of_mem _ hi)

theorem mem_row_cells (w x y r sb i : Nat) :
    i ∈ row_cells w x y r sb ↔
      ∃ b, b < 8 ∧ sb / 2 ^ (7 - b) % 2 = 1 ∧ i = cell_index w x y r b := by
  unfold row_cells
  simp only [List.mem_map, List.mem_filter, List.mem_range]
  constructor
  · rintro ⟨b, ⟨hb, hon⟩, rfl⟩
    refine ⟨b, hb, ?_, rfl⟩
    have := (sprite_bit sb b hb).1 (by simpa [bit_on] using hon)
    exact this
  · rintro ⟨b, hb, hon, rfl⟩
    refine ⟨b, ⟨hb, ?_⟩, rfl⟩
    have := (sprite_bit sb b hb).2 hon
    simpa [bit_on] using this

theorem mem_sprite_cells (s : Chip8) (x y : Nat) (rows : List Nat) (i : Nat) :
    i ∈ sprite_cells s x y rows ↔
      ∃ r, r ∈ rows ∧ ∃ b, b < 8 ∧ s.memory (s.register_I + r) / 2 ^ (7 - b) % 2 = 1 ∧
        i = cell_index s.display_width x y r b := by
  unfold sprite_cells
  simp only [List.mem_flatMap, mem_row_cells]

theorem nodup_row_cells (x y r sb : Nat) :
    (row_cells 64 x y r sb).Nodup := by
  unfold row_cells
  apply List.Nodup.map_on
  · intro b hb c hc hbc
    have hb2 := List.mem_range.1 (List.mem_filter.1 hb).1
    have hc2 := List.mem_range.1 (List.mem_filter.1 hc).1
    unfold cell_index at hbc
    omega
  · exact (List.nodup_range 8).filter _

theorem nodup_sprite_cells (s : Chip8) (x y : Nat) (rows : List Nat)
    (hw : s.display_width = 64) (hrows : rows.Nodup)
    (h : ∀ r ∈ rows, (y + r) * 64 + x + 7 < 65536) :
    (sprite_cells s x y rows).Nodup := by
  unfold sprite_cells
  rw [List.nodup_flatMap, hw]
  constructor
  · intro r hr
    exact nodup_row_cells x y r _
  · have hp : rows.Pairwise (fun a b => a ≠ b ∧ a ∈ rows ∧ b ∈ rows) := by
      rw [List.pairwise_iff_forall_sublist]
      intro a b hab
      have h1 : a ∈ rows := hab.subset (by simp)
      have h2 : b ∈ rows := hab.subset (by simp)
      refine ⟨?_, h1, h2⟩
      have := (List.pairwise_iff_forall_sublist.1 hrows) hab
      exact this
    refine hp.imp ?_
    rintro a b ⟨hne, ha, hb⟩
    intro i hia hib
    obtain ⟨b1, hb1, _, e1⟩ := (mem_row_cells _ _ _ _ _ _).1 hia
    obtain ⟨b2, hb2, _, e2⟩ := (mem_row_cells _ _ _ _ _ _).1 hib
    have ha2 := h a ha
    have hb3 := h b hb
    unfold cell_index at e1 e2
    omega

theorem flip_cell_flip_cell (v : Nat) (h : v < 256) : flip_cell (flip_cell v) = v := by
  unfold flip_cell
  have h1 : v ^^^ 1 < 256 := Nat.xor_lt_two_pow (n := 8) h (by decide)
  rw [Nat.mod_eq_of_lt h1, Nat.xor_assoc]
  simp [Nat.mod_eq_of_lt h]

theorem flip_cell_lt (v : Nat) : flip_cell v < 256 := Nat.mod_lt _ (by decide)

/-- Execution of `Dxyn`, as a fold of `draw_toggle` over the visited cells. -/
theorem run_draw (rnd : Nat) (s : Chip8) (x y n : Nat)
    (hx : x < 16) (hy : y < 16) (hn : n < 16)
    (hfetch : c8_fetch_next_instruction s = some (0xD000 + 0x100 * x + 0x10 * y + n)) :
    c8_run_cycle rnd s =
      if draw_in_bounds s (s.register_V x) (s.register_V y) (List.range n) then
        some (pc_add { (sprite_cells s (s.register_V x) (s.register_V y) (List.range n)).foldl
          draw_toggle (set_V s 0xF 0) with update_display := true } 2)
      else none := by
  have hfam : (0xD000 + 0x100 * x + 0x10 * y + n) &&& 0xF000 = 0xD000 := by
    rw [and_F000]; omega
  have hsub : (0xD000 + 0x100 * x + 0x10 * y + n) &&& 0x000F = n := by
    rw [and_F]; omega
  have hX : C8_REG_V_IDX (0xD000 + 0x100 * x + 0x10 * y + n) = x := by
    rw [reg_idx]; omega
  have hY : C8_REG_V2_IDX (0xD000 + 0x100 * x + 0x10 * y + n) = y := by
    rw [reg2_idx]; omega
  have hn2 : n % 256 = n := by omega
  simp only [c8_run_cycle, hfetch, execute_instruction, hfam, hsub, hX, hY, hn2]
  simp only [Nat.reduceEqDiff, if_false]
  rw [draw_bytes_eq]
  have h1 : draw_in_bounds (set_V s 0xF 0) (s.register_V x) (s.register_V y) (List.range n) ↔
      draw_in_bounds s (s.register_V x) (s.register_V y) (List.range n) := Iff.rfl
  have h2 : sprite_cells (set_V s 0xF 0) (s.register_V x) (s.register_V y) (List.range n) =
      sprite_cells s (s.register_V x) (s.register_V y) (List.range n) := rfl
  by_cases hb : draw_in_bounds s (s.register_V x) (s.register_V y) (List.range n)
  · rw [if_pos (h1.2 hb), if_pos hb, h2]
    rfl
  · rw [if_neg (fun hh => hb (h1.1 hh)), if_neg hb]
    rfl

/-- The state after an in-bounds `Dxyn`. -/
theorem draw_result (rnd : Nat) (s : Chip8) (x y n : Nat)
    (hx : x < 16) (hy : y < 16) (hn : n < 16)
    (hfetch : c8_fetch_next_instruction s = some (0xD000 + 0x100 * x + 0x10 * y + n))
    (hb : draw_in_bounds s (s.register_V x) (s.register_V y) (List.range n)) :
    ∃ s', c8_run_cycle rnd s = some s' ∧
      (∀ i, s'.display i =
        flip_cell^[(sprite_cells s (s.register_V x) (s.register_V y) (List.range n)).count i]
          (s.display i)) ∧
      (∀ k, k ≠ 0xF → s'.register_V k = s.register_V k) ∧
      ((∃ i ∈ sprite_cells s (s.register_V x) (s.register_V y) (List.range n), s.display i = 1) →
        s'.register_V 0xF = 1) ∧
      ((sprite_cells s (s.register_V x) (s.register_V y) (List.range n)).Nodup →
        (∀ i ∈ sprite_cells s (s.register_V x) (s.register_V y) (List.range n), s.display i ≠ 1) →
        s'.register_V 0xF = 0) ∧
      s' = { s with display := s'.display, register_V := s'.register_V, update_display := true,
                    program_counter := s.program_counter + 2 } := by
  have hpc := fetch_pc_lt hfetch
  have hmod : (s.program_counter + 2) % 65536 = s.program_counter + 2 := by omega
  rw [run_draw rnd s x y n hx hy hn hfetch, if_pos hb]
  refine ⟨_, rfl, ?_, ?_, ?_, ?_, ?_⟩
  · intro i
    simp only [pc_add]
    rw [foldl_toggle_display]
    rfl
  · intro k hk
    simp only [pc_add]
    rw [foldl_toggle_V_other _ _ k hk]
    simp [set_V, wr, hk]
  · intro h
    simp only [pc_add]
    exact foldl_toggle_VF_hit _ (set_V s 0xF 0) h
  · intro hnd h
    simp only [pc_add]
    have h0 := foldl_toggle_VF_miss _ (set_V s 0xF 0) hnd h
    rw [h0]
    simp [set_V, wr]
  · obtain ⟨d, v, hf⟩ := foldl_toggle_frame
      (sprite_cells s (s.register_V x) (s.register_V y) (List.range n)) (set_V s 0xF 0)
    rw [hf]
    simp [pc_add, set_V, hmod]

theorem mem_cells_iff_covers (s : Chip8) (x y n i : Nat) (hw : s.display_width = 64)
    (h : (s.register_V y + n) * 64 + s.register_V x + 7 < 65536 + 64) :
    i ∈ sprite_cells s (s.register_V x) (s.register_V y) (List.range n) ↔
      sprite_covers s x y n i := by
  rw [mem_sprite_cells, hw]
  unfold sprite_covers cell_index
  constructor
  · rintro ⟨r, hr, b, hb, hon, e⟩
    have hr2 := List.mem_range.1 hr
    refine ⟨r, hr2, b, hb, hon, ?_⟩
    omega
  · rintro ⟨r, hr, b, hb, hon, e⟩
    refine ⟨r, List.mem_range.2 hr, b, hb, hon, ?_⟩
    omega

/-- C5: on a display of 0/1 cells, a `Dxyn` whose sprite lies inside the 64x32
display and inside memory flips exactly the cells `(V[x]+b, V[y]+r)` for which
bit `b` (from the most significant bit) of `memory[register_I + r]` is set, leaves
every other cell unchanged, sets `update_display`, advances `program_counter` by 2,
and sets `V[0xF]` to 1 if a flipped cell was 1 before and to 0 otherwise. -/
theorem c5_draw_sprite (rnd : Nat) (s : Chip8) (x y n : Nat)
    (hx : x < 16) (hy : y < 16) (hn : n < 16)
    (hfetch : c8_fetch_next_instruction s = some (0xD000 + 0x100 * x + 0x10 * y + n))
    (hw : s.display_width = 64)
    (hcells : ∀ i, i < C8_DISPLAY_MAX_WIDTH * C8_DISPLAY_MAX_HEIGHT →
      s.display i = 0 ∨ s.display i = 1)
    (hX : s.register_V x + 7 < 64) (hY : s.register_V y + n ≤ 32)
    (hI : s.register_I + n ≤ 4096) :
    ∃ s', c8_run_cycle rnd s = some s' ∧
      (∀ i, sprite_covers s x y n i → s'.display i = 1 - s.display i) ∧
      (∀ i, ¬ sprite_covers s x y n i → s'.display i = s.display i) ∧
      s'.update_display = true ∧
      s'.program_counter = s.program_counter + 2 ∧
      ((∃ i, sprite_covers s x y n i ∧ s.display i = 1) → s'.register_V 0xF = 1) ∧
      ((¬ ∃ i, sprite_covers s x y n i ∧ s.display i = 1) → s'.register_V 0xF = 0) := by
  have hmem := fun i => mem_cells_iff_covers s x y n i hw (by omega)
  have hlt : ∀ i, sprite_covers s x y n i → i < 2048 := by
    rintro i ⟨r, hr, b, hb, _, e⟩
    omega
  have hb : draw_in_bounds s (s.register_V x) (s.register_V y) (List.range n) := by
    intro r hr
    have hr2 := List.mem_range.1 hr
    refine ⟨by unfold C8_MEMORY_SIZE; omega, ?_⟩
    intro i hi
    have hi2 : i ∈ sprite_cells s (s.register_V x) (s.register_V y) (List.range n) := by
      unfold sprite_cells
      exact List.mem_flatMap.2 ⟨r, hr, hi⟩
    have := hlt i ((hmem i).1 hi2)
    unfold C8_DISPLAY_MAX_WIDTH C8_DISPLAY_MAX_HEIGHT
    omega
  have hnd : (sprite_cells s (s.register_V x) (s.register_V y) (List.range n)).Nodup := by
    apply nodup_sprite_cells s _ _ _ hw (List.nodup_range n)
    intro r hr
    have hr2 := List.mem_range.1 hr
    omega
  obtain ⟨s', hrun, hd, _, hhit, hmiss, hfr⟩ := draw_result rnd s x y n hx hy hn hfetch hb
  refine ⟨s', hrun, ?_, ?_, ?_, ?_, ?_, ?_⟩
  · intro i hi
    rw [hd i, List.count_eq_one_of_mem hnd ((hmem i).2 hi)]
    have hi2 := hlt i hi
    rcases hcells i (by unfold C8_DISPLAY_MAX_WIDTH C8_DISPLAY_MAX_HEIGHT; omega) with h0 | h1
    · rw [h0]; rfl
    · rw [h1]; rfl
  · intro i hi
    rw [hd i, List.count_eq_zero_of_not_mem (fun hm => hi ((hmem i).1 hm))]
    rfl
  · rw [hfr]
  · rw [hfr]
  · rintro ⟨i, hi, h1⟩
    exact hhit ⟨i, (hmem i).2 hi, h1⟩
  · intro hno
    apply hmiss hnd
    intro i hi h1
    exact hno ⟨i, (hmem i).1 hi, h1⟩

/-- C5 on a blank display with the glyph "0" drawn at column 3, row 2: the cell at
column 3, row 2 is set, the cell at column 7, row 2 stays clear, and no collision
is reported. -/
theorem c5_draw_sprite_witness :
    c8_fetch_next_instruction ex_draw = some (0xD000 + 0x100 * 0 + 0x10 * 1 + 5) ∧
    ex_draw.display_width = 64 ∧
    (∀ i, i < C8_DISPLAY_MAX_WIDTH * C8_DISPLAY_MAX_HEIGHT →
      ex_draw.display i = 0 ∨ ex_draw.display i = 1) ∧
    ex_draw.register_V 0 + 7 < 64 ∧ ex_draw.register_V 1 + 5 ≤ 32 ∧
    ex_draw.register_I + 5 ≤ 4096 ∧
    ∃ s', c8_run_cycle 0 ex_draw = some s' ∧
      s'.display (2 * 64 + 3) = 1 ∧ s'.display (2 * 64 + 7) = 0 ∧
      s'.update_display = true ∧ s'.program_counter = 0x202 ∧ s'.register_V 0xF = 0 := by
  have hf : c8_fetch_next_instruction ex_draw = some (0xD000 + 0x100 * 0 + 0x10 * 1 + 5) := by
    decide
  have hc : ∀ i, i < C8_DISPLAY_MAX_WIDTH * C8_DISPLAY_MAX_HEIGHT →
      ex_draw.display i = 0 ∨ ex_draw.display i = 1 := fun _ _ => Or.inl rfl
  refine ⟨hf, rfl, hc, by decide, by decide, by decide, ?_⟩
  obtain ⟨s', hrun, hon, hoff, hu, hp, _, hF⟩ :=
    c5_draw_sprite 0 ex_draw 0 1 5 (by decide) (by decide) (by decide) hf rfl hc
      (by decide) (by decide) (by decide)
  refine ⟨s', hrun, ?_, ?_, hu, hp, ?_⟩
  · exact hon _ ⟨0, by decide, 0, by decide, by decide, by decide⟩
  · apply hoff
    rintro ⟨r, hr, b, hb, hbit, e⟩
    have hr0 : r = 0 := by
      have e' : 2 * 64 + 7 = (2 + r) * 64 + (3 + b) := e
      omega
    subst hr0
    have hb4 : b = 4 := by
      have e' : 2 * 64 + 7 = (2 + 0) * 64 + (3 + b) := e
      omega
    subst hb4
    revert hbit
    decide
  · apply hF
    rintro ⟨i, _, h1⟩
    have h0 : ex_draw.display i = 0 := rfl
    omega

/-! ## Well-typed states -/

theorem wellTyped_init : WellTyped c8_init where
  memory_u8 := by
    intro a _
    show c8_builtin_sprites.getD a 0 < 256
    rw [List.getD_eq_getElem?_getD]
    by_cases h : a < c8_builtin_sprites.length
    · rw [List.getElem?_eq_getElem h]
      have hall : ∀ v ∈ c8_builtin_sprites, v < 256 := by decide
      exact hall _ (List.getElem_mem h)
    · rw [List.getElem?_eq_none (by omega)]
      decide
  register_V_u8 := fun _ _ => Nat.zero_lt_succ 255
  register_I_u16 := by decide
  delay_u8 := by decide
  sound_u8 := by decide
  pc_u16 := by decide
  stack_u16 := fun _ _ => Nat.zero_lt_succ 65535
  sp_u8 := by decide
  display_u8 := fun _ _ => Nat.zero_lt_succ 255
  height_u8 := by decide
  width_u8 := by decide
  keys_u8 := fun _ _ => Nat.zero_lt_succ 255
  wait_i8 := by decide

theorem WellTyped.set_V {s : Chip8} (h : WellTyped s) (k v : Nat) (hv : v < 256) :
    WellTyped (set_V s k v) :=
  { h with
    register_V_u8 := by
      intro j hj
      show wr s.register_V k v j < 256
      unfold wr
      split
      · exact hv
      · exact h.register_V_u8 j hj }

theorem WellTyped.poke_instr {s : Chip8} (h : WellTyped s) (instr : Nat) (hi : instr < 65536) :
    WellTyped (poke_instr s instr) :=
  { h with
    memory_u8 := by
      intro a ha
      show wr (wr s.memory s.program_counter (instr / 256)) (s.program_counter + 1)
        (instr % 256) a < 256
      unfold wr
      split
      · omega
      · split
        · omega
        · exact h.memory_u8 a ha }

/-! ## Drawing the same sprite twice -/

theorem flip_cell_iterate_twice (c v : Nat) (h : v < 256) :
    flip_cell^[c] (flip_cell^[c] v) = v := by
  rw [← Function.iterate_add_apply, ← two_mul, Function.iterate_mul]
  apply Function.iterate_fixed
  exact flip_cell_flip_cell v h

/-- A sprite inside the 64x32 display and inside memory is drawn without any
access outside the arrays. -/
theorem draw_in_bounds_of_inside (s : Chip8) (x y n : Nat) (hw : s.display_width = 64)
    (hX : s.register_V x + 7 < 64) (hY : s.register_V y + n ≤ 32)
    (hI : s.register_I + n ≤ 4096) :
    draw_in_bounds s (s.register_V x) (s.register_V y) (List.range n) := by
  intro r hr
  have hr2 := List.mem_range.1 hr
  refine ⟨by unfold C8_MEMORY_SIZE; omega, ?_⟩
  intro i hi
  rw [hw] at hi
  obtain ⟨b, hb, _, e⟩ := (mem_row_cells _ _ _ _ _ _).1 hi
  unfold cell_index at e
  unfold C8_DISPLAY_MAX_WIDTH C8_DISPLAY_MAX_HEIGHT
  omega

/-- C6: executing the same in-bounds `Dxyn` (`x, y ≠ 0xF`) twice in succession
returns the display to its contents before the first draw; and on the 64-wide
display, when the touched cells were all 0 beforehand and the sprite has a set
bit, `V[0xF]` is 0 after the first draw and 1 after the second. -/
theorem c6_draw_twice (rnd1 rnd2 : Nat) (s : Chip8) (x y n : Nat)
    (hx : x < 16) (hy : y < 16) (hn : n < 16) (hxF : x ≠ 0xF) (hyF : y ≠ 0xF)
    (hwt : WellTyped s)
    (hfetch : c8_fetch_next_instruction s = some (0xD000 + 0x100 * x + 0x10 * y + n))
    (hnext : c8_fetch_next_instruction (pc_add s 2) = some (0xD000 + 0x100 * x + 0x10 * y + n))
    (hb : draw_in_bounds s (s.register_V x) (s.register_V y) (List.range n)) :
    ∃ s1 s2, c8_run_cycle rnd1 s = some s1 ∧ c8_run_cycle rnd2 s1 = some s2 ∧
      s1.register_I = s.register_I ∧
      s1.register_V x = s.register_V x ∧ s1.register_V y = s.register_V y ∧
      s1.memory = s.memory ∧
      s2.display = s.display ∧
      (s.display_width = 64 → (∀ i, sprite_covers s x y n i → s.display i = 0) →
        (∃ i, sprite_covers s x y n i) →
        s1.register_V 0xF = 0 ∧ s2.register_V 0xF = 1) := by
  have hpc := fetch_pc_lt hfetch
  obtain ⟨s1, hr1, hd1, hV1, _, hmiss1, hfr1⟩ := draw_result rnd1 s x y n hx hy hn hfetch hb
  have hm : s1.memory = s.memory := by rw [hfr1]
  have hI : s1.register_I = s.register_I := by rw [hfr1]
  have hw1 : s1.display_width = s.display_width := by rw [hfr1]
  have hp1 : s1.program_counter = s.program_counter + 2 := by rw [hfr1]
  have hVx : s1.register_V x = s.register_V x := hV1 x hxF
  have hVy : s1.register_V y = s.register_V y := hV1 y hyF
  have hL : sprite_cells s1 (s1.register_V x) (s1.register_V y) (List.range n) =
      sprite_cells s (s.register_V x) (s.register_V y) (List.range n) := by
    unfold sprite_cells
    rw [hVx, hVy, hm, hI, hw1]
  have hb1 : draw_in_bounds s1 (s1.register_V x) (s1.register_V y) (List.range n) := by
    unfold draw_in_bounds
    rw [hVx, hVy, hm, hI, hw1]
    exact hb
  have hfetch1 : c8_fetch_next_instruction s1 =
      some (0xD000 + 0x100 * x + 0x10 * y + n) := by
    rw [← hnext]
    have hmod : (s.program_counter + 2) % 65536 = s.program_counter + 2 := by omega
    unfold c8_fetch_next_instruction
    rw [hm, hp1]
    simp only [pc_add, hmod]
  obtain ⟨s2, hr2, hd2, _, hhit2, _, _⟩ := draw_result rnd2 s1 x y n hx hy hn hfetch1 hb1
  rw [hL] at hd2 hhit2
  refine ⟨s1, s2, hr1, hr2, hI, hVx, hVy, hm, ?_, ?_⟩
  · funext i
    rw [hd2 i, hd1 i]
    by_cases hi : i ∈ sprite_cells s (s.register_V x) (s.register_V y) (List.range n)
    · apply flip_cell_iterate_twice
      apply hwt.display_u8
      unfold sprite_cells at hi
      obtain ⟨r, hr, hir⟩ := List.mem_flatMap.1 hi
      exact (hb r hr).2 i hir
    · rw [List.count_eq_zero_of_not_mem hi]
      rfl
  · intro hw hzero hsome
    have hbx := hwt.register_V_u8 x hx
    have hby := hwt.register_V_u8 y hy
    have hmem := fun i => mem_cells_iff_covers s x y n i hw (by omega)
    have hnd : (sprite_cells s (s.register_V x) (s.register_V y) (List.range n)).Nodup := by
      apply nodup_sprite_cells s _ _ _ hw (List.nodup_range n)
      intro r hr
      have hr2 := List.mem_range.1 hr
      omega
    constructor
    · apply hmiss1 hnd
      intro i hi
      rw [hzero i ((hmem i).1 hi)]
      decide
    · obtain ⟨i, hi⟩ := hsome
      apply hhit2
      refine ⟨i, (hmem i).2 hi, ?_⟩
      rw [hd1 i, List.count_eq_one_of_mem hnd ((hmem i).2 hi), hzero i hi]
      rfl

/-- C6 on a blank display with the glyph "0" drawn twice at column 3, row 2. -/
theorem c6_draw_twice_witness :
    WellTyped ex_draw_twice ∧
    c8_fetch_next_instruction ex_draw_twice = some (0xD000 + 0x100 * 0 + 0x10 * 1 + 5) ∧
    c8_fetch_next_instruction (pc_add ex_draw_twice 2) =
      some (0xD000 + 0x100 * 0 + 0x10 * 1 + 5) ∧
    draw_in_bounds ex_draw_twice (ex_draw_twice.register_V 0) (ex_draw_twice.register_V 1)
      (List.range 5) ∧
    ∃ s1 s2, c8_run_cycle 0 ex_draw_twice = some s1 ∧ c8_run_cycle 0 s1 = some s2 ∧
      s2.display = ex_draw_twice.display ∧ s1.register_V 0xF = 0 ∧ s2.register_V 0xF = 1 := by
  have hwt : WellTyped ex_draw_twice :=
    { WellTyped.poke_instr (s := pc_add (poke_instr (set_V (set_V c8_init 0 3) 1 2) 0xD015) 2)
        { (((wellTyped_init.set_V 0 3 (by decide)).set_V 1 2 (by decide)).poke_instr 0xD015
            (by decide)) with pc_u16 := by decide } 0xD015 (by decide) with
      pc_u16 := by decide }
  have hf : c8_fetch_next_instruction ex_draw_twice =
      some (0xD000 + 0x100 * 0 + 0x10 * 1 + 5) := by decide
  have hf2 : c8_fetch_next_instruction (pc_add ex_draw_twice 2) =
      some (0xD000 + 0x100 * 0 + 0x10 * 1 + 5) := by decide
  have hb : draw_in_bounds ex_draw_twice (ex_draw_twice.register_V 0)
      (ex_draw_twice.register_V 1) (List.range 5) := by decide
  refine ⟨hwt, hf, hf2, hb, ?_⟩
  obtain ⟨s1, s2, h1, h2, _, _, _, _, hd, hF⟩ :=
    c6_draw_twice 0 0 ex_draw_twice 0 1 5 (by decide) (by decide) (by decide) (by decide)
      (by decide) hwt hf hf2 hb
  have hFF := hF rfl
    (fun i _ => rfl)
    ⟨2 * 64 + 3, 0, by decide, 0, by decide, by decide, by decide⟩
  exact ⟨s1, s2, h1, h2, hd, hFF.1, hFF.2⟩

/-! ## Sprites crossing the display edge -/

/-- C7 (counterexample): on the 64x32 display, `D011` with `V0 = 62`, `V1 = 0` and
sprite byte `0xF0` changes the cell with index 64 (column 0 of row 1), which is
not at row `(V1 + r) mod 32` and column `(V0 + b) mod 64` for any sprite row
`r < 1` and set bit `b < 8`. -/
theorem c7_wrap_or_clip_counterexample :
    ex_edge.display_width = 64 ∧
    c8_fetch_next_instruction ex_edge = some (0xD000 + 0x100 * 0 + 0x10 * 1 + 1) ∧
    ex_edge.display 64 = 0 ∧
    (c8_run_cycle 0 ex_edge).map (fun c => c.display 64) = some 1 ∧
    ¬ ∃ r, r < 1 ∧ ∃ b, b < 8 ∧
      ex_edge.memory (ex_edge.register_I + r) / 2 ^ (7 - b) % 2 = 1 ∧
      64 = ((ex_edge.register_V 1 + r) % 32) * 64 + (ex_edge.register_V 0 + b) % 64 := by
  refine ⟨rfl, by decide, rfl, by decide, ?_⟩
  rintro ⟨r, hr, b, hb, _, e⟩
  have h1 : ex_edge.register_V 1 = 0 := rfl
  have h0 : ex_edge.register_V 0 = 62 := rfl
  rw [h1, h0] at e
  omega

theorem flip_cell_ne (v : Nat) : flip_cell v ≠ v := by
  unfold flip_cell
  intro h
  have h1 : (v ^^^ 1).testBit 0 = v.testBit 0 := by
    have h2 : ((v ^^^ 1) % 2 ^ 8).testBit 0 = v.testBit 0 := by
      rw [show (2 : Nat) ^ 8 = 256 from rfl, h]
    rw [Nat.testBit_mod_two_pow] at h2
    simpa using h2
  rw [Nat.testBit_xor] at h1
  cases hv : v.testBit 0 <;> rw [hv] at h1 <;> revert h1 <;> decide

/-- C7 (amended): on the 64-wide display, a `Dxyn` that stays inside the arrays
changes exactly the cells with linear index `(V[y] + r) * 64 + V[x] + b` for a
sprite row `r < n` and a set bit `b < 8` of that row.  Every changed cell has such
an index, that is column `(V[x] + b) mod 64` of row `V[y] + r + (V[x] + b) / 64`;
and every such cell is XORed with 1 and so changed, whatever its row and column:
nothing is reduced modulo 32 or 64 and nothing is clipped, so the cells of a
sprite row past column 63 are those at the start of the next row and the sprite
rows past row 31 are drawn in rows 32 and up of the display array. -/
theorem c7_changed_cells (rnd : Nat) (s : Chip8) (x y n : Nat)
    (hx : x < 16) (hy : y < 16) (hn : n < 16)
    (hw : s.display_width = 64)
    (hVx : s.register_V x < 256) (hVy : s.register_V y < 256)
    (hfetch : c8_fetch_next_instruction s = some (0xD000 + 0x100 * x + 0x10 * y + n))
    (hb : draw_in_bounds s (s.register_V x) (s.register_V y) (List.range n)) :
    ∃ s', c8_run_cycle rnd s = some s' ∧
      (∀ i, s'.display i ≠ s.display i →
        ∃ r, r < n ∧ ∃ b, b < 8 ∧ s.memory (s.register_I + r) / 2 ^ (7 - b) % 2 = 1 ∧
          i = (s.register_V y + r) * 64 + s.register_V x + b ∧
          i % 64 = (s.register_V x + b) % 64 ∧
          i / 64 = s.register_V y + r + (s.register_V x + b) / 64) ∧
      (∀ r b, r < n → b < 8 → s.memory (s.register_I + r) / 2 ^ (7 - b) % 2 = 1 →
        s'.display ((s.register_V y + r) * 64 + s.register_V x + b) =
          flip_cell (s.display ((s.register_V y + r) * 64 + s.register_V x + b)) ∧
        s'.display ((s.register_V y + r) * 64 + s.register_V x + b) ≠
          s.display ((s.register_V y + r) * 64 + s.register_V x + b) ∧
        ((s.register_V y + r) * 64 + s.register_V x + b) % 64 = (s.register_V x + b) % 64 ∧
        ((s.register_V y + r) * 64 + s.register_V x + b) / 64 =
          s.register_V y + r + (s.register_V x + b) / 64 ∧
        (s.register_V y + r) * 64 + s.register_V x + b < 128 * 64) := by
  obtain ⟨s', hrun, hd, _, _, _, _⟩ := draw_result rnd s x y n hx hy hn hfetch hb
  refine ⟨s', hrun, ?_, ?_⟩
  · intro i hi
    have hmem : i ∈ sprite_cells s (s.register_V x) (s.register_V y) (List.range n) := by
      by_contra hno
      apply hi
      rw [hd i, List.count_eq_zero_of_not_mem hno]
      rfl
    obtain ⟨r, hr, b, hb, hbit, e⟩ := (mem_cells_iff_covers s x y n i hw (by omega)).1 hmem
    refine ⟨r, hr, b, hb, hbit, ?_, ?_, ?_⟩ <;> omega
  · intro r b hr hb8 hbit
    have hnd : (sprite_cells s (s.register_V x) (s.register_V y) (List.range n)).Nodup := by
      apply nodup_sprite_cells s _ _ _ hw (List.nodup_range n)
      intro r hr
      have hr2 := List.mem_range.1 hr
      omega
    have hmem : (s.register_V y + r) * 64 + s.register_V x + b ∈
        sprite_cells s (s.register_V x) (s.register_V y) (List.range n) :=
      (mem_cells_iff_covers s x y n _ hw (by omega)).2
        ⟨r, hr, b, hb8, hbit, by omega⟩
    have hflip : s'.display ((s.register_V y + r) * 64 + s.register_V x + b) =
        flip_cell (s.display ((s.register_V y + r) * 64 + s.register_V x + b)) := by
      rw [hd _, List.count_eq_one_of_mem hnd hmem]
      rfl
    have hlt : (s.register_V y + r) * 64 + s.register_V x + b < 128 * 64 := by
      obtain ⟨r', hr', hir⟩ := List.mem_flatMap.1 hmem
      exact (hb r' hr').2 _ hir
    refine ⟨hflip, ?_, ?_, ?_, hlt⟩
    · rw [hflip]
      exact flip_cell_ne _
    · omega
    · omega

/-- C7 (amended) at the two-row sprite `0xF0`, `0x90` drawn by `D012` at column 62 of
row 31: the changed cells include cell `32 * 64` (bit 2 of sprite row 0, continued
past column 63 into column 0 of row 32) and cell `32 * 64 + 62` (bit 0 of sprite
row 1, drawn in row 32 below the 32 visible rows), and every changed cell is in
row 31, 32 or 33. -/
theorem c7_changed_cells_witness :
    ex_corner.display_width = 64 ∧
    ex_corner.register_V 0 < 256 ∧ ex_corner.register_V 1 < 256 ∧
    c8_fetch_next_instruction ex_corner = some (0xD000 + 0x100 * 0 + 0x10 * 1 + 2) ∧
    draw_in_bounds ex_corner (ex_corner.register_V 0) (ex_corner.register_V 1) (List.range 2) ∧
    ∃ s', c8_run_cycle 0 ex_corner = some s' ∧
      s'.display (32 * 64) ≠ ex_corner.display (32 * 64) ∧
      s'.display (32 * 64 + 62) ≠ ex_corner.display (32 * 64 + 62) ∧
      ∀ i, s'.display i ≠ ex_corner.display i → 31 ≤ i / 64 ∧ i / 64 ≤ 33 := by
  have hf : c8_fetch_next_instruction ex_corner =
      some (0xD000 + 0x100 * 0 + 0x10 * 1 + 2) := by decide
  have hb : draw_in_bounds ex_corner (ex_corner.register_V 0) (ex_corner.register_V 1)
      (List.range 2) := by decide
  refine ⟨rfl, by decide, by decide, hf, hb, ?_⟩
  obtain ⟨s', hrun, hup, hlow⟩ :=
    c7_changed_cells 0 ex_corner 0 1 2 (by decide) (by decide) (by decide) rfl
      (by decide) (by decide) hf hb
  refine ⟨s', hrun, (hlow 0 2 (by decide) (by decide) (by decide)).2.1,
    (hlow 1 0 (by decide) (by decide) (by decide)).2.1, ?_⟩
  intro i hi
  obtain ⟨r, hr, b, hb8, _, _, _, hrow⟩ := hup i hi
  have h1 : ex_corner.register_V 1 = 31 := rfl
  have h0 : ex_corner.register_V 0 = 62 := rfl
  rw [h1, h0] at hrow
  omega

/-! ## BCD store -/

/-- C8: with `register_I ≤ 0xFFD` and `v = V[x]` a byte, `Fx33` writes
`memory[I] = v / 100`, `memory[I+1] = (v / 10) mod 10`, `memory[I+2] = v mod 10`;
each stored byte is a decimal digit and `100*memory[I] + 10*memory[I+1] +
memory[I+2] = v`; no other memory byte changes and no other field but
`program_counter` (which advances by 2) changes. -/
theorem c8_bcd_store (rnd : Nat) (s : Chip8) (x : Nat)
    (hx : x < 16) (hV : s.register_V x < 256) (hI : s.register_I ≤ 0xFFD)
    (hfetch : c8_fetch_next_instruction s = some (0xF033 + 0x100 * x)) :
    ∃ s', c8_run_cycle rnd s = some s' ∧
      s'.memory s.register_I = s.register_V x / 100 ∧
      s'.memory (s.register_I + 1) = (s.register_V x / 10) % 10 ∧
      s'.memory (s.register_I + 2) = s.register_V x % 10 ∧
      s'.memory s.register_I ≤ 9 ∧ s'.memory (s.register_I + 1) ≤ 9 ∧
      s'.memory (s.register_I + 2) ≤ 9 ∧
      100 * s'.memory s.register_I + 10 * s'.memory (s.register_I + 1) +
        s'.memory (s.register_I + 2) = s.register_V x ∧
      (∀ a, a ≠ s.register_I → a ≠ s.register_I + 1 → a ≠ s.register_I + 2 →
        s'.memory a = s.memory a) ∧
      s' = { s with memory := s'.memory, program_counter := s.program_counter + 2 } := by
  have hpc := fetch_pc_lt hfetch
  have hfam : (0xF033 + 0x100 * x) &&& 0xF000 = 0xF000 := by
    rw [and_F000]; omega
  have hsub : (0xF033 + 0x100 * x) &&& 0x00FF = 0x33 := by
    rw [and_FF]; omega
  have hX : C8_REG_V_IDX (0xF033 + 0x100 * x) = x := by
    rw [reg_idx]; omega
  have hmod : (s.program_counter + 2) % 65536 = s.program_counter + 2 := by omega
  have h0 : s.register_I < C8_MEMORY_SIZE := by unfold C8_MEMORY_SIZE; omega
  have h1 : s.register_I + 1 < C8_MEMORY_SIZE := by unfold C8_MEMORY_SIZE; omega
  have h2 : s.register_I + 2 < C8_MEMORY_SIZE := by unfold C8_MEMORY_SIZE; omega
  have e0 : s.register_V x / 100 % 256 = s.register_V x / 100 := by omega
  have e1 : s.register_V x / 10 % 10 % 256 = s.register_V x / 10 % 10 := by omega
  have e2 : s.register_V x % 10 % 256 = s.register_V x % 10 := by omega
  simp only [c8_run_cycle, hfetch, execute_instruction, exec_F000, hfam, hsub, hX]
  simp only [Nat.reduceEqDiff, if_false, if_true, h0, h1, h2, e0, e1, e2]
  refine ⟨_, rfl, ?_, ?_, ?_, ?_, ?_, ?_, ?_, ?_, ?_⟩
  · simp [pc_add, wr]
  · simp [pc_add, wr]
  · simp [pc_add, wr]
  · simp [pc_add, wr]; omega
  · simp [pc_add, wr]; omega
  · simp [pc_add, wr]; omega
  · simp [pc_add, wr]; omega
  · intro a ha0 ha1 ha2
    simp [pc_add, wr, ha0, ha1, ha2]
  · simp [pc_add, hmod]

/-- C8 at `V3 = 234`, `I = 0x300`: the bytes stored are 2, 3, 4. -/
theorem c8_bcd_store_witness :
    ex_bcd.register_V 3 < 256 ∧ ex_bcd.register_I ≤ 0xFFD ∧
    c8_fetch_next_instruction ex_bcd = some (0xF033 + 0x100 * 3) ∧
    ∃ s', c8_run_cycle 0 ex_bcd = some s' ∧
      s'.memory 0x300 = 2 ∧ s'.memory 0x301 = 3 ∧ s'.memory 0x302 = 4 := by
  have hf : c8_fetch_next_instruction ex_bcd = some (0xF033 + 0x100 * 3) := by decide
  refine ⟨by decide, by decide, hf, ?_⟩
  obtain ⟨s', hr, h0, h1, h2, _⟩ :=
    c8_bcd_store 0 ex_bcd 3 (by decide) (by decide) (by decide) hf
  exact ⟨s', hr, h0, h1, h2⟩

/-! ## Register dump and load -/

theorem dump_loop (s : Chip8) : ∀ m, s.register_I + m ≤ 4096 →
    ∃ s', (List.range m).foldlM dump_reg s = some s' ∧
      s' = { s with memory := s'.memory } ∧
      ∀ a, s'.memory a =
        if s.register_I ≤ a ∧ a < s.register_I + m then s.register_V (a - s.register_I) % 256
        else s.memory a := by
  intro m
  induction m with
  | zero =>
    intro _
    refine ⟨s, rfl, rfl, ?_⟩
    intro a
    have : ¬ (s.register_I ≤ a ∧ a < s.register_I + 0) := by omega
    rw [if_neg this]
  | succ m ih =>
    intro h
    obtain ⟨s', hs', hfr, hmem⟩ := ih (by omega)
    have hI : s'.register_I = s.register_I := by rw [hfr]
    have hV : s'.register_V = s.register_V := by rw [hfr]
    let m' := wr s'.memory (s.register_I + m) (s.register_V m % 256)
    have hstep : dump_reg s' m = some { s' with memory := m' } := by
      unfold dump_reg
      rw [hI, hV, if_pos (by unfold C8_MEMORY_SIZE; omega)]
    refine ⟨{ s' with memory := m' }, ?_, ?_, ?_⟩
    · rw [List.range_succ, List.foldlM_append, hs']
      simp only [Option.bind_eq_bind, Option.some_bind, List.foldlM_cons, List.foldlM_nil, hstep]
      rfl
    · rw [hfr]
    · intro a
      show wr s'.memory (s.register_I + m) (s.register_V m % 256) a = _
      unfold wr
      by_cases ha : a = s.register_I + m
      · subst ha
        have : s.register_I ≤ s.register_I + m ∧ s.register_I + m < s.register_I + (m + 1) := by
          omega
        rw [if_pos rfl, if_pos this]
        congr 2
        omega
      · rw [if_neg ha, hmem a]
        by_cases hr : s.register_I ≤ a ∧ a < s.register_I + m
        · rw [if_pos hr, if_pos (by omega)]
        · rw [if_neg hr, if_neg (by omega)]

theorem load_loop (t : Chip8) : ∀ m, t.register_I + m ≤ 4096 →
    ∃ t', (List.range m).foldlM load_reg t = some t' ∧
      t' = { t with register_V := t'.register_V } ∧
      ∀ k, t'.register_V k =
        if k < m then t.memory (t.register_I + k) % 256 else t.register_V k := by
  intro m
  induction m with
  | zero =>
    intro _
    refine ⟨t, rfl, rfl, ?_⟩
    intro k
    rw [if_neg (by omega)]
  | succ m ih =>
    intro h
    obtain ⟨t', ht', hfr, hreg⟩ := ih (by omega)
    have hI : t'.register_I = t.register_I := by rw [hfr]
    have hM : t'.memory = t.memory := by rw [hfr]
    have hstep : load_reg t' m = some (set_V t' m (t.memory (t.register_I + m) % 256)) := by
      unfold load_reg
      rw [hI, hM, if_pos (by unfold C8_MEMORY_SIZE; omega)]
    refine ⟨set_V t' m (t.memory (t.register_I + m) % 256), ?_, ?_, ?_⟩
    · rw [List.range_succ, List.foldlM_append, ht']
      simp only [Option.bind_eq_bind, Option.some_bind, List.foldlM_cons, List.foldlM_nil, hstep]
      rfl
    · rw [hfr]
      rfl
    · intro k
      show wr t'.register_V m (t.memory (t.register_I + m) % 256) k = _
      unfold wr
      by_cases hk : k = m
      · subst hk
        rw [if_pos rfl, if_pos (by omega)]
      · rw [if_neg hk, hreg k]
        by_cases hr : k < m
        · rw [if_pos hr, if_pos (by omega)]
        · rw [if_neg hr, if_neg (by omega)]

/-- C9: for `x ≤ 15` and `register_I + x ≤ 0xFFF`, if `Fx55` is executed in `s` and
`Fx65` is later executed in any state `t` with the same `register_I` and the same
bytes `memory[I..I+x]` as right after the dump, then afterwards `V[k] = s.V[k]` for
all `k ≤ x`, the registers above `x` are those of `t`, and `register_I` is changed
by neither instruction. -/
theorem c9_dump_load_roundtrip (rnd1 rnd2 : Nat) (s : Chip8) (x : Nat)
    (hx : x < 16) (hwt : WellTyped s) (hI : s.register_I + x ≤ 0xFFF)
    (hfetch : c8_fetch_next_instruction s = some (0xF055 + 0x100 * x)) :
    ∃ s1, c8_run_cycle rnd1 s = some s1 ∧ s1.register_I = s.register_I ∧
      ∀ t : Chip8, c8_fetch_next_instruction t = some (0xF065 + 0x100 * x) →
        t.register_I = s1.register_I →
        (∀ k, k ≤ x → t.memory (t.register_I + k) = s1.memory (s1.register_I + k)) →
        ∃ t1, c8_run_cycle rnd2 t = some t1 ∧
          (∀ k, k ≤ x → t1.register_V k = s.register_V k) ∧
          (∀ k, x < k → t1.register_V k = t.register_V k) ∧
          t1.register_I = t.register_I := by
  have hfam : (0xF055 + 0x100 * x) &&& 0xF000 = 0xF000 := by
    rw [and_F000]; omega
  have hsub : (0xF055 + 0x100 * x) &&& 0x00FF = 0x55 := by
    rw [and_FF]; omega
  have hX : C8_REG_V_IDX (0xF055 + 0x100 * x) = x := by
    rw [reg_idx]; omega
  have hfam2 : (0xF065 + 0x100 * x) &&& 0xF000 = 0xF000 := by
    rw [and_F000]; omega
  have hsub2 : (0xF065 + 0x100 * x) &&& 0x00FF = 0x65 := by
    rw [and_FF]; omega
  have hX2 : C8_REG_V_IDX (0xF065 + 0x100 * x) = x := by
    rw [reg_idx]; omega
  have hnum : (x + 1) % 256 = x + 1 := by omega
  obtain ⟨s', hs', hfr, hmem⟩ := dump_loop s (x + 1) (by omega)
  have hI1 : s'.register_I = s.register_I := by rw [hfr]
  refine ⟨pc_add s' 2, ?_, hI1, ?_⟩
  · simp only [c8_run_cycle, hfetch, execute_instruction, exec_F000, hfam, hsub, hX, hnum]
    simp only [Nat.reduceEqDiff, if_false, if_true, hs', Option.map_some']
  · intro t hft hIt hbytes
    have hIt2 : t.register_I = s.register_I := hIt.trans hI1
    obtain ⟨t', ht', hfr2, hreg⟩ := load_loop t (x + 1) (by omega)
    refine ⟨pc_add t' 2, ?_, ?_, ?_, ?_⟩
    · simp only [c8_run_cycle, hft, execute_instruction, exec_F000, hfam2, hsub2, hX2, hnum]
      simp only [Nat.reduceEqDiff, if_false, if_true, ht', Option.map_some']
    · intro k hk
      show t'.register_V k = s.register_V k
      rw [hreg k, if_pos (by omega), hbytes k hk]
      show s'.memory (s'.register_I + k) % 256 = s.register_V k
      rw [hI1, hmem, if_pos (by omega)]
      have hk16 : k < 16 := by omega
      have hb := hwt.register_V_u8 k hk16
      have e : s.register_I + k - s.register_I = k := by omega
      rw [e]
      omega
    · intro k hk
      show t'.register_V k = t.register_V k
      rw [hreg k, if_neg (by omega)]
    · show t'.register_I = t.register_I
      rw [hfr2]

/-- C9 with `x = 3`: `V0..V3 = 0x11, 0x22, 0x33, 0x44` dumped at `0x300` and loaded
into a machine whose registers are all zero. -/
theorem c9_dump_load_roundtrip_witness :
    WellTyped ex_dump ∧ ex_dump.register_I + 3 ≤ 0xFFF ∧
    c8_fetch_next_instruction ex_dump = some (0xF055 + 0x100 * 3) ∧
    ∃ t1, c8_run_cycle 0 ex_load = some t1 ∧
      t1.register_V 0 = 0x11 ∧ t1.register_V 1 = 0x22 ∧
      t1.register_V 2 = 0x33 ∧ t1.register_V 3 = 0x44 ∧ t1.register_V 4 = 0 := by
  have hwt : WellTyped ex_dump :=
    WellTyped.poke_instr (s := { set_V (set_V (set_V (set_V c8_init 0 0x11) 1 0x22) 2 0x33) 3 0x44
        with register_I := 0x300 })
      { ((((wellTyped_init.set_V 0 0x11 (by decide)).set_V 1 0x22 (by decide)).set_V 2 0x33
          (by decide)).set_V 3 0x44 (by decide)) with register_I_u16 := by decide }
      0xF355 (by decide)
  have hf : c8_fetch_next_instruction ex_dump = some (0xF055 + 0x100 * 3) := by decide
  refine ⟨hwt, by decide, hf, ?_⟩
  obtain ⟨s1, hr1, hI1, hload⟩ :=
    c9_dump_load_roundtrip 0 0 ex_dump 3 (by decide) hwt (by decide) hf
  have hm : (c8_run_cycle 0 ex_dump).map (fun c => (c.memory 0x300, c.memory 0x301,
      c.memory 0x302, c.memory 0x303)) = some (0x11, 0x22, 0x33, 0x44) := by decide
  rw [hr1] at hm
  simp only [Option.map_some', Option.some.injEq, Prod.mk.injEq] at hm
  obtain ⟨m0, m1, m2, m3⟩ := hm
  have hI1' : s1.register_I = 0x300 := hI1
  obtain ⟨t1, ht1, hk, hup, _⟩ := hload ex_load (by decide) (by rw [hI1']; rfl) (by
    intro k hk
    rw [hI1']
    have e : ex_load.register_I = 0x300 := rfl
    rw [e]
    interval_cases k
    · rw [m0]; rfl
    · rw [m1]; rfl
    · rw [m2]; rfl
    · rw [m3]; rfl)
  exact ⟨t1, ht1, hk 0 (by decide), hk 1 (by decide), hk 2 (by decide), hk 3 (by decide),
    hup 4 (by decide)⟩

/-! ## Timers -/

/-- C10: `c8_update_timers` replaces each of the two timers (bytes) by `t - 1` if
`t > 0` and leaves it 0 if `t = 0`, and changes no other field; after `n` ticks a
timer started at `t` holds `max (t - n) 0` (truncated subtraction), which never
exceeds `t`. -/
theorem c10_update_timers (s : Chip8)
    (hd : s.register_delay_timer < 256) (hs : s.register_sound_timer < 256) :
    c8_update_timers s = { s with
        register_delay_timer := if s.register_delay_timer > 0
          then s.register_delay_timer - 1 else 0,
        register_sound_timer := if s.register_sound_timer > 0
          then s.register_sound_timer - 1 else 0 } ∧
    ∀ n, (c8_update_timers^[n] s).register_delay_timer = s.register_delay_timer - n ∧
      (c8_update_timers^[n] s).register_sound_timer = s.register_sound_timer - n ∧
      ((c8_update_timers^[n] s).register_delay_timer : Int) =
        max ((s.register_delay_timer : Int) - n) 0 ∧
      ((c8_update_timers^[n] s).register_sound_timer : Int) =
        max ((s.register_sound_timer : Int) - n) 0 ∧
      (c8_update_timers^[n] s).register_delay_timer ≤ s.register_delay_timer ∧
      (c8_update_timers^[n] s).register_sound_timer ≤ s.register_sound_timer := by
  have step : ∀ c : Chip8, c.register_delay_timer < 256 → c.register_sound_timer < 256 →
      c8_update_timers c = { c with
        register_delay_timer := c.register_delay_timer - 1,
        register_sound_timer := c.register_sound_timer - 1 } := by
    intro c hcd hcs
    unfold c8_update_timers
    by_cases h1 : c.register_delay_timer = 0 <;> by_cases h2 : c.register_sound_timer = 0
    · simp only [h1, h2, ne_eq, not_true_eq_false, if_false]
      cases c
      simp_all
    · have e : (c.register_sound_timer - 1) % 256 = c.register_sound_timer - 1 := by omega
      simp [h1, h2, e]
    · have e : (c.register_delay_timer - 1) % 256 = c.register_delay_timer - 1 := by omega
      simp [h1, h2, e]
    · have e : (c.register_sound_timer - 1) % 256 = c.register_sound_timer - 1 := by omega
      have e2 : (c.register_delay_timer - 1) % 256 = c.register_delay_timer - 1 := by omega
      simp [h1, h2, e, e2]
  have iter : ∀ n, (c8_update_timers^[n] s).register_delay_timer = s.register_delay_timer - n ∧
      (c8_update_timers^[n] s).register_sound_timer = s.register_sound_timer - n := by
    intro n
    induction n with
    | zero => exact ⟨rfl, rfl⟩
    | succ n ih =>
      rw [Function.iterate_succ_apply', step _ (by omega) (by omega)]
      constructor
      · show (c8_update_timers^[n] s).register_delay_timer - 1 = _
        omega
      · show (c8_update_timers^[n] s).register_sound_timer - 1 = _
        omega
  constructor
  · rw [step s hd hs]
    by_cases h1 : s.register_delay_timer > 0 <;> by_cases h2 : s.register_sound_timer > 0
    · simp [h1, h2]
    · have : s.register_sound_timer = 0 := by omega
      simp [h1, this]
    · have : s.register_delay_timer = 0 := by omega
      simp [h2, this]
    · have : s.register_sound_timer = 0 := by omega
      have : s.register_delay_timer = 0 := by omega
      simp [*]
  · intro n
    obtain ⟨h1, h2⟩ := iter n
    refine ⟨h1, h2, ?_, ?_, ?_, ?_⟩ <;> omega

/-- C10 from `delay_timer = 1`: two ticks give 0 and then 0, not 255. -/
theorem c10_update_timers_witness :
    ex_timers.register_delay_timer < 256 ∧ ex_timers.register_sound_timer < 256 ∧
    (c8_update_timers^[1] ex_timers).register_delay_timer = 0 ∧
    (c8_update_timers^[2] ex_timers).register_delay_timer = 0 ∧
    (c8_update_timers^[2] ex_timers).register_sound_timer = 1 :=
  ⟨by decide, by decide,
    ((c10_update_timers ex_timers (by decide) (by decide)).2 1).1,
    ((c10_update_timers ex_timers (by decide) (by decide)).2 2).1,
    ((c10_update_timers ex_timers (by decide) (by decide)).2 2).2.1⟩

/-! ## Call and return -/

/-- C11: with `stack_pointer < 16` and `program_counter = p`, `2nnn` stores `p` in
`stack[stack_pointer]`, increments `stack_pointer` and sets `program_counter` to
`nnn`, changing nothing else; if `00EE` is the instruction at `nnn` and is executed
next, `stack_pointer` is back at its value before the call, `program_counter` is
`p + 2`, and registers, memory, display and all other fields are those before the
call. -/
theorem c11_call_return (rnd1 rnd2 : Nat) (s : Chip8) (nnn : Nat)
    (hnnn : nnn < 0x1000) (hsp : s.stack_pointer < 16)
    (hfetch : c8_fetch_next_instruction s = some (0x2000 + nnn))
    (hret : c8_fetch_next_instruction { s with program_counter := nnn } = some 0x00EE) :
    ∃ s1 s2, c8_run_cycle rnd1 s = some s1 ∧
      s1 = { s with stack := wr s.stack s.stack_pointer s.program_counter,
                    stack_pointer := s.stack_pointer + 1,
                    program_counter := nnn } ∧
      s1.stack s.stack_pointer = s.program_counter ∧
      c8_run_cycle rnd2 s1 = some s2 ∧
      s2.stack_pointer = s.stack_pointer ∧
      s2.program_counter = s.program_counter + 2 ∧
      s2 = { s with stack := wr s.stack s.stack_pointer s.program_counter,
                    program_counter := s.program_counter + 2 } := by
  have hpc := fetch_pc_lt hfetch
  have hfam : (0x2000 + nnn) &&& 0xF000 = 0x2000 := by
    rw [and_F000]; omega
  have hlow : (0x2000 + nnn) &&& 0x0FFF = nnn := by
    rw [and_FFF]; omega
  have hp : s.program_counter % 65536 = s.program_counter := by omega
  have hs1 : (s.stack_pointer + 1) % 256 = s.stack_pointer + 1 := by omega
  have hs2 : (s.stack_pointer + 1 + 255) % 256 = s.stack_pointer := by omega
  have hmod : (s.program_counter + 2) % 65536 = s.program_counter + 2 := by omega
  have hlt : s.stack_pointer < C8_STACK_SIZE := hsp
  have h1 : c8_run_cycle rnd1 s = some { s with
      stack := wr s.stack s.stack_pointer s.program_counter,
      stack_pointer := s.stack_pointer + 1,
      program_counter := nnn } := by
    simp only [c8_run_cycle, hfetch, execute_instruction, hfam, hlow]
    simp [hlt, hp, hs1]
  have hfet2 : c8_fetch_next_instruction { s with
      stack := wr s.stack s.stack_pointer s.program_counter,
      stack_pointer := s.stack_pointer + 1,
      program_counter := nnn } = some 0x00EE := hret
  refine ⟨_, _, h1, rfl, by simp [wr], ?_, ?_, ?_, rfl⟩
  · have hfam2 : (0x00EE : Nat) &&& 0xF000 = 0 := by decide
    simp only [c8_run_cycle, hfet2, execute_instruction, hfam2]
    simp [hs2, hlt, pc_add, wr, hmod]
  · rfl
  · rfl

/-- C11 on a freshly initialised machine: call `0x2300` from `0x200`, return to `0x202`. -/
theorem c11_call_return_witness :
    (0x300 : Nat) < 0x1000 ∧ ex_call.stack_pointer < 16 ∧
    c8_fetch_next_instruction ex_call = some (0x2000 + 0x300) ∧
    c8_fetch_next_instruction { ex_call with program_counter := 0x300 } = some 0x00EE ∧
    ∃ s1 s2, c8_run_cycle 0 ex_call = some s1 ∧ s1.stack 0 = 0x200 ∧
      s1.stack_pointer = 1 ∧ s1.program_counter = 0x300 ∧
      c8_run_cycle 0 s1 = some s2 ∧ s2.stack_pointer = 0 ∧ s2.program_counter = 0x202 := by
  have hf : c8_fetch_next_instruction ex_call = some (0x2000 + 0x300) := by decide
  have hr : c8_fetch_next_instruction { ex_call with program_counter := 0x300 } =
      some 0x00EE := by decide
  refine ⟨by decide, by decide, hf, hr, ?_⟩
  obtain ⟨s1, s2, h1, e1, h2, h3, h4, h5, _⟩ :=
    c11_call_return 0 0 ex_call 0x300 (by decide) (by decide) hf hr
  refine ⟨s1, s2, h1, h2, ?_, ?_, h3, h4, h5⟩
  · rw [e1]; rfl
  · rw [e1]

/-! ## Skip instructions -/

/-- C12: `3xkk` advances `program_counter` by 4 if `V[x] = kk` and by 2 otherwise;
`4xkk` by 4 if `V[x] ≠ kk` and by 2 otherwise; `5xy0` by 4 if `V[x] = V[y]` and by
2 otherwise; `9xy0` by 4 if `V[x] ≠ V[y]` and by 2 otherwise; no other field
changes. -/
theorem c12_skips (rnd : Nat) (s : Chip8) (x y kk : Nat)
    (hx : x < 16) (hy : y < 16) (hkk : kk < 256) :
    (c8_fetch_next_instruction s = some (0x3000 + 0x100 * x + kk) →
      c8_run_cycle rnd s = some { s with program_counter :=
        s.program_counter + (if s.register_V x = kk then 4 else 2) }) ∧
    (c8_fetch_next_instruction s = some (0x4000 + 0x100 * x + kk) →
      c8_run_cycle rnd s = some { s with program_counter :=
        s.program_counter + (if s.register_V x ≠ kk then 4 else 2) }) ∧
    (c8_fetch_next_instruction s = some (0x5000 + 0x100 * x + 0x10 * y) →
      c8_run_cycle rnd s = some { s with program_counter :=
        s.program_counter + (if s.register_V x = s.register_V y then 4 else 2) }) ∧
    (c8_fetch_next_instruction s = some (0x9000 + 0x100 * x + 0x10 * y) →
      c8_run_cycle rnd s = some { s with program_counter :=
        s.program_counter + (if s.register_V x ≠ s.register_V y then 4 else 2) }) := by
  refine ⟨?_, ?_, ?_, ?_⟩
  · intro hfetch
    have hpc := fetch_pc_lt hfetch
    have hfam : (0x3000 + 0x100 * x + kk) &&& 0xF000 = 0x3000 := by
      rw [and_F000]; omega
    have hX : C8_REG_V_IDX (0x3000 + 0x100 * x + kk) = x := by
      rw [reg_idx]; omega
    have hK : C8_INSTR_VALUE (0x3000 + 0x100 * x + kk) = kk := by
      rw [instr_value]; omega
    have h2 : (s.program_counter + 2) % 65536 = s.program_counter + 2 := by omega
    have h4 : (s.program_counter + 4) % 65536 = s.program_counter + 4 := by omega
    simp only [c8_run_cycle, hfetch, execute_instruction, hfam, hX, hK]
    by_cases h : s.register_V x = kk <;> simp [h, pc_add, h2, h4]
  · intro hfetch
    have hpc := fetch_pc_lt hfetch
    have hfam : (0x4000 + 0x100 * x + kk) &&& 0xF000 = 0x4000 := by
      rw [and_F000]; omega
    have hX : C8_REG_V_IDX (0x4000 + 0x100 * x + kk) = x := by
      rw [reg_idx]; omega
    have hK : C8_INSTR_VALUE (0x4000 + 0x100 * x + kk) = kk := by
      rw [instr_value]; omega
    have h2 : (s.program_counter + 2) % 65536 = s.program_counter + 2 := by omega
    have h4 : (s.program_counter + 4) % 65536 = s.program_counter + 4 := by omega
    simp only [c8_run_cycle, hfetch, execute_instruction, hfam, hX, hK]
    by_cases h : s.register_V x = kk <;> simp [h, pc_add, h2, h4]
  · intro hfetch
    have hpc := fetch_pc_lt hfetch
    have hfam : (0x5000 + 0x100 * x + 0x10 * y) &&& 0xF000 = 0x5000 := by
      rw [and_F000]; omega
    have hX : C8_REG_V_IDX (0x5000 + 0x100 * x + 0x10 * y) = x := by
      rw [reg_idx]; omega
    have hY : C8_REG_V2_IDX (0x5000 + 0x100 * x + 0x10 * y) = y := by
      rw [reg2_idx]; omega
    have h2 : (s.program_counter + 2) % 65536 = s.program_counter + 2 := by omega
    have h4 : (s.program_counter + 4) % 65536 = s.program_counter + 4 := by omega
    simp only [c8_run_cycle, hfetch, execute_instruction, hfam, hX, hY]
    by_cases h : s.register_V x = s.register_V y <;> simp [h, pc_add, h2, h4]
  · intro hfetch
    have hpc := fetch_pc_lt hfetch
    have hfam : (0x9000 + 0x100 * x + 0x10 * y) &&& 0xF000 = 0x9000 := by
      rw [and_F000]; omega
    have hX : C8_REG_V_IDX (0x9000 + 0x100 * x + 0x10 * y) = x := by
      rw [reg_idx]; omega
    have hY : C8_REG_V2_IDX (0x9000 + 0x100 * x + 0x10 * y) = y := by
      rw [reg2_idx]; omega
    have h2 : (s.program_counter + 2) % 65536 = s.program_counter + 2 := by omega
    have h4 : (s.program_counter + 4) % 65536 = s.program_counter + 4 := by omega
    simp only [c8_run_cycle, hfetch, execute_instruction, exec_9000, hfam, hX, hY]
    by_cases h : s.register_V x = s.register_V y <;> simp [h, pc_add, h2, h4]

/-- C12 at `3110` with `V1 = 0x10`: `program_counter` goes from `0x200` to `0x204`. -/
theorem c12_skips_witness :
    (1 : Nat) < 16 ∧ (0 : Nat) < 16 ∧ (0x10 : Nat) < 256 ∧
    c8_fetch_next_instruction ex_skip = some (0x3000 + 0x100 * 1 + 0x10) ∧
    (c8_run_cycle 0 ex_skip).map (fun c => c.program_counter) = some 0x204 := by
  have hf : c8_fetch_next_instruction ex_skip = some (0x3000 + 0x100 * 1 + 0x10) := by decide
  refine ⟨by decide, by decide, by decide, hf, ?_⟩
  rw [(c12_skips 0 ex_skip 1 0 0x10 (by decide) (by decide) (by decide)).1 hf]
  rfl

/-! ## Random numbers -/

/-- Closed form of the state after `Cxkk` when `rand()` returns `rnd`. -/
theorem run_rand (rnd : Nat) (s : Chip8) (x kk : Nat) (hx : x < 16) (hkk : kk < 256)
    (hfetch : c8_fetch_next_instruction s = some (0xC000 + 0x100 * x + kk)) :
    c8_run_cycle rnd s = some { s with
      register_V := wr s.register_V x ((rnd % 255) &&& kk),
      program_counter := s.program_counter + 2 } := by
  have hpc := fetch_pc_lt hfetch
  have hfam : (0xC000 + 0x100 * x + kk) &&& 0xF000 = 0xC000 := by
    rw [and_F000]; omega
  have hX : C8_REG_V_IDX (0xC000 + 0x100 * x + kk) = x := by
    rw [reg_idx]; omega
  have hK : C8_INSTR_VALUE (0xC000 + 0x100 * x + kk) = kk := by
    rw [instr_value]; omega
  have hmod : (s.program_counter + 2) % 65536 = s.program_counter + 2 := by omega
  have hle : (rnd % 255) &&& kk ≤ rnd % 255 := Nat.and_le_left
  have hand : ((rnd % 255) &&& kk) % 256 = (rnd % 255) &&& kk := by omega
  simp only [c8_run_cycle, hfetch, execute_instruction, hfam, hX, hK, UINT8_MAX, hand]
  simp [pc_add, set_V, hmod]

/-- C13 (evaluation at the failing input): whatever `rand()` returns, `C0FF` on a
freshly initialised machine leaves `rand() mod 255` in `V0`, which is never `0xFF`. -/
theorem c13_random_never_255 (rnd : Nat) :
    c8_fetch_next_instruction ex_rand = some 0xC0FF ∧
    (c8_run_cycle rnd ex_rand).map (fun c => c.register_V 0) = some (rnd % 255) ∧
    (c8_run_cycle rnd ex_rand).map (fun c => c.register_V 0) ≠ some (0xFF &&& 0xFF) := by
  have hf : c8_fetch_next_instruction ex_rand = some (0xC000 + 0x100 * 0 + 0xFF) := by decide
  have hrun := run_rand rnd ex_rand 0 0xFF (by decide) (by decide) hf
  have hand : (rnd % 255) &&& 0xFF = rnd % 255 := by
    rw [and_FF]; omega
  rw [hand] at hrun
  refine ⟨hf, ?_, ?_⟩
  · rw [hrun]; simp [wr]
  · rw [hrun]
    simp only [Option.map_some', wr, if_true, ne_eq, Option.some.injEq]
    have : (0xFF : Nat) &&& 0xFF = 255 := by decide
    rw [this]
    omega

/-! ## Exit status of `main` -/

/-- C14 (evaluation at the failing inputs): with valid arguments, a ROM file that
cannot be read, or one that is one byte larger than program memory, makes `c8_load`
return `false` and `main` return exit status 0, whatever `io_init` would return;
a rejected command line and a failed `io_init` do give exit status 1. -/
theorem c14_load_failure_exits_zero (io_init_ret : Int) (quits : Bool) :
    (c8_load c8_init none).1 = false ∧
    main true none io_init_ret quits = some 0 ∧
    (c8_load c8_init (some (List.replicate (C8_PROGRAM_MEMORY_SIZE + 1) 0))).1 = false ∧
    main true (some (List.replicate (C8_PROGRAM_MEMORY_SIZE + 1) 0)) io_init_ret quits = some 0 ∧
    main false none io_init_ret quits = some 1 ∧
    main true (some [0x00, 0xE0]) 0 quits = some 1 ∧
    main true (some [0x00, 0xE0]) 1 true = some 0 := by
  refine ⟨rfl, rfl, ?_, ?_, rfl, ?_, ?_⟩
  · simp [c8_load]
  · simp [main, c8_load]
  · simp [main, c8_load, C8_PROGRAM_MEMORY_SIZE, C8_MEMORY_SIZE, C8_PROGRAM_MEMORY_START]
  · simp [main, c8_load, C8_PROGRAM_MEMORY_SIZE, C8_MEMORY_SIZE, C8_PROGRAM_MEMORY_START]

/-! ## Fields left alone by the loops -/

theorem draw_loop_frame (x y : Nat) (rows : List Nat) (c0 c : Chip8)
    (h : rows.foldlM (draw_byte x y) c0 = some c) :
    c = { c0 with display := c.display, register_V := c.register_V } := by
  rw [draw_bytes_eq] at h
  by_cases hb : draw_in_bounds c0 x y rows
  · rw [if_pos hb] at h
    obtain ⟨d, v, hf⟩ := foldl_toggle_frame (sprite_cells c0 x y rows) c0
    rw [hf] at h
    cases h
    rfl
  · rw [if_neg hb] at h
    cases h

theorem dump_loop_frame : ∀ (ks : List Nat) (s s' : Chip8),
    ks.foldlM dump_reg s = some s' → s' = { s with memory := s'.memory } := by
  intro ks
  induction ks with
  | nil =>
    intro s s' h
    simp only [List.foldlM_nil, pure, Option.some.injEq] at h
    subst h
    rfl
  | cons k ks ih =>
    intro s s' h
    rw [List.foldlM_cons] at h
    unfold dump_reg at h
    by_cases hk : s.register_I + k < C8_MEMORY_SIZE
    · simp only [hk, if_true, Option.bind_eq_bind, Option.some_bind] at h
      have := ih _ _ h
      rw [this]
    · simp only [hk, if_false, Option.bind_eq_bind, Option.none_bind] at h
      cases h

theorem load_loop_frame : ∀ (ks : List Nat) (s s' : Chip8),
    ks.foldlM load_reg s = some s' → s' = { s with register_V := s'.register_V } := by
  intro ks
  induction ks with
  | nil =>
    intro s s' h
    simp only [List.foldlM_nil, pure, Option.some.injEq] at h
    subst h
    rfl
  | cons k ks ih =>
    intro s s' h
    rw [List.foldlM_cons] at h
    unfold load_reg at h
    by_cases hk : s.register_I + k < C8_MEMORY_SIZE
    · simp only [hk, if_true, Option.bind_eq_bind, Option.some_bind] at h
      have := ih _ _ h
      rw [this]
      rfl
    · simp only [hk, if_false, Option.bind_eq_bind, Option.none_bind] at h
      cases h

/-! ## The stack pointer -/

theorem post_ite (R : Chip8 → Chip8 → Prop) (s : Chip8) (c : Prop) [Decidable c]
    (a b : Option Chip8) (h1 : c → post R s a) (h2 : ¬ c → post R s b) :
    post R s (if c then a else b) := by
  by_cases h : c
  · rw [if_pos h]; exact h1 h
  · rw [if_neg h]; exact h2 h

theorem post_none (R : Chip8 → Chip8 → Prop) (s : Chip8) : post R s none := by
  intro s' h
  cases h

theorem exec_stack_pointer (rnd : Nat) (s : Chip8) (instr : Nat)
    (hsp : s.stack_pointer ≤ 16) :
    post sp_step s (execute_instruction rnd s instr) := by
  unfold execute_instruction exec_F000 exec_9000 exec_1000 exec_unknown
  dsimp only
  repeat' (refine post_ite _ _ _ _ _ (fun _ => ?_) (fun _ => ?_))
  all_goals first
    | exact post_none _ _
    | (intro s' h; cases h; left; rfl)
    | (intro s' h; cases h; left; simp only [pc_add, set_V]; split_ifs <;> rfl)
    | (intro s' h; cases h
       simp only [sp_step, pc_add, C8_STACK_SIZE] at *
       omega)
    | (intro s' h
       obtain ⟨c, hc, rfl⟩ := Option.map_eq_some'.1 h
       have hf := draw_loop_frame _ _ _ _ _ hc
       left; rw [hf]; rfl)
    | (intro s' h
       obtain ⟨c, hc, rfl⟩ := Option.map_eq_some'.1 h
       have hf := dump_loop_frame _ _ _ hc
       left; rw [hf]; rfl)
    | (intro s' h
       obtain ⟨c, hc, rfl⟩ := Option.map_eq_some'.1 h
       have hf := load_loop_frame _ _ _ hc
       left; rw [hf]; rfl)

/-- Effect of one instruction on `stack_pointer`, opcode by opcode. -/
theorem exec_sp_exact (rnd : Nat) (s : Chip8) (instr : Nat)
    (hsp : s.stack_pointer ≤ 16) :
    post (sp_exact instr) s (execute_instruction rnd s instr) := by
  have hEE : instr ≠ 238 ∨ instr &&& 61440 = 0 := by
    by_cases h : instr = 238
    · right; subst h; rfl
    · left; exact h
  unfold execute_instruction exec_F000 exec_9000 exec_1000 exec_unknown
  dsimp only
  repeat' (refine post_ite _ _ _ _ _ (fun _ => ?_) (fun _ => ?_))
  all_goals first
    | exact post_none _ _
    | (intro s' h; cases h
       refine ⟨fun h1 => ?_, fun h2 => ?_, fun h1 h2 => ?_⟩
       all_goals first
         | rfl
         | (exfalso; omega)
         | (simp only [pc_add, set_V, C8_STACK_SIZE] at *; omega)
         | (simp only [pc_add, set_V]; split_ifs <;> rfl))
    | (intro s' h
       obtain ⟨c, hc, rfl⟩ := Option.map_eq_some'.1 h
       have hf := draw_loop_frame _ _ _ _ _ hc
       refine ⟨fun h1 => ?_, fun h2 => ?_, fun h1 h2 => ?_⟩
       all_goals first
         | (exfalso; omega)
         | (rw [hf]; rfl))
    | (intro s' h
       obtain ⟨c, hc, rfl⟩ := Option.map_eq_some'.1 h
       have hf := dump_loop_frame _ _ _ hc
       refine ⟨fun h1 => ?_, fun h2 => ?_, fun h1 h2 => ?_⟩
       all_goals first
         | (exfalso; omega)
         | (rw [hf]; rfl))
    | (intro s' h
       obtain ⟨c, hc, rfl⟩ := Option.map_eq_some'.1 h
       have hf := load_loop_frame _ _ _ hc
       refine ⟨fun h1 => ?_, fun h2 => ?_, fun h1 h2 => ?_⟩
       all_goals first
         | (exfalso; omega)
         | (rw [hf]; rfl))

/-- C15 (counterexample): a call `2300` at depth 16 indexes `stack[16]` and a return
`00EE` at depth 0 indexes `stack[255]`, both outside the 16-entry array, so that
neither cycle has a resulting state with `stack_pointer` in `[0,16]`. -/
theorem c15_stack_unguarded_counterexample :
    ex_call16.stack_pointer = 16 ∧
    c8_fetch_next_instruction ex_call16 = some 0x2300 ∧
    c8_run_cycle 0 ex_call16 = none ∧
    (¬ ∃ s', c8_run_cycle 0 ex_call16 = some s' ∧ s'.stack_pointer ≤ 16) ∧
    ex_ret0.stack_pointer = 0 ∧
    c8_fetch_next_instruction ex_ret0 = some 0x00EE ∧
    c8_run_cycle 0 ex_ret0 = none ∧
    (¬ ∃ s', c8_run_cycle 0 ex_ret0 = some s' ∧ s'.stack_pointer ≤ 16) := by
  have h1 : c8_run_cycle 0 ex_call16 = none := rfl
  have h2 : c8_run_cycle 0 ex_ret0 = none := rfl
  refine ⟨rfl, by decide, h1, ?_, rfl, by decide, h2, ?_⟩
  · rintro ⟨s', h, _⟩
    rw [h1] at h
    cases h
  · rintro ⟨s', h, _⟩
    rw [h2] at h
    cases h

/-- C15 (amended): from a state with `stack_pointer` in `[0,16]`, every cycle that
stays inside the arrays leaves `stack_pointer` in `[0,16]`; the value is tied to
the opcode: after a call `2nnn` (which then ran below depth 16) it is one more,
after a return `00EE` (which then ran above depth 0) it is one less, and after
every other opcode it is unchanged; a call `2nnn` below depth 16 and a return
`00EE` above depth 0 do have a resulting state, and change nothing but
`program_counter`, `stack` and `stack_pointer`. -/
theorem c15_stack_pointer_range (rnd : Nat) (s : Chip8) (hsp : s.stack_pointer ≤ 16) :
    (∀ s', c8_run_cycle rnd s = some s' → s'.stack_pointer ≤ 16 ∧ sp_step s s') ∧
    (∀ instr s', c8_fetch_next_instruction s = some instr → c8_run_cycle rnd s = some s' →
      (instr &&& 0xF000 = 0x2000 →
        s.stack_pointer < 16 ∧ s'.stack_pointer = s.stack_pointer + 1) ∧
      (instr = 0x00EE →
        1 ≤ s.stack_pointer ∧ s'.stack_pointer + 1 = s.stack_pointer) ∧
      (instr &&& 0xF000 ≠ 0x2000 → instr ≠ 0x00EE →
        s'.stack_pointer = s.stack_pointer)) ∧
    (∀ nnn, nnn < 0x1000 → c8_fetch_next_instruction s = some (0x2000 + nnn) →
      s.stack_pointer < 16 →
      ∃ s', c8_run_cycle rnd s = some s' ∧ s'.stack_pointer = s.stack_pointer + 1 ∧
        s' = { s with program_counter := s'.program_counter, stack := s'.stack,
                      stack_pointer := s'.stack_pointer }) ∧
    (c8_fetch_next_instruction s = some 0x00EE → 1 ≤ s.stack_pointer →
      ∃ s', c8_run_cycle rnd s = some s' ∧ s'.stack_pointer + 1 = s.stack_pointer ∧
        s' = { s with program_counter := s'.program_counter, stack := s'.stack,
                      stack_pointer := s'.stack_pointer }) := by
  refine ⟨?_, ?_, ?_, ?_⟩
  · intro s' hrun
    unfold c8_run_cycle at hrun
    cases hf : c8_fetch_next_instruction s with
    | none => rw [hf] at hrun; cases hrun
    | some instr =>
      rw [hf] at hrun
      have h := exec_stack_pointer rnd s instr hsp s' hrun
      refine ⟨?_, h⟩
      unfold sp_step at h
      omega
  · intro instr s' hf hrun
    simp only [c8_run_cycle, hf] at hrun
    exact exec_sp_exact rnd s instr hsp s' hrun
  · intro nnn hnnn hfetch hlt
    have hfam : (0x2000 + nnn) &&& 0xF000 = 0x2000 := by
      rw [and_F000]; omega
    have hs1 : (s.stack_pointer + 1) % 256 = s.stack_pointer + 1 := by omega
    have hlt2 : s.stack_pointer < C8_STACK_SIZE := hlt
    simp only [c8_run_cycle, hfetch, execute_instruction, hfam]
    simp [hlt2, hs1]
  · intro hfetch hge
    have hfam : (0x00EE : Nat) &&& 0xF000 = 0 := by decide
    have hs2 : (s.stack_pointer + 255) % 256 = s.stack_pointer - 1 := by omega
    have hlt2 : s.stack_pointer - 1 < C8_STACK_SIZE := by unfold C8_STACK_SIZE; omega
    simp only [c8_run_cycle, hfetch, execute_instruction, hfam]
    simp only [Nat.reduceEqDiff, if_false, if_true, hs2, hlt2]
    refine ⟨_, rfl, ?_, ?_⟩
    · simp [pc_add]; omega
    · simp [pc_add]

/-- C15 (amended) at the call `2300` on a freshly initialised machine: the cycle
has a result, and the opcode `0x2300` fixes its `stack_pointer` at 1. -/
theorem c15_stack_pointer_range_witness :
    ex_call.stack_pointer ≤ 16 ∧
    c8_fetch_next_instruction ex_call = some 0x2300 ∧
    ∃ s', c8_run_cycle 0 ex_call = some s' ∧ s'.stack_pointer = 1 ∧
      s'.stack_pointer = ex_call.stack_pointer + 1 := by
  have hf : c8_fetch_next_instruction ex_call = some 0x2300 := by decide
  refine ⟨by decide, hf, ?_⟩
  obtain ⟨s', h1, h2, _⟩ := (c15_stack_pointer_range 0 ex_call (by decide)).2.2.1 0x300
    (by decide) (by decide) (by decide)
  exact ⟨s', h1, h2,
    (((c15_stack_pointer_range 0 ex_call (by decide)).2.1 0x2300 s' hf h1).1 (by decide)).2⟩

/-! ## Writes to memory -/

/-- Memory is left unchanged by every instruction except those of families `0xE`
and `0xF` whose low byte is `0x33` or `0x55`. -/
theorem exec_memory_frame (rnd : Nat) (s : Chip8) (instr : Nat)
    (hno : ¬ ((instr &&& 0xF000 = 0xE000 ∨ instr &&& 0xF000 = 0xF000) ∧
      (instr &&& 0x00FF = 0x33 ∨ instr &&& 0x00FF = 0x55))) :
    post (fun s s' => s'.memory = s.memory) s (execute_instruction rnd s instr) := by
  unfold execute_instruction exec_F000 exec_9000 exec_1000 exec_unknown
  dsimp only
  repeat' (refine post_ite _ _ _ _ _ (fun _ => ?_) (fun _ => ?_))
  all_goals first
    | exact post_none _ _
    | (intro s' h; cases h; rfl)
    | (intro s' h; cases h; simp only [pc_add, set_V]; split_ifs <;> rfl)
    | (exfalso; apply hno; constructor <;> first
        | (left; assumption)
        | (right; assumption))
    | (intro s' h
       obtain ⟨c, hc, rfl⟩ := Option.map_eq_some'.1 h
       have hf := draw_loop_frame _ _ _ _ _ hc
       rw [hf]; rfl)
    | (intro s' h
       obtain ⟨c, hc, rfl⟩ := Option.map_eq_some'.1 h
       have hf := load_loop_frame _ _ _ hc
       rw [hf]; rfl)

/-- C16 (evaluation at the failing input): opcode `0xE055`, which is neither `Fx33`
nor `Fx55`, with `V0 = 0xAB` and `I = 0x300` changes `memory[0x300]` from 0 to
`0xAB`. -/
theorem c16_E055_writes_memory :
    c8_fetch_next_instruction ex_E055 = some 0xE055 ∧
    ex_E055.memory 0x300 = 0 ∧
    (c8_run_cycle 0 ex_E055).map (fun c => c.memory 0x300) = some 0xAB := by
  refine ⟨by decide, by decide, by decide⟩

/-! ## Reversed subtraction and shift left -/

/-- C17: for `x ≠ 0xF`, opcode `8xy7` sets `V[x]` to `(V[y] - V[x]) mod 256` and
`V[0xF]` to 1 if `V[y] > V[x]` strictly and to 0 otherwise; `8xy5` executed in any
state in which the values of the two operand registers are exchanged produces the
same `V[x]` and the same `V[0xF]`. -/
theorem c17_sub_reversed (rnd : Nat) (s : Chip8) (x y : Nat)
    (hx : x < 16) (hxF : x ≠ 0xF) (hy : y < 16)
    (hfetch : c8_fetch_next_instruction s = some (0x8007 + 0x100 * x + 0x10 * y)) :
    ∃ s', c8_run_cycle rnd s = some s' ∧
      (s'.register_V x : Int) = ((s.register_V y : Int) - (s.register_V x : Int)) % 256 ∧
      s'.register_V 0xF = (if s.register_V y > s.register_V x then 1 else 0) ∧
      s'.program_counter = s.program_counter + 2 ∧
      ∀ (rnd2 : Nat) (t : Chip8),
        c8_fetch_next_instruction t = some (0x8005 + 0x100 * x + 0x10 * y) →
        t.register_V x = s.register_V y → t.register_V y = s.register_V x →
        ∃ t', c8_run_cycle rnd2 t = some t' ∧
          t'.register_V x = s'.register_V x ∧ t'.register_V 0xF = s'.register_V 0xF := by
  have hpc := fetch_pc_lt hfetch
  have hfam : (0x8007 + 0x100 * x + 0x10 * y) &&& 0xF000 = 0x8000 := by
    rw [and_F000]; omega
  have hsub : (0x8007 + 0x100 * x + 0x10 * y) &&& 0x000F = 7 := by
    rw [and_F]; omega
  have hX : C8_REG_V_IDX (0x8007 + 0x100 * x + 0x10 * y) = x := by
    rw [reg_idx]; omega
  have hY : C8_REG_V2_IDX (0x8007 + 0x100 * x + 0x10 * y) = y := by
    rw [reg2_idx]; omega
  have hfam5 : (0x8005 + 0x100 * x + 0x10 * y) &&& 0xF000 = 0x8000 := by
    rw [and_F000]; omega
  have hsub5 : (0x8005 + 0x100 * x + 0x10 * y) &&& 0x000F = 5 := by
    rw [and_F]; omega
  have hX5 : C8_REG_V_IDX (0x8005 + 0x100 * x + 0x10 * y) = x := by
    rw [reg_idx]; omega
  have hY5 : C8_REG_V2_IDX (0x8005 + 0x100 * x + 0x10 * y) = y := by
    rw [reg2_idx]; omega
  have hmod : (s.program_counter + 2) % 65536 = s.program_counter + 2 := by omega
  have hFx : ¬ (15 = x) := fun h => hxF h.symm
  simp only [c8_run_cycle, hfetch, execute_instruction, hfam, hsub, hX, hY]
  refine ⟨_, by simp; rfl, ?_, ?_, ?_, ?_⟩
  · by_cases hc : s.register_V y > s.register_V x <;>
      simp [hc, pc_add, set_V, wr, to_u8_cast]
  · by_cases hc : s.register_V y > s.register_V x <;>
      simp [hc, pc_add, set_V, wr, hFx]
  · by_cases hc : s.register_V y > s.register_V x <;>
      simp [hc, pc_add, set_V, wr, hmod]
  · intro rnd2 t hft htx hty
    simp only [hft, hfam5, hsub5, hX5, hY5, htx, hty]
    refine ⟨_, by simp; rfl, ?_, ?_⟩
    · by_cases hc : s.register_V y > s.register_V x <;>
        simp [hc, pc_add, set_V, wr]
    · by_cases hc : s.register_V y > s.register_V x <;>
        simp [hc, pc_add, set_V, wr, hFx]

/-- C17 at `V1 = 5`, `V2 = 3`, opcode `0x8127`: the result is `3 - 5 = 254` with flag 0. -/
theorem c17_sub_reversed_witness :
    c8_fetch_next_instruction ex_subn = some (0x8007 + 0x100 * 1 + 0x10 * 2) ∧
    ∃ s', c8_run_cycle 0 ex_subn = some s' ∧
      (s'.register_V 1 : Int) = 254 ∧ s'.register_V 0xF = 0 := by
  have hf : c8_fetch_next_instruction ex_subn = some (0x8007 + 0x100 * 1 + 0x10 * 2) := by
    decide
  refine ⟨hf, ?_⟩
  obtain ⟨s', h1, h2, h3, _, _⟩ :=
    c17_sub_reversed 0 ex_subn 1 2 (by decide) (by decide) (by decide) hf
  exact ⟨s', h1, h2, h3⟩

/-- The test `value & 0x80` selects bit 7. -/
theorem and_80 (v : Nat) : v &&& 0x80 = v / 128 % 2 * 128 := by
  have h := Nat.and_two_pow v 7
  rw [Nat.testBit_to_div_mod] at h
  have h2 : (2 : Nat) ^ 7 = 128 := by norm_num
  rw [h2] at h
  rw [show (0x80 : Nat) = 128 from rfl, h]
  rcases Nat.mod_two_eq_zero_or_one (v / 128) with h0 | h1
  · simp [h0]
  · simp [h1]

/-- Closed form of the state after `8xyE` with `x ≠ 0xF`. -/
theorem run_shift_left (rnd : Nat) (s : Chip8) (x y : Nat)
    (hx : x < 16) (hxF : x ≠ 0xF) (hy : y < 16)
    (hfetch : c8_fetch_next_instruction s = some (0x800E + 0x100 * x + 0x10 * y)) :
    c8_run_cycle rnd s = some { s with
      register_V := wr (wr s.register_V 0xF (s.register_V x / 128 % 2)) x
        ((2 * s.register_V x) % 256),
      program_counter := s.program_counter + 2 } := by
  have hpc := fetch_pc_lt hfetch
  have hfam : (0x800E + 0x100 * x + 0x10 * y) &&& 0xF000 = 0x8000 := by
    rw [and_F000]; omega
  have hsub : (0x800E + 0x100 * x + 0x10 * y) &&& 0x000F = 0xE := by
    rw [and_F]; omega
  have hX : C8_REG_V_IDX (0x800E + 0x100 * x + 0x10 * y) = x := by
    rw [reg_idx]; omega
  have hmod : (s.program_counter + 2) % 65536 = s.program_counter + 2 := by omega
  have hmul : s.register_V x * 2 % 256 = 2 * s.register_V x % 256 := by omega
  simp only [c8_run_cycle, hfetch, execute_instruction, hfam, hsub, hX, and_80]
  rcases Nat.mod_two_eq_zero_or_one (s.register_V x / 128) with h0 | h1
  · simp [h0, pc_add, set_V, wr, hxF, hmul, hmod]
  · simp [h1, pc_add, set_V, wr, hxF, hmul, hmod]

/-- C18 (counterexample): with both register fields naming register 1 (opcode
`0x811E`), `V[y]` is the operand itself and the result depends on it: from
`V1 = 0x81` the flag is 1 and `V1` becomes 2, while from the state that differs
only in the value 1 held in `V[y]` the flag is 0. -/
theorem c18_same_register_counterexample :
    c8_fetch_next_instruction ex_shl_same = some (0x800E + 0x100 * 1 + 0x10 * 1) ∧
    c8_fetch_next_instruction (set_V ex_shl_same 1 1) = some (0x800E + 0x100 * 1 + 0x10 * 1) ∧
    ex_shl_same.register_V 1 = 0x81 ∧
    (∀ k, k ≠ 1 → (set_V ex_shl_same 1 1).register_V k = ex_shl_same.register_V k) ∧
    { set_V ex_shl_same 1 1 with register_V := ex_shl_same.register_V } = ex_shl_same ∧
    (c8_run_cycle 0 ex_shl_same).map (fun c => (c.register_V 0xF, c.register_V 1)) =
      some (1, 2) ∧
    (c8_run_cycle 0 (set_V ex_shl_same 1 1)).map (fun c => (c.register_V 0xF, c.register_V 1)) =
      some (0, 2) ∧
    ¬ ∀ v, (c8_run_cycle 0 (set_V ex_shl_same 1 v)).map (fun c => c.register_V 0xF) =
      (c8_run_cycle 0 ex_shl_same).map (fun c => c.register_V 0xF) := by
  refine ⟨by decide, by decide, rfl, ?_, rfl, by decide, by decide, ?_⟩
  · intro k hk
    simp [set_V, wr, hk]
  · intro h
    have h1 := h 1
    revert h1
    decide

/-- C18 (amended): for `x ≠ 0xF` and every `y`, opcode `8xyE` sets `V[0xF]` to the
original bit 7 of `V[x]` and `V[x]` to `(2 * V[x]) mod 256`; the resulting state is
the input state with these two registers and `program_counter` replaced; and when
`y ≠ x`, replacing the value held in `V[y]` by any other value `v` before the
instruction changes nothing in the result except `V[y]` itself. -/
theorem c18_shift_left (rnd : Nat) (s : Chip8) (x y : Nat)
    (hx : x < 16) (hxF : x ≠ 0xF) (hy : y < 16)
    (hfetch : c8_fetch_next_instruction s = some (0x800E + 0x100 * x + 0x10 * y)) :
    ∃ s', c8_run_cycle rnd s = some s' ∧
      s'.register_V 0xF = s.register_V x / 128 % 2 ∧
      s'.register_V x = (2 * s.register_V x) % 256 ∧
      s' = { s with
        register_V := wr (wr s.register_V 0xF (s.register_V x / 128 % 2)) x
          ((2 * s.register_V x) % 256),
        program_counter := s.program_counter + 2 } ∧
      ∀ v, y ≠ x → ∃ t', c8_run_cycle rnd (set_V s y v) = some t' ∧
        t'.register_V 0xF = s'.register_V 0xF ∧
        t'.register_V x = s'.register_V x ∧
        (∀ k, k ≠ y → t'.register_V k = s'.register_V k) ∧
        { t' with register_V := s'.register_V } = s' := by
  have hFx : ¬ (15 = x) := fun h => hxF h.symm
  refine ⟨_, run_shift_left rnd s x y hx hxF hy hfetch, ?_, ?_, rfl, ?_⟩
  · simp [wr, hFx]
  · simp [wr]
  · intro v hyx
    have hxy : ¬ (x = y) := fun h => hyx h.symm
    have hVt : (set_V s y v).register_V x = s.register_V x := by
      simp [set_V, wr, hxy]
    have hrun := run_shift_left rnd (set_V s y v) x y hx hxF hy hfetch
    rw [hVt] at hrun
    refine ⟨_, hrun, ?_, ?_, ?_, rfl⟩
    · simp [wr, hFx]
    · simp [wr]
    · intro k hk
      simp [wr, set_V, hk]

/-- C18 (amended) at `V1 = 0x81`, `V2 = 0x77`, opcode `0x812E`: flag 1, result `0x02`. -/
theorem c18_shift_left_witness :
    c8_fetch_next_instruction ex_shl = some (0x800E + 0x100 * 1 + 0x10 * 2) ∧
    ∃ s', c8_run_cycle 0 ex_shl = some s' ∧
      s'.register_V 0xF = 1 ∧ s'.register_V 1 = 0x02 := by
  have hf : c8_fetch_next_instruction ex_shl = some (0x800E + 0x100 * 1 + 0x10 * 2) := by decide
  refine ⟨hf, ?_⟩
  obtain ⟨s', h1, h2, h3, _, _⟩ :=
    c18_shift_left 0 ex_shl 1 2 (by decide) (by decide) (by decide) hf
  exact ⟨s', h1, h2, h3⟩

/-! ## Initialisation and the font -/

/-- C19: whatever the prior contents of the record, after `c8_init`:
`memory[0..0x50)` is the 80-byte font table and every other memory byte is 0;
`program_counter = 0x200`; all `V` registers, `register_I`, both timers, `stack` and
`stack_pointer` are 0; every display cell is 0 with `display_width = 64` and
`display_height = 32`; `update_display` is false; all `input_keys` are 0; and
`wait_key_V_reg = -1`. -/
theorem c19_init_state (prior : Chip8) :
    c8_builtin_sprites.length = 0x50 ∧
    (List.range 0x50).map (c8_init_from prior).memory = c8_builtin_sprites ∧
    (∀ a, 0x50 ≤ a → (c8_init_from prior).memory a = 0) ∧
    (c8_init_from prior).program_counter = 0x200 ∧
    (∀ k, (c8_init_from prior).register_V k = 0) ∧
    (c8_init_from prior).register_I = 0 ∧
    (c8_init_from prior).register_delay_timer = 0 ∧
    (c8_init_from prior).register_sound_timer = 0 ∧
    (∀ k, (c8_init_from prior).stack k = 0) ∧
    (c8_init_from prior).stack_pointer = 0 ∧
    (∀ i, (c8_init_from prior).display i = 0) ∧
    (c8_init_from prior).display_width = 64 ∧
    (c8_init_from prior).display_height = 32 ∧
    (c8_init_from prior).update_display = false ∧
    (∀ k, (c8_init_from prior).input_keys k = 0) ∧
    (c8_init_from prior).wait_key_V_reg = -1 ∧
    c8_init_from prior = c8_init := by
  refine ⟨rfl, rfl, ?_, rfl, fun _ => rfl, rfl, rfl, rfl, fun _ => rfl, rfl,
    fun _ => rfl, rfl, rfl, rfl, fun _ => rfl, rfl, ?_⟩
  · intro a ha
    have hlen : c8_builtin_sprites.length = 80 := rfl
    show (if a < c8_builtin_sprites.length then c8_builtin_sprites.getD a 0 else 0) = 0
    rw [if_neg (by omega)]
  · have hm : (c8_init_from prior).memory = c8_init.memory := by
      funext a
      have hlen : c8_builtin_sprites.length = 80 := rfl
      show (if a < c8_builtin_sprites.length then c8_builtin_sprites.getD a 0 else 0) =
        c8_builtin_sprites.getD a 0
      by_cases h : a < c8_builtin_sprites.length
      · rw [if_pos h]
      · rw [if_neg h, List.getD_eq_getElem?_getD, List.getElem?_eq_none (by omega)]
        rfl
    show ({ c8_init with memory := (c8_init_from prior).memory } : Chip8) = c8_init
    rw [hm]

/-- C20: `Fx29` (with `V[x]` a byte) sets `register_I` to `5 * V[x]` and changes
nothing else but `program_counter` (+2); and when `memory[0..0x50)` is as `c8_init`
left it and `V[x]` is a digit `d ≤ 15`, the resulting `register_I` is at most
`0x4B` and `memory[register_I .. register_I+5)` are the five rows of glyph `d` of
the font table, each with its low nibble zero. -/
theorem c20_font_address (rnd : Nat) (s : Chip8) (x : Nat)
    (hx : x < 16) (hV : s.register_V x < 256)
    (hfetch : c8_fetch_next_instruction s = some (0xF029 + 0x100 * x)) :
    ∃ s', c8_run_cycle rnd s = some s' ∧
      s'.register_I = 5 * s.register_V x ∧
      s' = { s with register_I := 5 * s.register_V x,
                    program_counter := s.program_counter + 2 } ∧
      ((∀ a, a < 0x50 → s.memory a = c8_init.memory a) → s.register_V x ≤ 15 →
        s'.register_I ≤ 0x4B ∧
        (List.range 5).map (fun k => s'.memory (s'.register_I + k)) =
          (c8_builtin_sprites.drop (5 * s.register_V x)).take 5 ∧
        ∀ k, k < 5 → s'.memory (s'.register_I + k) % 16 = 0) := by
  have hpc := fetch_pc_lt hfetch
  have hfam : (0xF029 + 0x100 * x) &&& 0xF000 = 0xF000 := by
    rw [and_F000]; omega
  have hsub : (0xF029 + 0x100 * x) &&& 0x00FF = 0x29 := by
    rw [and_FF]; omega
  have hX : C8_REG_V_IDX (0xF029 + 0x100 * x) = x := by
    rw [reg_idx]; omega
  have hmod : (s.program_counter + 2) % 65536 = s.program_counter + 2 := by omega
  have hmul : s.register_V x * 5 % 65536 = 5 * s.register_V x := by omega
  have hrun : c8_run_cycle rnd s =
      some { s with register_I := 5 * s.register_V x, program_counter := s.program_counter + 2 } := by
    simp only [c8_run_cycle, hfetch, execute_instruction, exec_F000, hfam, hsub, hX, hmul]
    simp [pc_add, hmod]
  refine ⟨_, hrun, rfl, rfl, ?_⟩
  intro hfont hd
  show 5 * s.register_V x ≤ 0x4B ∧
    (List.range 5).map (fun k => s.memory (5 * s.register_V x + k)) =
      (c8_builtin_sprites.drop (5 * s.register_V x)).take 5 ∧
    ∀ k, k < 5 → s.memory (5 * s.register_V x + k) % 16 = 0
  generalize s.register_V x = d at hd
  have hm : ∀ k, k < 5 → s.memory (5 * d + k) = c8_builtin_sprites.getD (5 * d + k) 0 := by
    intro k hk
    rw [hfont _ (by omega)]
    rfl
  refine ⟨by omega, ?_, ?_⟩
  · have hr : List.range 5 = [0, 1, 2, 3, 4] := rfl
    rw [hr]
    simp only [List.map_cons, List.map_nil]
    rw [hm 0 (by omega), hm 1 (by omega), hm 2 (by omega), hm 3 (by omega), hm 4 (by omega)]
    interval_cases d <;> rfl
  · intro k hk
    rw [hm k hk]
    interval_cases d <;> interval_cases k <;> rfl

/-- C20 at `V2 = 0xA` on a freshly initialised machine: `register_I = 0x32` and the
five bytes there are the glyph "A". -/
theorem c20_font_address_witness :
    (2 : Nat) < 16 ∧ ex_font.register_V 2 < 256 ∧
    c8_fetch_next_instruction ex_font = some (0xF029 + 0x100 * 2) ∧
    ∃ s', c8_run_cycle 0 ex_font = some s' ∧ s'.register_I = 0x32 ∧
      (List.range 5).map (fun k => s'.memory (s'.register_I + k)) =
        [0xF0, 0x90, 0xF0, 0x90, 0x90] := by
  have hf : c8_fetch_next_instruction ex_font = some (0xF029 + 0x100 * 2) := by decide
  refine ⟨by decide, by decide, hf, ?_⟩
  obtain ⟨s', h1, h2, _, h4⟩ := c20_font_address 0 ex_font 2 (by decide) (by decide) hf
  have h5 := h4 (by
    intro a ha
    show wr (wr c8_init.memory 0x200 (0xF229 / 256)) 0x201 (0xF229 % 256) a = c8_init.memory a
    unfold wr
    rw [if_neg (by omega), if_neg (by omega)]) (by decide)
  exact ⟨s', h1, h2, h5.2.1⟩

/-! ## Waiting for a key -/

theorem key_index_loop_found (keys : Nat → Nat) (c k : Nat) :
    ∀ (n start : Nat), start ≤ k → k < start + n → keys k = c →
      (∀ j, start ≤ j → j < k → keys j ≠ c) →
      key_index_loop keys c start n = (k : Int) := by
  intro n
  induction n with
  | zero => intro start h1 h2; omega
  | succ n ih =>
    intro start h1 h2 hk hfirst
    unfold key_index_loop
    by_cases hs : start = k
    · subst hs
      rw [if_pos hk.symm]
    · have hne : keys start ≠ c := hfirst start (Nat.le_refl _) (by omega)
      rw [if_neg (fun e => hne e.symm)]
      exact ih (start + 1) (by omega) (by omega) hk (fun j hj1 hj2 => hfirst j (by omega) hj2)

theorem key_index_loop_none (keys : Nat → Nat) (c : Nat) :
    ∀ (n start : Nat), (∀ j, start ≤ j → j < start + n → keys j ≠ c) →
      key_index_loop keys c start n = -1 := by
  intro n
  induction n with
  | zero => intro start _; rfl
  | succ n ih =>
    intro start h
    unfold key_index_loop
    have hne : keys start ≠ c := h start (Nat.le_refl _) (by omega)
    rw [if_neg (fun e => hne e.symm)]
    exact ih (start + 1) (fun j hj1 hj2 => h j (by omega) (by omega))

/-- Events before the awaited key press that `io_wait_for_keypress` passes over. -/
theorem wait_skips (keys : Nat → Nat) (c : Chip8) (quit : Int) (tail : List Event) :
    ∀ pre : List Event,
      (∀ e ∈ pre, e = Event.other ∨
        ∃ sc, e = Event.keydown sc ∧ ∀ j, j < 16 → keys j ≠ sc % 256) →
      io_wait_for_keypress keys c quit (pre ++ tail) = io_wait_for_keypress keys c quit tail := by
  intro pre
  induction pre with
  | nil => intro _; rfl
  | cons e pre ih =>
    intro h
    have he := h e (List.mem_cons_self _ _)
    have ih2 := ih (fun e' he' => h e' (List.mem_cons_of_mem _ he'))
    rcases he with rfl | ⟨sc, rfl, hsc⟩
    · show io_wait_for_keypress keys c quit (pre ++ tail) = _
      exact ih2
    · have hidx : io_chip8_key_index keys (sc % 256) = -1 :=
        key_index_loop_none keys (sc % 256) 16 0 (fun j _ hj => hsc j (by omega))
      rw [List.cons_append, io_wait_for_keypress]
      simp only [hidx, ne_eq, not_true_eq_false, if_false]
      exact ih2

/-- C21: `Fx0A` sets `wait_key_V_reg` to `x`, advances `program_counter` by 2 and
changes nothing else; when `io_wait_for_keypress` then receives, after events it
passes over (events other than quit and key-down, key-downs of unmapped keys), a
key-down event for the key mapped to index `k ≤ 15`, it sets `V[x] = k` and
`wait_key_V_reg = -1` and changes nothing else, `*quit` included. -/
theorem c21_await_key (rnd : Nat) (s : Chip8) (x : Nat) (hx : x < 16)
    (hfetch : c8_fetch_next_instruction s = some (0xF00A + 0x100 * x))
    (keys : Nat → Nat) (quit : Int) (pre rest : List Event) (sc k : Nat)
    (hk : k < 16) (hmap : keys k = sc % 256) (hfirst : ∀ j, j < k → keys j ≠ sc % 256)
    (hpre : ∀ e ∈ pre, e = Event.other ∨
      ∃ c, e = Event.keydown c ∧ ∀ j, j < 16 → keys j ≠ c % 256) :
    ∃ s', c8_run_cycle rnd s = some s' ∧
      s' = { s with wait_key_V_reg := (x : Int), program_counter := s.program_counter + 2 } ∧
      io_wait_for_keypress keys s' quit (pre ++ Event.keydown sc :: rest) =
        some ({ s' with register_V := wr s'.register_V x k, wait_key_V_reg := -1 }, quit) := by
  have hpc := fetch_pc_lt hfetch
  have hfam : (0xF00A + 0x100 * x) &&& 0xF000 = 0xF000 := by
    rw [and_F000]; omega
  have hsub : (0xF00A + 0x100 * x) &&& 0x00FF = 0x0A := by
    rw [and_FF]; omega
  have hX : C8_REG_V_IDX (0xF00A + 0x100 * x) = x := by
    rw [reg_idx]; omega
  have hmod : (s.program_counter + 2) % 65536 = s.program_counter + 2 := by omega
  have hrun : c8_run_cycle rnd s =
      some { s with wait_key_V_reg := (x : Int), program_counter := s.program_counter + 2 } := by
    simp only [c8_run_cycle, hfetch, execute_instruction, exec_F000, hfam, hsub, hX]
    simp [pc_add, hmod]
  refine ⟨_, hrun, rfl, ?_⟩
  rw [wait_skips keys _ quit _ pre hpre]
  have hidx : io_chip8_key_index keys (sc % 256) = (k : Int) :=
    key_index_loop_found keys (sc % 256) k 16 0 (Nat.zero_le _) (by omega) hmap
      (fun j _ hj => hfirst j hj)
  have hne : ¬ ((k : Int) = -1) := by omega
  have hu8 : to_u8 (k : Int) = k := by
    unfold to_u8
    omega
  have hrange : (0 : Int) ≤ (x : Int) ∧ (x : Int) < ((C8_V_REGISTERS : Nat) : Int) := by
    unfold C8_V_REGISTERS
    omega
  rw [io_wait_for_keypress]
  simp only [hidx, ne_eq, hne, not_false_eq_true, if_true, hrange, and_self, hu8, Int.toNat_ofNat,
    set_V]

/-- C21 at `F30A` followed by a mouse event, a press of an unmapped key and a press
of the key with SDL scancode 20 (`Q`, index 4): `V3 = 4` and `wait_key_V_reg = -1`. -/
theorem c21_await_key_witness :
    c8_fetch_next_instruction ex_await = some (0xF00A + 0x100 * 3) ∧
    ∃ s', c8_run_cycle 0 ex_await = some s' ∧ s'.wait_key_V_reg = 3 ∧
      (io_wait_for_keypress sdl_keyboard_keys s' 0
        ([Event.other, Event.keydown 44] ++ Event.keydown 20 :: [])).map
          (fun r => (r.1.register_V 3, r.1.wait_key_V_reg, r.2)) = some (4, -1, 0) := by
  have hf : c8_fetch_next_instruction ex_await = some (0xF00A + 0x100 * 3) := by decide
  refine ⟨hf, ?_⟩
  obtain ⟨s', h1, h2, h3⟩ := c21_await_key 0 ex_await 3 (by decide) hf sdl_keyboard_keys 0
    [Event.other, Event.keydown 44] [] 20 4 (by decide) (by decide) (by decide) (by
      intro e he
      simp only [List.mem_cons, List.mem_singleton, List.not_mem_nil, or_false] at he
      rcases he with rfl | rfl
      · left; rfl
      · right
        exact ⟨44, rfl, by decide⟩)
  refine ⟨s', h1, by rw [h2]; rfl, ?_⟩
  rw [h3]
  simp [wr]

/-! ## Immediate loads and register-to-register logic -/

/-- C22: `6xkk` sets `V[x] = kk` and `7xkk` sets `V[x] = (V[x] + kk) mod 256`; both
advance `program_counter` by 2 and change no other register and no other field:
after `7xkk` with `x ≠ 0xF`, `V[0xF]` is what it was, whether or not the sum
overflows. -/
theorem c22_load_add_immediate (rnd : Nat) (s : Chip8) (x kk : Nat)
    (hx : x < 16) (hkk : kk < 256) :
    (c8_fetch_next_instruction s = some (0x6000 + 0x100 * x + kk) →
      c8_run_cycle rnd s = some { s with
        register_V := wr s.register_V x kk,
        program_counter := s.program_counter + 2 }) ∧
    (c8_fetch_next_instruction s = some (0x7000 + 0x100 * x + kk) →
      ∃ s', c8_run_cycle rnd s = some s' ∧
        s' = { s with
          register_V := wr s.register_V x ((s.register_V x + kk) % 256),
          program_counter := s.program_counter + 2 } ∧
        s'.register_V x = (s.register_V x + kk) % 256 ∧
        (∀ j, j ≠ x → s'.register_V j = s.register_V j) ∧
        (x ≠ 0xF → s'.register_V 0xF = s.register_V 0xF)) := by
  refine ⟨?_, ?_⟩
  · intro hfetch
    have hpc := fetch_pc_lt hfetch
    have hfam : (0x6000 + 0x100 * x + kk) &&& 0xF000 = 0x6000 := by
      rw [and_F000]; omega
    have hX : C8_REG_V_IDX (0x6000 + 0x100 * x + kk) = x := by
      rw [reg_idx]; omega
    have hK : C8_INSTR_VALUE (0x6000 + 0x100 * x + kk) = kk := by
      rw [instr_value]; omega
    have hmod : (s.program_counter + 2) % 65536 = s.program_counter + 2 := by omega
    have hk2 : kk % 256 = kk := by omega
    simp only [c8_run_cycle, hfetch, execute_instruction, hfam, hX, hK, hk2]
    simp [pc_add, set_V, hmod]
  · intro hfetch
    have hpc := fetch_pc_lt hfetch
    have hfam : (0x7000 + 0x100 * x + kk) &&& 0xF000 = 0x7000 := by
      rw [and_F000]; omega
    have hX : C8_REG_V_IDX (0x7000 + 0x100 * x + kk) = x := by
      rw [reg_idx]; omega
    have hK : C8_INSTR_VALUE (0x7000 + 0x100 * x + kk) = kk := by
      rw [instr_value]; omega
    have hmod : (s.program_counter + 2) % 65536 = s.program_counter + 2 := by omega
    have hrun : c8_run_cycle rnd s = some { s with
        register_V := wr s.register_V x ((s.register_V x + kk) % 256),
        program_counter := s.program_counter + 2 } := by
      simp only [c8_run_cycle, hfetch, execute_instruction, hfam, hX, hK]
      simp [pc_add, set_V, hmod]
    refine ⟨_, hrun, rfl, ?_, ?_, ?_⟩
    · simp [wr]
    · intro j hj
      simp [wr, hj]
    · intro hF
      have : ¬ (15 = x) := fun e => hF e.symm
      simp [wr, this]

/-- C22 at `7120` with `V1 = 0xF0`, `V0xF = 0x55`: `V1` becomes `0x10` and `V0xF`
stays `0x55` although the sum overflows. -/
theorem c22_load_add_immediate_witness :
    (1 : Nat) < 16 ∧ (0x20 : Nat) < 256 ∧
    c8_fetch_next_instruction ex_addi = some (0x7000 + 0x100 * 1 + 0x20) ∧
    ∃ s', c8_run_cycle 0 ex_addi = some s' ∧ s'.register_V 1 = 0x10 ∧
      s'.register_V 0xF = 0x55 := by
  have hf : c8_fetch_next_instruction ex_addi = some (0x7000 + 0x100 * 1 + 0x20) := by decide
  refine ⟨by decide, by decide, hf, ?_⟩
  obtain ⟨s', h1, _, h3, _, h5⟩ :=
    (c22_load_add_immediate 0 ex_addi 1 0x20 (by decide) (by decide)).2 hf
  exact ⟨s', h1, h3, h5 (by decide)⟩

/-- C28: `8xy0` sets `V[x] = V[y]`, `8xy1` sets `V[x] = V[x] OR V[y]`, `8xy2` sets
`V[x] = V[x] AND V[y]`, `8xy3` sets `V[x] = V[x] XOR V[y]` (registers holding
bytes); each advances `program_counter` by 2 and changes no other register and no
other field, so that for `x ≠ 0xF` register `0xF` keeps its value. -/
theorem c28_assign_or_and_xor (rnd : Nat) (s : Chip8) (x y : Nat)
    (hx : x < 16) (hy : y < 16)
    (hVx : s.register_V x < 256) (hVy : s.register_V y < 256) :
    (c8_fetch_next_instruction s = some (0x8000 + 0x100 * x + 0x10 * y) →
      c8_run_cycle rnd s = some { s with
        register_V := wr s.register_V x (s.register_V y),
        program_counter := s.program_counter + 2 }) ∧
    (c8_fetch_next_instruction s = some (0x8001 + 0x100 * x + 0x10 * y) →
      c8_run_cycle rnd s = some { s with
        register_V := wr s.register_V x (s.register_V x ||| s.register_V y),
        program_counter := s.program_counter + 2 }) ∧
    (c8_fetch_next_instruction s = some (0x8002 + 0x100 * x + 0x10 * y) →
      c8_run_cycle rnd s = some { s with
        register_V := wr s.register_V x (s.register_V x &&& s.register_V y),
        program_counter := s.program_counter + 2 }) ∧
    (c8_fetch_next_instruction s = some (0x8003 + 0x100 * x + 0x10 * y) →
      c8_run_cycle rnd s = some { s with
        register_V := wr s.register_V x (s.register_V x ^^^ s.register_V y),
        program_counter := s.program_counter + 2 }) ∧
    (∀ v, x ≠ 0xF → wr s.register_V x v 0xF = s.register_V 0xF) := by
  have h0 : s.register_V y % 256 = s.register_V y := by omega
  have h1 : (s.register_V x ||| s.register_V y) % 256 = s.register_V x ||| s.register_V y :=
    Nat.mod_eq_of_lt (Nat.or_lt_two_pow (n := 8) hVx hVy)
  have h2 : (s.register_V x &&& s.register_V y) % 256 = s.register_V x &&& s.register_V y := by
    have : s.register_V x &&& s.register_V y ≤ s.register_V x := Nat.and_le_left
    omega
  have h3 : (s.register_V x ^^^ s.register_V y) % 256 = s.register_V x ^^^ s.register_V y :=
    Nat.mod_eq_of_lt (Nat.xor_lt_two_pow (n := 8) hVx hVy)
  refine ⟨?_, ?_, ?_, ?_, ?_⟩
  · intro hfetch
    have hpc := fetch_pc_lt hfetch
    have hfam : (0x8000 + 0x100 * x + 0x10 * y) &&& 0xF000 = 0x8000 := by
      rw [and_F000]; omega
    have hsub : (0x8000 + 0x100 * x + 0x10 * y) &&& 0x000F = 0 := by
      rw [and_F]; omega
    have hX : C8_REG_V_IDX (0x8000 + 0x100 * x + 0x10 * y) = x := by
      rw [reg_idx]; omega
    have hY : C8_REG_V2_IDX (0x8000 + 0x100 * x + 0x10 * y) = y := by
      rw [reg2_idx]; omega
    have hmod : (s.program_counter + 2) % 65536 = s.program_counter + 2 := by omega
    simp only [c8_run_cycle, hfetch, execute_instruction, hfam, hsub, hX, hY, h0]
    simp [pc_add, set_V, hmod]
  · intro hfetch
    have hpc := fetch_pc_lt hfetch
    have hfam : (0x8001 + 0x100 * x + 0x10 * y) &&& 0xF000 = 0x8000 := by
      rw [and_F000]; omega
    have hsub : (0x8001 + 0x100 * x + 0x10 * y) &&& 0x000F = 1 := by
      rw [and_F]; omega
    have hX : C8_REG_V_IDX (0x8001 + 0x100 * x + 0x10 * y) = x := by
      rw [reg_idx]; omega
    have hY : C8_REG_V2_IDX (0x8001 + 0x100 * x + 0x10 * y) = y := by
      rw [reg2_idx]; omega
    have hmod : (s.program_counter + 2) % 65536 = s.program_counter + 2 := by omega
    simp only [c8_run_cycle, hfetch, execute_instruction, hfam, hsub, hX, hY, h1]
    simp [pc_add, set_V, hmod]
  · intro hfetch
    have hpc := fetch_pc_lt hfetch
    have hfam : (0x8002 + 0x100 * x + 0x10 * y) &&& 0xF000 = 0x8000 := by
      rw [and_F000]; omega
    have hsub : (0x8002 + 0x100 * x + 0x10 * y) &&& 0x000F = 2 := by
      rw [and_F]; omega
    have hX : C8_REG_V_IDX (0x8002 + 0x100 * x + 0x10 * y) = x := by
      rw [reg_idx]; omega
    have hY : C8_REG_V2_IDX (0x8002 + 0x100 * x + 0x10 * y) = y := by
      rw [reg2_idx]; omega
    have hmod : (s.program_counter + 2) % 65536 = s.program_counter + 2 := by omega
    simp only [c8_run_cycle, hfetch, execute_instruction, hfam, hsub, hX, hY, h2]
    simp [pc_add, set_V, hmod]
  · intro hfetch
    have hpc := fetch_pc_lt hfetch
    have hfam : (0x8003 + 0x100 * x + 0x10 * y) &&& 0xF000 = 0x8000 := by
      rw [and_F000]; omega
    have hsub : (0x8003 + 0x100 * x + 0x10 * y) &&& 0x000F = 3 := by
      rw [and_F]; omega
    have hX : C8_REG_V_IDX (0x8003 + 0x100 * x + 0x10 * y) = x := by
      rw [reg_idx]; omega
    have hY : C8_REG_V2_IDX (0x8003 + 0x100 * x + 0x10 * y) = y := by
      rw [reg2_idx]; omega
    have hmod : (s.program_counter + 2) % 65536 = s.program_counter + 2 := by omega
    simp only [c8_run_cycle, hfetch, execute_instruction, hfam, hsub, hX, hY, h3]
    simp [pc_add, set_V, hmod]
  · intro v hF
    have : ¬ (15 = x) := fun e => hF e.symm
    simp [wr, this]

/-- C28 at `8123` with `V1 = 0x0C`, `V2 = 0x0A`, `V0xF = 0x55`: `V1` becomes `0x06`
and `V0xF` stays `0x55`. -/
theorem c28_assign_or_and_xor_witness :
    (1 : Nat) < 16 ∧ (2 : Nat) < 16 ∧
    ex_xor.register_V 1 < 256 ∧ ex_xor.register_V 2 < 256 ∧
    c8_fetch_next_instruction ex_xor = some (0x8003 + 0x100 * 1 + 0x10 * 2) ∧
    (c8_run_cycle 0 ex_xor).map (fun c => (c.register_V 1, c.register_V 0xF)) =
      some (0x06, 0x55) := by
  have hf : c8_fetch_next_instruction ex_xor = some (0x8003 + 0x100 * 1 + 0x10 * 2) := by decide
  refine ⟨by decide, by decide, by decide, by decide, hf, ?_⟩
  rw [(c28_assign_or_and_xor 0 ex_xor 1 2 (by decide) (by decide) (by decide)
    (by decide)).2.2.2.1 hf]
  decide

/-! ## Fall-through of unmatched secondary opcodes -/

/-- C24: an opcode whose secondary nibble/byte is unmatched is executed by the next
family's code: `0nnn` other than `00E0`/`00EE` yields the state that `1nnn` yields
(`program_counter = nnn`); `8xyN` with `N` not in `{0..7, 0xE}` yields the state
that `9xy0` yields (skip if `V[x] ≠ V[y]`); and `Exkk` with `kk` not in
`{9E, A1}` yields the state that `Fxkk` yields. -/
theorem c24_fall_through (rnd : Nat) (s : Chip8) (nnn x y N kk : Nat)
    (hnnn : nnn < 0x1000) (hx : x < 16) (hy : y < 16) (hN : N < 16) (hkk : kk < 256) :
    (nnn ≠ 0x0E0 → nnn ≠ 0x0EE → c8_fetch_next_instruction s = some nnn →
      c8_run_cycle rnd s = execute_instruction rnd s (0x1000 + nnn) ∧
      c8_run_cycle rnd s = some { s with program_counter := nnn }) ∧
    (8 ≤ N → N ≠ 0xE →
      c8_fetch_next_instruction s = some (0x8000 + 0x100 * x + 0x10 * y + N) →
      c8_run_cycle rnd s = execute_instruction rnd s (0x9000 + 0x100 * x + 0x10 * y) ∧
      c8_run_cycle rnd s = some { s with program_counter :=
        s.program_counter + (if s.register_V x ≠ s.register_V y then 4 else 2) }) ∧
    (kk ≠ 0x9E → kk ≠ 0xA1 →
      c8_fetch_next_instruction s = some (0xE000 + 0x100 * x + kk) →
      c8_run_cycle rnd s = execute_instruction rnd s (0xF000 + 0x100 * x + kk)) := by
  refine ⟨?_, ?_, ?_⟩
  · intro h1 h2 hfetch
    have hfam : nnn &&& 0xF000 = 0 := by
      rw [and_F000]; omega
    have hfam1 : (0x1000 + nnn) &&& 0xF000 = 0x1000 := by
      rw [and_F000]; omega
    have hlow : nnn &&& 0x0FFF = nnn := by
      rw [and_FFF]; omega
    have hlow1 : (0x1000 + nnn) &&& 0x0FFF = nnn := by
      rw [and_FFF]; omega
    have e1 : execute_instruction rnd s (0x1000 + nnn) =
        some { s with program_counter := nnn } := by
      simp only [execute_instruction, exec_1000, hfam1, hlow1]
      simp
    have e0 : c8_run_cycle rnd s = some { s with program_counter := nnn } := by
      simp only [c8_run_cycle, hfetch, execute_instruction, exec_1000, hfam, hlow]
      simp [h1, h2]
    exact ⟨e0.trans e1.symm, e0⟩
  · intro h8 hE hfetch
    have hpc := fetch_pc_lt hfetch
    have hfam : (0x8000 + 0x100 * x + 0x10 * y + N) &&& 0xF000 = 0x8000 := by
      rw [and_F000]; omega
    have hsub : (0x8000 + 0x100 * x + 0x10 * y + N) &&& 0x000F = N := by
      rw [and_F]; omega
    have hX : C8_REG_V_IDX (0x8000 + 0x100 * x + 0x10 * y + N) = x := by
      rw [reg_idx]; omega
    have hY : C8_REG_V2_IDX (0x8000 + 0x100 * x + 0x10 * y + N) = y := by
      rw [reg2_idx]; omega
    have hfam9 : (0x9000 + 0x100 * x + 0x10 * y) &&& 0xF000 = 0x9000 := by
      rw [and_F000]; omega
    have hX9 : C8_REG_V_IDX (0x9000 + 0x100 * x + 0x10 * y) = x := by
      rw [reg_idx]; omega
    have hY9 : C8_REG_V2_IDX (0x9000 + 0x100 * x + 0x10 * y) = y := by
      rw [reg2_idx]; omega
    have p2 : (s.program_counter + 2) % 65536 = s.program_counter + 2 := by omega
    have p4 : (s.program_counter + 4) % 65536 = s.program_counter + 4 := by omega
    have n0 : ¬ N = 0 := by omega
    have n1 : ¬ N = 1 := by omega
    have n2 : ¬ N = 2 := by omega
    have n3 : ¬ N = 3 := by omega
    have n4 : ¬ N = 4 := by omega
    have n5 : ¬ N = 5 := by omega
    have n6 : ¬ N = 6 := by omega
    have n7 : ¬ N = 7 := by omega
    have nE : ¬ N = 14 := hE
    have e9 : execute_instruction rnd s (0x9000 + 0x100 * x + 0x10 * y) =
        some { s with program_counter :=
          s.program_counter + (if s.register_V x ≠ s.register_V y then 4 else 2) } := by
      simp only [execute_instruction, exec_9000, hfam9, hX9, hY9]
      by_cases h : s.register_V x = s.register_V y <;> simp [h, pc_add, p2, p4]
    have e8 : c8_run_cycle rnd s = some { s with program_counter :=
          s.program_counter + (if s.register_V x ≠ s.register_V y then 4 else 2) } := by
      simp only [c8_run_cycle, hfetch, execute_instruction, exec_9000, hfam, hsub, hX, hY]
      by_cases h : s.register_V x = s.register_V y <;>
        simp [h, pc_add, p2, p4, n0, n1, n2, n3, n4, n5, n6, n7, nE]
    exact ⟨e8.trans e9.symm, e8⟩
  · intro h9E hA1 hfetch
    have hfam : (0xE000 + 0x100 * x + kk) &&& 0xF000 = 0xE000 := by
      rw [and_F000]; omega
    have hsub : (0xE000 + 0x100 * x + kk) &&& 0x00FF = kk := by
      rw [and_FF]; omega
    have hX : C8_REG_V_IDX (0xE000 + 0x100 * x + kk) = x := by
      rw [reg_idx]; omega
    have hfamF : (0xF000 + 0x100 * x + kk) &&& 0xF000 = 0xF000 := by
      rw [and_F000]; omega
    have hsubF : (0xF000 + 0x100 * x + kk) &&& 0x00FF = kk := by
      rw [and_FF]; omega
    have hXF : C8_REG_V_IDX (0xF000 + 0x100 * x + kk) = x := by
      rw [reg_idx]; omega
    have eE : c8_run_cycle rnd s = exec_F000 s (0xE000 + 0x100 * x + kk) := by
      simp only [c8_run_cycle, hfetch, execute_instruction, hfam, hsub]
      simp [h9E, hA1]
    have eF : execute_instruction rnd s (0xF000 + 0x100 * x + kk) =
        exec_F000 s (0xF000 + 0x100 * x + kk) := by
      simp only [execute_instruction, hfamF]
      simp
    rw [eE, eF]
    simp only [exec_F000, hsub, hX, hsubF, hXF]

/-- C24 at `0xE055` with `V0 = 0xAB`, `I = 0x300`: the cycle is the execution of
`0xF055`, the register dump. -/
theorem c24_fall_through_witness :
    (0x123 : Nat) < 0x1000 ∧ (0 : Nat) < 16 ∧ (0x55 : Nat) < 256 ∧
    (0x55 : Nat) ≠ 0x9E ∧ (0x55 : Nat) ≠ 0xA1 ∧
    c8_fetch_next_instruction ex_E055 = some (0xE000 + 0x100 * 0 + 0x55) ∧
    c8_run_cycle 0 ex_E055 = execute_instruction 0 ex_E055 (0xF000 + 0x100 * 0 + 0x55) :=
  ⟨by decide, by decide, by decide, by decide, by decide, by decide,
    (c24_fall_through 0 ex_E055 0x123 0 0 0 0x55 (by decide) (by decide) (by decide)
      (by decide) (by decide)).2.2 (by decide) (by decide) (by decide)⟩

/-! ## The flag when the destination is register `0xF` -/

/-- C25 (evaluation at the failing inputs): `8F14` with `V0xF = 0xFF`, `V1 = 0x05`
(sum `0x104`, carry 1) leaves `0x04` in `V0xF`, and `8F16` with `V0xF = 0x05` (low
bit 1) leaves 0 in `V0xF`; in both cases the flag value is 1. -/
theorem c25_flag_lost_when_x_is_F :
    c8_fetch_next_instruction ex_addF = some 0x8F14 ∧
    ex_addF.register_V 0xF + ex_addF.register_V 1 = 0x104 ∧
    (c8_run_cycle 0 ex_addF).map (fun c => c.register_V 0xF) = some 0x04 ∧
    c8_fetch_next_instruction ex_shrF = some 0x8F16 ∧
    ex_shrF.register_V 0xF % 2 = 1 ∧
    (c8_run_cycle 0 ex_shrF).map (fun c => c.register_V 0xF) = some 0 := by
  refine ⟨by decide, by decide, by decide, by decide, by decide, by decide⟩

/-! ## The instruction rate -/

/-- C29 (evaluation at the failing input): the rate 65536 is accepted by the option
parser, is stored as 0 in the `uint16_t` field `instr_per_sec`, and the division
`1000 / instr_per_sec` then has divisor zero; the rate 65537 is accepted and stored
as 1. -/
theorem c29_rate_truncated :
    parse_instr_rate 65536 = some 65536 ∧
    (parse_instr_rate 65536).map io_init_instr_per_sec = some 0 ∧
    ((parse_instr_rate 65536).bind
      (fun rate => io_cycle_time (io_init_instr_per_sec rate))) = none ∧
    (parse_instr_rate 65537).map io_init_instr_per_sec = some 1 := by
  refine ⟨by decide, by decide, by decide, by decide⟩

/-! ## Array indices -/

theorem isSome_ite (c : Prop) [Decidable c] (a b : Option Chip8)
    (h1 : c → a.isSome = true) (h2 : ¬ c → b.isSome = true) :
    (if c then a else b).isSome = true := by
  by_cases h : c
  · rw [if_pos h]; exact h1 h
  · rw [if_neg h]; exact h2 h

theorem reg_idx_lt (instr : Nat) : C8_REG_V_IDX instr < 16 := by
  rw [reg_idx]; omega

/-- Under `access_ok` the instruction has a resulting state. -/
theorem exec_defined (rnd : Nat) (s : Chip8) (instr : Nat) (hok : access_ok s instr) :
    (execute_instruction rnd s instr).isSome = true := by
  obtain ⟨h1, h2, h3, h4, h5, h6⟩ := hok
  have hD : instr &&& 0xF000 = 0xD000 →
      draw_in_bounds (set_V s 0xF 0) (s.register_V (C8_REG_V_IDX instr))
        (s.register_V (C8_REG_V2_IDX instr)) (List.range ((instr &&& 0x000F) % 256)) := by
    intro hf
    have e : (instr &&& 0x000F) % 256 = instr &&& 0x000F := by
      rw [and_F]; omega
    rw [e]
    exact h3 hf
  have hidx := reg_idx_lt instr
  have hnum : (C8_REG_V_IDX instr + 1) % 256 = C8_REG_V_IDX instr + 1 := by omega
  have hS : C8_STACK_SIZE = 16 := rfl
  have hK : C8_KEY_NUM = 16 := rfl
  have hM : C8_MEMORY_SIZE = 4096 := rfl
  unfold execute_instruction exec_F000 exec_9000 exec_1000 exec_unknown
  dsimp only
  repeat' (refine isSome_ite _ _ _ (fun _ => ?_) (fun _ => ?_))
  all_goals first
    | rfl
    | (have hh := h1 ‹instr = 238›; omega)
    | (have hh := h2 ‹instr &&& 61440 = 8192›; omega)
    | (have hh := h4 ‹instr &&& 61440 = 57344› (Or.inl ‹instr &&& 255 = 158›); omega)
    | (have hh := h4 ‹instr &&& 61440 = 57344› (Or.inr ‹instr &&& 255 = 161›); omega)
    | (have hh := h5 (Or.inl ‹instr &&& 61440 = 57344›) ‹instr &&& 255 = 51›; omega)
    | (have hh := h5 (Or.inr ‹instr &&& 61440 = 61440›) ‹instr &&& 255 = 51›; omega)
    | (rw [Option.isSome_map', draw_bytes_eq, if_pos (hD ‹instr &&& 61440 = 53248›)]; rfl)
    | (have hb := h6 (Or.inl ‹instr &&& 61440 = 57344›) (Or.inl ‹instr &&& 255 = 85›)
       obtain ⟨s', hs', _⟩ := dump_loop s ((C8_REG_V_IDX instr + 1) % 256) (by omega)
       rw [Option.isSome_map', hs']; rfl)
    | (have hb := h6 (Or.inr ‹instr &&& 61440 = 61440›) (Or.inl ‹instr &&& 255 = 85›)
       obtain ⟨s', hs', _⟩ := dump_loop s ((C8_REG_V_IDX instr + 1) % 256) (by omega)
       rw [Option.isSome_map', hs']; rfl)
    | (have hb := h6 (Or.inl ‹instr &&& 61440 = 57344›) (Or.inr ‹instr &&& 255 = 101›)
       obtain ⟨s', hs', _⟩ := load_loop s ((C8_REG_V_IDX instr + 1) % 256) (by omega)
       rw [Option.isSome_map', hs']; rfl)
    | (have hb := h6 (Or.inr ‹instr &&& 61440 = 61440›) (Or.inr ‹instr &&& 255 = 101›)
       obtain ⟨s', hs', _⟩ := load_loop s ((C8_REG_V_IDX instr + 1) % 256) (by omega)
       rw [Option.isSome_map', hs']; rfl)

theorem dump_loop_bound : ∀ (ks : List Nat) (s s' : Chip8),
    ks.foldlM dump_reg s = some s' → ∀ k ∈ ks, s.register_I + k < 4096 := by
  intro ks
  induction ks with
  | nil => intro s s' _ k hk; cases hk
  | cons a ks ih =>
    intro s s' h k hk
    rw [List.foldlM_cons] at h
    unfold dump_reg at h
    by_cases ha : s.register_I + a < C8_MEMORY_SIZE
    · simp only [ha, if_true, Option.bind_eq_bind, Option.some_bind] at h
      rcases List.mem_cons.1 hk with rfl | hk2
      · exact ha
      · exact ih _ _ h k hk2
    · simp only [ha, if_false, Option.bind_eq_bind, Option.none_bind] at h
      cases h

theorem load_loop_bound : ∀ (ks : List Nat) (s s' : Chip8),
    ks.foldlM load_reg s = some s' → ∀ k ∈ ks, s.register_I + k < 4096 := by
  intro ks
  induction ks with
  | nil => intro s s' _ k hk; cases hk
  | cons a ks ih =>
    intro s s' h k hk
    rw [List.foldlM_cons] at h
    unfold load_reg at h
    by_cases ha : s.register_I + a < C8_MEMORY_SIZE
    · simp only [ha, if_true, Option.bind_eq_bind, Option.some_bind] at h
      rcases List.mem_cons.1 hk with rfl | hk2
      · exact ha
      · exact ih _ _ h k hk2
    · simp only [ha, if_false, Option.bind_eq_bind, Option.none_bind] at h
      cases h

/-- The body of families `0xE`/`0xF` with low byte `0x33`, `0x55` or `0x65` has a
result only if the memory bytes it touches are inside memory. -/
theorem exec_F000_defined_only (s : Chip8) (instr : Nat)
    (h : (exec_F000 s instr).isSome = true) :
    (instr &&& 0x00FF = 0x33 → s.register_I + 2 < 4096) ∧
    ((instr &&& 0x00FF = 0x55 ∨ instr &&& 0x00FF = 0x65) →
      s.register_I + C8_REG_V_IDX instr < 4096) := by
  have hidx := reg_idx_lt instr
  have hnum : (C8_REG_V_IDX instr + 1) % 256 = C8_REG_V_IDX instr + 1 := by omega
  have hM : C8_MEMORY_SIZE = 4096 := rfl
  refine ⟨?_, ?_⟩
  · intro hsub
    simp only [exec_F000, hsub] at h
    simp only [Nat.reduceEqDiff, if_false, if_true] at h
    by_contra hc
    by_cases h0 : s.register_I < C8_MEMORY_SIZE
    · by_cases h1 : s.register_I + 1 < C8_MEMORY_SIZE
      · have h2 : ¬ s.register_I + 2 < C8_MEMORY_SIZE := by omega
        simp [h0, h1, h2] at h
      · simp [h0, h1] at h
    · simp [h0] at h
  · intro hsub
    rcases hsub with hsub | hsub
    · simp only [exec_F000, hsub, hnum] at h
      simp only [Nat.reduceEqDiff, if_false, if_true, Option.isSome_map'] at h
      obtain ⟨s', hs'⟩ := Option.isSome_iff_exists.1 h
      exact dump_loop_bound _ _ _ hs' (C8_REG_V_IDX instr) (List.mem_range.2 (by omega))
    · simp only [exec_F000, hsub, hnum] at h
      simp only [Nat.reduceEqDiff, if_false, if_true, Option.isSome_map'] at h
      obtain ⟨s', hs'⟩ := Option.isSome_iff_exists.1 h
      exact load_loop_bound _ _ _ hs' (C8_REG_V_IDX instr) (List.mem_range.2 (by omega))

/-- An instruction has a resulting state only under `access_ok`. -/
theorem exec_defined_only (rnd : Nat) (s : Chip8) (instr : Nat)
    (hsp : s.stack_pointer ≤ 16)
    (h : (execute_instruction rnd s instr).isSome = true) : access_ok s instr := by
  have hS : C8_STACK_SIZE = 16 := rfl
  have hK : C8_KEY_NUM = 16 := rfl
  refine ⟨?_, ?_, ?_, ?_, ?_, ?_⟩
  · intro hi
    subst hi
    have hfam : (0x00EE : Nat) &&& 0xF000 = 0 := by decide
    simp only [execute_instruction, hfam] at h
    simp only [Nat.reduceEqDiff, if_false, if_true] at h
    by_contra hc
    have : ¬ (s.stack_pointer + 255) % 256 < C8_STACK_SIZE := by omega
    simp [this] at h
  · intro hfam
    simp only [execute_instruction, hfam] at h
    simp only [Nat.reduceEqDiff, if_false, if_true] at h
    by_contra hc
    have : ¬ s.stack_pointer < C8_STACK_SIZE := by omega
    simp [this] at h
  · intro hfam
    have e : (instr &&& 0x000F) % 256 = instr &&& 0x000F := by
      rw [and_F]; omega
    simp only [execute_instruction, hfam, e] at h
    simp only [Nat.reduceEqDiff, if_false, if_true, Option.isSome_map', draw_bytes_eq] at h
    by_contra hc
    have hc2 : ¬ draw_in_bounds (set_V s 0xF 0) (s.register_V (C8_REG_V_IDX instr))
        (s.register_V (C8_REG_V2_IDX instr)) (List.range (instr &&& 0x000F)) := hc
    rw [if_neg hc2] at h
    cases h
  · intro hfam hsub
    rcases hsub with hsub | hsub
    · simp only [execute_instruction, hfam, hsub] at h
      simp only [Nat.reduceEqDiff, if_false, if_true] at h
      by_contra hc
      have : ¬ s.register_V (C8_REG_V_IDX instr) < C8_KEY_NUM := by omega
      simp [this] at h
    · simp only [execute_instruction, hfam, hsub] at h
      simp only [Nat.reduceEqDiff, if_false, if_true] at h
      by_contra hc
      have : ¬ s.register_V (C8_REG_V_IDX instr) < C8_KEY_NUM := by omega
      simp [this] at h
  · intro hfam hsub
    have hF : (exec_F000 s instr).isSome = true := by
      rcases hfam with hfam | hfam
      · simp only [execute_instruction, hfam, hsub] at h
        simpa using h
      · simp only [execute_instruction, hfam] at h
        simpa using h
    exact (exec_F000_defined_only s instr hF).1 hsub
  · intro hfam hsub
    have hF : (exec_F000 s instr).isSome = true := by
      rcases hfam with hfam | hfam
      · rcases hsub with hsub | hsub
        · simp only [execute_instruction, hfam, hsub] at h
          simpa using h
        · simp only [execute_instruction, hfam, hsub] at h
          simpa using h
      · simp only [execute_instruction, hfam] at h
        simpa using h
    exact (exec_F000_defined_only s instr hF).2 hsub

/-- C26 (counterexample): three states with `program_counter = 0x200`,
`register_I ≤ 0xFFF` and `stack_pointer = 0` in which the cycle indexes outside an
array: `E09E` with `V0 = 32` reads `input_keys[32]`; `D011` with `V1 = 200` and
sprite byte `0xF0` addresses display cell `200 * 64 = 12800` of 8192; `F133` with
`I = 0xFFF` writes `memory[0x1000]`. -/
theorem c26_unchecked_index_counterexample :
    (ex_key32.program_counter ≤ 0xFFE ∧ ex_key32.register_I ≤ 0xFFF ∧
      ex_key32.stack_pointer ≤ 16 ∧
      c8_fetch_next_instruction ex_key32 = some 0xE09E ∧
      ex_key32.register_V 0 = 32 ∧ c8_run_cycle 0 ex_key32 = none) ∧
    (ex_draw200.program_counter ≤ 0xFFE ∧ ex_draw200.register_I ≤ 0xFFF ∧
      ex_draw200.stack_pointer ≤ 16 ∧
      c8_fetch_next_instruction ex_draw200 = some 0xD011 ∧
      (ex_draw200.register_V 1 + 0) * ex_draw200.display_width + ex_draw200.register_V 0 + 0
        = 12800 ∧
      c8_run_cycle 0 ex_draw200 = none) ∧
    (ex_bcdFFF.program_counter ≤ 0xFFE ∧ ex_bcdFFF.register_I ≤ 0xFFF ∧
      ex_bcdFFF.stack_pointer ≤ 16 ∧
      c8_fetch_next_instruction ex_bcdFFF = some 0xF133 ∧
      ex_bcdFFF.register_I + 1 = 0x1000 ∧ c8_run_cycle 0 ex_bcdFFF = none) := by
  refine ⟨⟨by decide, by decide, by decide, by decide, rfl, rfl⟩,
    ⟨by decide, by decide, by decide, by decide, rfl, rfl⟩,
    ⟨by decide, by decide, by decide, by decide, rfl, rfl⟩⟩

/-- C26 (amended): from a state with `program_counter ≤ 0xFFE` and
`stack_pointer ≤ 16` the fetch reads two bytes inside memory, the register indices
decoded from the instruction are below 16, and all other array indices of the
cycle are inside their arrays exactly when `access_ok` holds for the state and the
fetched instruction. -/
theorem c26_accesses_in_bounds (rnd : Nat) (s : Chip8)
    (hpc : s.program_counter ≤ 0xFFE) (hsp : s.stack_pointer ≤ 16) :
    ∃ instr, c8_fetch_next_instruction s = some instr ∧
      s.program_counter + 1 < C8_MEMORY_SIZE ∧
      C8_REG_V_IDX instr < C8_V_REGISTERS ∧ C8_REG_V2_IDX instr < C8_V_REGISTERS ∧
      ((∃ s', c8_run_cycle rnd s = some s') ↔ access_ok s instr) := by
  have hlt : s.program_counter + 1 < C8_MEMORY_SIZE := by
    unfold C8_MEMORY_SIZE; omega
  have hf : c8_fetch_next_instruction s = some ((s.memory s.program_counter <<< 8 |||
      s.memory (s.program_counter + 1)) % 65536) := by
    unfold c8_fetch_next_instruction
    rw [if_pos hlt]
  refine ⟨_, hf, hlt, reg_idx_lt _, ?_, ?_⟩
  · rw [reg2_idx]
    unfold C8_V_REGISTERS
    omega
  · have hrun : c8_run_cycle rnd s = execute_instruction rnd s
        ((s.memory s.program_counter <<< 8 ||| s.memory (s.program_counter + 1)) % 65536) := by
      simp only [c8_run_cycle, hf]
    rw [hrun]
    constructor
    · rintro ⟨s', hs'⟩
      exact exec_defined_only rnd s _ hsp (Option.isSome_iff_exists.2 ⟨s', hs'⟩)
    · intro hok
      exact Option.isSome_iff_exists.1 (exec_defined rnd s _ hok)

/-- C26 (amended) on the freshly initialised machine that draws the glyph "0". -/
theorem c26_accesses_in_bounds_witness :
    ex_draw.program_counter ≤ 0xFFE ∧ ex_draw.stack_pointer ≤ 16 ∧
    ∃ instr, c8_fetch_next_instruction ex_draw = some instr ∧
      ex_draw.program_counter + 1 < C8_MEMORY_SIZE ∧
      C8_REG_V_IDX instr < C8_V_REGISTERS ∧ C8_REG_V2_IDX instr < C8_V_REGISTERS ∧
      ((∃ s', c8_run_cycle 0 ex_draw = some s') ↔ access_ok ex_draw instr) :=
  ⟨by decide, by decide, c26_accesses_in_bounds 0 ex_draw (by decide) (by decide)⟩

/-! ## The program counter -/

/-- Effect of one instruction on `program_counter`. -/
theorem exec_pc (rnd : Nat) (s : Chip8) (instr : Nat) :
    post (pc_next instr) s (execute_instruction rnd s instr) := by
  unfold execute_instruction exec_F000 exec_9000 exec_1000 exec_unknown
  dsimp only
  repeat' (refine post_ite _ _ _ _ _ (fun _ => ?_) (fun _ => ?_))
  all_goals first
    | exact post_none _ _
    | (intro s' h; cases h; left; rfl)
    | (intro s' h; cases h; right; left; rfl)
    | (intro s' h; cases h; right; right; left; rfl)
    | (intro s' h; cases h; right; right; right; left; rfl)
    | (intro s' h; cases h; right; right; right; right; rfl)
    | (intro s' h; cases h; left; simp only [pc_add, set_V]; split_ifs <;> rfl)
    | (intro s' h
       obtain ⟨c, hc, rfl⟩ := Option.map_eq_some'.1 h
       have hf := draw_loop_frame _ _ _ _ _ hc
       left; rw [hf]; rfl)
    | (intro s' h
       obtain ⟨c, hc, rfl⟩ := Option.map_eq_some'.1 h
       have hf := dump_loop_frame _ _ _ hc
       left; rw [hf]; rfl)
    | (intro s' h
       obtain ⟨c, hc, rfl⟩ := Option.map_eq_some'.1 h
       have hf := load_loop_frame _ _ _ hc
       left; rw [hf]; rfl)

/-- Effect of one instruction on `program_counter`, opcode by opcode. -/
theorem exec_pc_exact (rnd : Nat) (s : Chip8) (instr : Nat) :
    post (pc_exact instr) s (execute_instruction rnd s instr) := by
  have hE0 : instr ≠ 224 ∨ instr &&& 61440 = 0 := by
    by_cases h : instr = 224
    · right; subst h; rfl
    · left; exact h
  have hEE : instr ≠ 238 ∨ instr &&& 61440 = 0 := by
    by_cases h : instr = 238
    · right; subst h; rfl
    · left; exact h
  unfold execute_instruction exec_F000 exec_9000 exec_1000 exec_unknown
  dsimp only
  repeat' (refine post_ite _ _ _ _ _ (fun _ => ?_) (fun _ => ?_))
  all_goals first
    | exact post_none _ _
    | (intro s' h; cases h
       unfold pc_exact
       dsimp only
       refine ⟨?_, ?_, ?_, ?_, ?_, ?_, ?_, ?_, ?_, ?_⟩
       all_goals intros
       all_goals first
         | rfl
         | (exfalso; omega)
         | (simp only [pc_add, set_V]; split_ifs <;> rfl))
    | (intro s' h
       obtain ⟨c, hc, rfl⟩ := Option.map_eq_some'.1 h
       have hf := draw_loop_frame _ _ _ _ _ hc
       unfold pc_exact
       dsimp only
       refine ⟨?_, ?_, ?_, ?_, ?_, ?_, ?_, ?_, ?_, ?_⟩
       all_goals intros
       all_goals first
         | (exfalso; omega)
         | (rw [hf]; rfl))
    | (intro s' h
       obtain ⟨c, hc, rfl⟩ := Option.map_eq_some'.1 h
       have hf := dump_loop_frame _ _ _ hc
       unfold pc_exact
       dsimp only
       refine ⟨?_, ?_, ?_, ?_, ?_, ?_, ?_, ?_, ?_, ?_⟩
       all_goals intros
       all_goals first
         | (exfalso; omega)
         | (rw [hf]; rfl))
    | (intro s' h
       obtain ⟨c, hc, rfl⟩ := Option.map_eq_some'.1 h
       have hf := load_loop_frame _ _ _ hc
       unfold pc_exact
       dsimp only
       refine ⟨?_, ?_, ?_, ?_, ?_, ?_, ?_, ?_, ?_, ?_⟩
       all_goals intros
       all_goals first
         | (exfalso; omega)
         | (rw [hf]; rfl))

/-- C27 (counterexample): from `program_counter = 0xFFE` the instruction `6000`
leads to `program_counter = 0x1000`; from `0x200` the jump `1FFF` leads to `0xFFF`
and `BFFF` with `V0 = 0xFF` to `0x10FE`: all three are outside `[0, 0xFFE]`. -/
theorem c27_pc_leaves_memory_counterexample :
    ex_pcFFE.program_counter ≤ 0xFFE ∧
    c8_fetch_next_instruction ex_pcFFE = some 0x6000 ∧
    (c8_run_cycle 0 ex_pcFFE).map (fun c => c.program_counter) = some 0x1000 ∧
    ex_jumpFFF.program_counter ≤ 0xFFE ∧
    c8_fetch_next_instruction ex_jumpFFF = some 0x1FFF ∧
    (c8_run_cycle 0 ex_jumpFFF).map (fun c => c.program_counter) = some 0xFFF ∧
    ex_jumpV0.program_counter ≤ 0xFFE ∧
    c8_fetch_next_instruction ex_jumpV0 = some 0xBFFF ∧
    (c8_run_cycle 0 ex_jumpV0).map (fun c => c.program_counter) = some 0x10FE ∧
    ¬ ((0x1000 : Nat) ≤ 0xFFE) ∧ ¬ ((0xFFF : Nat) ≤ 0xFFE) ∧ ¬ ((0x10FE : Nat) ≤ 0xFFE) := by
  refine ⟨by decide, by decide, by decide, by decide, by decide, by decide, by decide,
    by decide, by decide, by decide, by decide, by decide⟩

/-- C27 (amended): from a state with `program_counter ≤ 0xFFE`, after a cycle that
stays inside the arrays `program_counter` is below `2^16` and is the value that
the opcode determines (`pc_exact`): the 12-bit literal after `1nnn`, `2nnn` and
every `0nnn` other than `00E0` and `00EE`; the literal plus `V[0]` modulo `2^16`
after `Bnnn`; the popped stack entry plus 2 modulo `2^16` after `00EE`; the old
value plus 4 after a skip instruction whose condition holds and plus 2 after one
whose condition fails; and the old value plus 2 after every other opcode.  `Bnnn`
does have a resulting state, which differs from the old one only in
`program_counter = (nnn + V[0]) mod 2^16`, read from register 0. -/
theorem c27_program_counter (rnd : Nat) (s : Chip8) (hpc : s.program_counter ≤ 0xFFE) :
    (∀ instr s', c8_fetch_next_instruction s = some instr → c8_run_cycle rnd s = some s' →
      (s'.program_counter = s.program_counter + 2 ∨
        s'.program_counter = s.program_counter + 4 ∨
        s'.program_counter = instr % 0x1000 ∨
        s'.program_counter = (instr % 0x1000 + s.register_V 0) % 65536 ∨
        s'.program_counter = (s.stack ((s.stack_pointer + 255) % 256) + 2) % 65536) ∧
      s'.program_counter < 65536 ∧
      pc_exact instr s s' ∧
      (s.program_counter + 2) % 65536 = s.program_counter + 2 ∧
      (s.program_counter + 4) % 65536 = s.program_counter + 4) ∧
    (∀ nnn, nnn < 0x1000 → c8_fetch_next_instruction s = some (0xB000 + nnn) →
      c8_run_cycle rnd s =
        some { s with program_counter := (nnn + s.register_V 0) % 65536 }) := by
  refine ⟨?_, ?_⟩
  · intro instr s' hf hrun
    simp only [c8_run_cycle, hf] at hrun
    have h := exec_pc rnd s instr s' hrun
    have he := exec_pc_exact rnd s instr s' hrun
    unfold pc_next at h
    rw [and_FFF] at h
    have h2 : (s.program_counter + 2) % 65536 = s.program_counter + 2 := by omega
    have h4 : (s.program_counter + 4) % 65536 = s.program_counter + 4 := by omega
    rw [h2, h4] at h
    refine ⟨h, ?_, he, h2, h4⟩
    omega
  · intro nnn hnnn hf
    have hfam : (0xB000 + nnn) &&& 0xF000 = 0xB000 := by
      rw [and_F000]; omega
    have hlow : (0xB000 + nnn) &&& 0x0FFF = nnn := by
      rw [and_FFF]; omega
    simp only [c8_run_cycle, hf, execute_instruction, hfam, hlow]
    simp

/-- C27 (amended) at `BFFF` with `V0 = 0xFF`: the cycle has a result, and the
opcode fixes its `program_counter` at `(0xFFF + V0) mod 2^16 = 0x10FE`. -/
theorem c27_program_counter_witness :
    ex_jumpV0.program_counter ≤ 0xFFE ∧
    c8_fetch_next_instruction ex_jumpV0 = some 0xBFFF ∧
    (c8_run_cycle 0 ex_jumpV0).map (fun c => c.program_counter) = some 0x10FE ∧
    ∀ s', c8_run_cycle 0 ex_jumpV0 = some s' →
      s'.program_counter = ((0xBFFF &&& 0x0FFF) + ex_jumpV0.register_V 0) % 65536 := by
  have hf : c8_fetch_next_instruction ex_jumpV0 = some 0xBFFF := by decide
  refine ⟨by decide, hf, ?_, ?_⟩
  · rw [(c27_program_counter 0 ex_jumpV0 (by decide)).2 0xFFF (by decide) (by decide)]
    rfl
  · intro s' hrun
    exact ((c27_program_counter 0 ex_jumpV0 (by decide)).1 0xBFFF s' hf hrun).2.2.1.2.1
      (by decide)

/-- For every rate from 1 to 65535 the stored rate is the rate passed and the
divisor of `1000 / instr_per_sec` is not zero. -/
theorem rate_stored_below_65536 (v : Int) (h1 : 1 ≤ v) (h2 : v < 65536) :
    parse_instr_rate v = some v ∧ (io_init_instr_per_sec v : Int) = v ∧
    ∃ t, io_cycle_time (io_init_instr_per_sec v) = some t := by
  have hs : (io_init_instr_per_sec v : Int) = v := by
    unfold io_init_instr_per_sec
    omega
  refine ⟨?_, hs, ?_⟩
  · unfold parse_instr_rate INT_MAX INT_MIN C8_INSTR_PER_SEC_MIN
    rw [if_neg (by omega), if_neg (by omega)]
  · unfold io_cycle_time
    rw [if_neg (by omega)]
    exact ⟨_, rfl⟩

end C8
